import Mathlib

/-!
# Famous update core: the Surface commit pipeline and the delegated event router

A shallow embedding of `src/core/Surface.js`, `src/surfaces/InputSurface.js`,
`src/core/EventEmitter.js` and `src/core/DOMEventHandler.js`.

Conventions of the embedding.

* A JavaScript object used as a dictionary is an association list in enumeration
  order (insertion order for string keys); `for (var n in obj)` walks that list.
* A size is `null` (`none`) or a two element array whose axes are a number,
  `undefined` or `true`.  Numbers are integers.
* Document elements and nodes are natural numbers (object identities).
* Calls into collaborators that are not part of the sources (`DOMBuffer`, the
  element allocator, `ElementOutput`, the event output of the renderable) are
  recorded, in call order, in a log of `Effect`s.
* Values read back from the document (`offsetWidth`, `offsetHeight`,
  `childNodes`, `value`) are an input of the call, the `Dom` snapshot.
* A call that may throw returns an `Outcome`, which keeps the state reached.
-/

namespace Famous

/-- One axis of a size array: a number, `undefined` (take the context's axis) or
`true` (measure the element). -/
inductive Axis where
  | num (n : Int)
  | undef
  | tru
  deriving DecidableEq, Repr

/-- A two element size array `[width, height]`. -/
abbrev Size := Axis × Axis

/-- Content of a Surface: a string (text or markup) or a document node. -/
inductive Content where
  | text (s : String)
  | node (ref : Nat)
  deriving DecidableEq, Repr

/-- Parent of an `appendChild`: an element, or the fragment made by `recall`. -/
inductive Parent where
  | element (el : Nat)
  | fragment
  deriving DecidableEq, Repr

/-- Calls made on collaborators, in the order the code makes them. -/
inductive Effect where
  /-- Call `DOMBuffer.addToObject(el.classList, cls)` -/
  | addToObject (el : Nat) (cls : String)
  /-- Call `DOMBuffer.removeFromObject(el.classList, cls)` -/
  | removeFromObject (el : Nat) (cls : String)
  /-- Call `DOMBuffer.assignProperty(el.style, name, value)` -/
  | assignStyle (el : Nat) (name value : String)
  /-- Call `DOMBuffer.assignProperty(el, name, value)` -/
  | assignProperty (el : Nat) (name : String) (value : Content)
  /-- Call `DOMBuffer.setAttribute(el, name, value)` -/
  | setAttribute (el : Nat) (name value : String)
  /-- Call `DOMBuffer.removeAttribute(el, name)` -/
  | removeAttribute (el : Nat) (name : String)
  /-- Call `DOMBuffer.setAttributeOnDescendants(el, name, id)` -/
  | setAttributeOnDescendants (el : Nat) (name : String) (id : Nat)
  /-- Call `DOMBuffer.appendChild(parent, child)` -/
  | appendChild (parent : Parent) (child : Nat)
  /-- Call `DOMBuffer.removeChild(el, child)` -/
  | removeChild (el : Nat) (child : Nat)
  /-- Call `el.classList.remove(cls)`, made on the element directly -/
  | classListRemove (el : Nat) (cls : String)
  /-- Call `this._eventOutput.emit(type)` -/
  | emit (type : String)
  /-- Call `allocator.allocate` with the element type -/
  | allocate (type : String)
  /-- Call `allocator.deallocate(el)` -/
  | deallocate (el : Nat)
  /-- Call `this.attach(el)` of ElementOutput -/
  | attach (el : Nat)
  /-- Call `this.detach(el)` of ElementOutput -/
  | detach (el : Nat)
  /-- Call `ElementOutput.prototype.commit.call(this, context)` -/
  | elementOutputCommit
  deriving DecidableEq, Repr

/-- Is the effect a call into `DOMBuffer`? -/
def Effect.isDOMBufferWrite : Effect → Bool
  | .addToObject _ _ => true
  | .removeFromObject _ _ => true
  | .assignStyle _ _ _ => true
  | .assignProperty _ _ _ => true
  | .setAttribute _ _ _ => true
  | .removeAttribute _ _ => true
  | .setAttributeOnDescendants _ _ _ => true
  | .appendChild _ _ => true
  | .removeChild _ _ => true
  | _ => false

/-- Is the effect an `emit` on the event output? -/
def Effect.isEmit : Effect → Bool
  | .emit _ => true
  | _ => false

/-- Result of a call that may throw; the state reached is kept either way. -/
inductive Outcome (σ : Type) where
  | returned (s : σ)
  | threw (s : σ)
  deriving DecidableEq, Repr

/-- The element pool of a context: the element `allocate` hands out per tag. -/
structure Allocator where
  allocate : String → Nat

/-- The part of a commit context that `Surface.commit` reads; the size is `null`
(`none`) or an array (see `CommitContext` for a context without the key). -/
structure Context where
  allocator : Allocator
  size : Option Size

/-- Values read back from the current target during one call. -/
structure Dom where
  offsetWidth : Int
  offsetHeight : Int
  childNodes : List Nat
  value : String

/-- The fields an InputSurface adds to a Surface. -/
structure InputFields where
  _placeholder : String
  _value : String
  _type : String
  _name : String
  deriving DecidableEq, Repr

/-- An options object: every key is optional (`none` is an absent key). -/
structure Options where
  size : Option Size := none
  classes : Option (List String) := none
  properties : Option (List (String × String)) := none
  attributes : Option (List (String × String)) := none
  content : Option Content := none
  encodeHTML : Bool := false
  placeholder : Option String := none
  value : Option String := none
  type : Option String := none
  name : Option String := none
  deriving DecidableEq, Repr

/-- State of a renderable.  `input` is `none` for a base Surface and holds the
InputSurface fields for an InputSurface; `id` and `_size` are set up by
ElementOutput (`_size` starts as `null`). -/
structure Surface where
  elementType : String := "div"
  elementClass : List String := ["famous-surface"]
  id : Nat := 0
  options : Options := {}
  properties : List (String × String) := []
  attributes : List (String × String) := []
  content : Content := .text ""
  classList : List String := []
  size : Option Size := none
  _size : Option Size := none
  _opacity : Option Nat := some 1
  _classesDirty : Bool := true
  _stylesDirty : Bool := true
  _attributesDirty : Bool := true
  _sizeDirty : Bool := true
  _contentDirty : Bool := true
  _trueSizeCheck : Bool := true
  _originDirty : Bool := false
  _transformDirty : Bool := false
  _dirtyClasses : List String := []
  _dirtyAttributes : List String := []
  _currentTarget : Option Nat := none
  input : Option InputFields := none
  deriving DecidableEq, Repr

/-! ## Dictionary helpers -/

/-- Assignment `obj[k] = v` on a dictionary: overwrite in place or append. -/
def assign {α : Type} (obj : List (String × α)) (k : String) (v : α) : List (String × α) :=
  match obj with
  | [] => [(k, v)]
  | (k1, v1) :: rest => if k1 = k then (k, v) :: rest else (k1, v1) :: assign rest k v

/-- Statement `delete obj[k]`. -/
def delete {α : Type} (obj : List (String × α)) (k : String) : List (String × α) :=
  obj.filter (fun p => p.1 ≠ k)

/-- Read `obj[k]`; `none` is `undefined`. -/
def get {α : Type} (obj : List (String × α)) (k : String) : Option α :=
  match obj with
  | [] => none
  | (k1, v1) :: rest => if k1 = k then some v1 else get rest k

namespace Surface

/-! ## Mutators (Surface.js lines 69-257, 553-557) -/

/-- Loop body of `setAttributes`, over the keys of the argument in order. -/
def setAttributesLoop (s : Surface) : List (String × String) → Outcome Surface
  | [] => .returned s
  | (n, v) :: rest =>
    if n = "style" then .threw s
    else
      setAttributesLoop
        { s with attributes := assign s.attributes n v
                 _dirtyAttributes := s._dirtyAttributes.erase n } rest

/-- Method `setAttributes(attributes)`. -/
def setAttributes (s : Surface) (attributes : List (String × String)) : Outcome Surface :=
  match setAttributesLoop s attributes with
  | .returned s1 => .returned { s1 with _attributesDirty := true }
  | .threw s1 => .threw s1

/-- Method `getAttributes()`. -/
def getAttributes (s : Surface) : List (String × String) := s.attributes

/-- Method `removeAttributes(attributes)`. -/
def removeAttributes (s : Surface) (attributes : List String) : Surface :=
  let s1 := attributes.foldl
    (fun (acc : Surface) name =>
      { acc with attributes := delete acc.attributes name
                 _dirtyAttributes := acc._dirtyAttributes ++ [name] }) s
  { s1 with _attributesDirty := true }

/-- Method `setProperties(properties)`. -/
def setProperties (s : Surface) (properties : List (String × String)) : Surface :=
  let s1 := properties.foldl
    (fun (acc : Surface) p => { acc with properties := assign acc.properties p.1 p.2 }) s
  { s1 with _stylesDirty := true }

/-- Method `getProperties()`. -/
def getProperties (s : Surface) : List (String × String) := s.properties

/-- Method `addClass(className)`. -/
def addClass (s : Surface) (className : String) : Surface :=
  if className ∉ s.classList then
    { s with classList := s.classList ++ [className], _classesDirty := true }
  else s

/-- Method `removeClass(className)`: the first occurrence is spliced out and
pushed on `_dirtyClasses`. -/
def removeClass (s : Surface) (className : String) : Surface :=
  if className ∈ s.classList then
    { s with classList := s.classList.erase className
             _dirtyClasses := s._dirtyClasses ++ [className]
             _classesDirty := true }
  else s

/-- Method `toggleClass(className)`. -/
def toggleClass (s : Surface) (className : String) : Surface :=
  if className ∈ s.classList then removeClass s className else addClass s className

/-- Method `setClasses(classList)`. -/
def setClasses (s : Surface) (classList : List String) : Surface :=
  let removal := s.classList.filter (fun c => decide (c ∉ classList))
  let s1 := removal.foldl removeClass s
  classList.foldl addClass s1

/-- Method `getClassList()`. -/
def getClassList (s : Surface) : List String := s.classList

/-- Method `setContent(content)`. -/
def setContent (s : Surface) (content : Content) : Surface :=
  if s.content ≠ content then { s with content := content, _contentDirty := true } else s

/-- Method `getContent()`. -/
def getContent (s : Surface) : Content := s.content

/-- Method `setSize(size)`. -/
def setSize (s : Surface) (size : Option Size) : Surface :=
  { s with size := size, _sizeDirty := true }

/-- Method `getSize()`. -/
def getSize (s : Surface) : Option Size :=
  match s._size with
  | some sz => some sz
  | none => s.size

/-- Method `Surface.prototype.setOptions(options)`. -/
def setOptions (s : Surface) (options : Options) : Outcome Surface :=
  let s1 := match options.size with
    | some sz => setSize s (some sz)
    | none => s
  let s2 := match options.classes with
    | some cs => setClasses s1 cs
    | none => s1
  let s3 := match options.properties with
    | some ps => setProperties s2 ps
    | none => s2
  let r := match options.attributes with
    | some attrs => setAttributes s3 attrs
    | none => .returned s3
  match r with
  | .threw s4 => .threw s4
  | .returned s4 =>
    let s5 := match options.content with
      | some c => setContent s4 c
      | none => s4
    .returned { s5 with options := options }

/-! ## Applying state to the element (Surface.js lines 259-305) -/

/-- Function `_cleanupClasses(target)`. -/
def cleanupClasses (s : Surface) (target : Nat) : Surface × List Effect :=
  ({ s with _dirtyClasses := [] }, s._dirtyClasses.map (Effect.removeFromObject target))

/-- Function `_applyStyles(target)`. -/
def applyStyles (s : Surface) (target : Nat) : List Effect :=
  s.properties.map (fun p => Effect.assignStyle target p.1 p.2)

/-- Function `_cleanupStyles(target)`. -/
def cleanupStyles (s : Surface) (target : Nat) : List Effect :=
  s.properties.map (fun p => Effect.assignStyle target p.1 "")

/-- Second loop of `_applyAttributes`: a `for (var index in this._dirtyAttributes)`
whose body shifts the array it walks.  The walk visits the indices the
array had when the loop started, in ascending order, and skips an index that is
no longer a property of the array when its turn comes. -/
def removeDirtyAttributes (target : Nat) : List Nat → List String → List Effect × List String
  | [], q => ([], q)
  | index :: rest, q =>
    match q.get? index with
    | none => removeDirtyAttributes target rest q
    | some name =>
      let r := removeDirtyAttributes target rest q.tail
      (Effect.removeAttribute target name :: r.1, r.2)

/-- Function `_applyAttributes(target)`. -/
def applyAttributes (s : Surface) (target : Nat) : Surface × List Effect :=
  let sets := s.attributes.map (fun p => Effect.setAttribute target p.1 p.2)
  let r := removeDirtyAttributes target (List.range s._dirtyAttributes.length) s._dirtyAttributes
  ({ s with _dirtyAttributes := r.2 }, sets ++ r.1)

/-- Function `_cleanupAttributes(target)`. -/
def cleanupAttributes (s : Surface) (target : Nat) : List Effect :=
  s.attributes.map (fun p => Effect.removeAttribute target p.1)
    ++ [Effect.removeAttribute target "data-arvaid"]

/-- Function `_xyNotEquals(a, b)` for arguments that are `null` (`none`) or an
array; the `undefined` size of a context without the key is covered by
`xyNotEqualsContext`. -/
def xyNotEquals (a b : Option Size) : Bool :=
  match a, b with
  | some x, some y => decide (x.1 ≠ y.1) || decide (x.2 ≠ y.2)
  | none, none => false
  | _, _ => true

/-! ## Setup, deploy and recall (Surface.js lines 315-346, 496-534) -/

/-- Method `allocate(allocator)`. -/
def allocate (s : Surface) (allocator : Allocator) : Nat :=
  allocator.allocate s.elementType

/-- Method `setup(allocator)`. -/
def setup (s : Surface) (allocator : Allocator) : Surface × List Effect :=
  let target := allocate s allocator
  ({ s with _opacity := none
            _currentTarget := some target
            _stylesDirty := true
            _classesDirty := true
            _attributesDirty := true
            _sizeDirty := true
            _contentDirty := true
            _originDirty := true
            _transformDirty := true },
   [Effect.allocate s.elementType]
     ++ s.elementClass.map (Effect.addToObject target)
     ++ [Effect.assignStyle target "display" "", Effect.attach target])

/-- Test `content && content.includes && content.includes('<')` on a string. -/
def includesMarkup (str : String) : Bool := str.toList.contains '<'

/-- Method `Surface.prototype.deploy(target)`. -/
def deploy (s : Surface) (target : Nat) (dom : Dom) : List Effect :=
  match getContent s with
  | .node n =>
    dom.childNodes.map (Effect.removeChild target)
      ++ [Effect.appendChild (.element target) n]
  | .text str =>
    if !s.options.encodeHTML && includesMarkup str then
      [Effect.assignProperty target "innerHTML" (.text str),
       Effect.setAttributeOnDescendants target "data-arvaid" s.id]
    else
      [Effect.assignProperty target "textContent" (.text str)]

/-- Method `recall(target)` (the bare name is a reserved word of Lean). -/
def recallTarget (s : Surface) (dom : Dom) : Surface × List Effect :=
  ({ s with _contentDirty := true }, dom.childNodes.map (Effect.appendChild .fragment))

end Surface

/-! ## InputSurface (InputSurface.js) -/

namespace InputSurface

/-- Method `getValue()`. -/
def getValue (s : Surface) (f : InputFields) (dom : Dom) : String :=
  if s._currentTarget.isNone || s._contentDirty then f._value else dom.value

/-- Value of `x || d` for a possibly absent string `x`. -/
def orDefault (x : Option String) (d : String) : String :=
  match x with
  | some v => if v = "" then d else v
  | none => d

/-- Method `InputSurface.prototype.setOptions(options)`; a receiver without the
InputSurface fields is a base Surface and takes the base method. -/
def setOptions (s : Surface) (options : Options) (dom : Dom) : Outcome Surface :=
  match s.input with
  | none => Surface.setOptions s options
  | some f =>
    let newPlaceholder := options.placeholder.getD ""
    let newValue := options.value.getD (getValue s f dom)
    let newType := orDefault options.type "text"
    let newName := orDefault options.name ""
    let s1 := { s with
      _contentDirty := decide (newPlaceholder ≠ f._placeholder) || decide (newValue ≠ f._value)
        || decide (newType ≠ f._type) || decide (newName ≠ f._name)
      input := some
        { _placeholder := newPlaceholder, _value := newValue, _type := newType, _name := newName } }
    Surface.setOptions s1 options

/-- Method `setPlaceholder(str)`. -/
def setPlaceholder (s : Surface) (str : String) : Surface :=
  { s with input := s.input.map (fun f => { f with _placeholder := str }), _contentDirty := true }

/-- Method `setValue(str)`. -/
def setValue (s : Surface) (str : String) : Surface :=
  { s with input := s.input.map (fun f => { f with _value := str }), _contentDirty := true }

/-- Method `setType(str)`. -/
def setType (s : Surface) (str : String) : Surface :=
  { s with input := s.input.map (fun f => { f with _type := str }), _contentDirty := true }

/-- Method `setName(str)`. -/
def setName (s : Surface) (str : String) : Surface :=
  { s with input := s.input.map (fun f => { f with _name := str }), _contentDirty := true }

/-- Method `getName()`. -/
def getName (f : InputFields) : String := f._name

/-- Method `InputSurface.prototype.deploy(target)`. -/
def deploy (f : InputFields) (target : Nat) : List Effect :=
  [Effect.assignProperty target "placeholder" (.text f._placeholder),
   Effect.assignProperty target "type" (.text f._type),
   Effect.assignProperty target "value" (.text f._value),
   Effect.assignProperty target "name" (.text f._name)]

end InputSurface

/-! ## Commit and cleanup (Surface.js lines 357-487) -/

namespace Surface

/-- Lines 362-368 of `commit`: the classes block. -/
def commitClasses (s : Surface) (target : Nat) : Surface × List Effect :=
  if s._classesDirty then
    let r := cleanupClasses s target
    ({ r.1 with _classesDirty := false, _trueSizeCheck := true },
     r.2 ++ (getClassList r.1).map (Effect.addToObject target))
  else (s, [])

/-- Lines 370-374 of `commit`: the styles block. -/
def commitStyles (s : Surface) (target : Nat) : Surface × List Effect :=
  if s._stylesDirty then
    ({ s with _stylesDirty := false, _trueSizeCheck := true }, applyStyles s target)
  else (s, [])

/-- Lines 376-380 of `commit`: the attributes block. -/
def commitAttributes (s : Surface) (target : Nat) : Surface × List Effect :=
  if s._attributesDirty then
    let r := applyAttributes s target
    ({ r.1 with _attributesDirty := false, _trueSizeCheck := true }, r.2)
  else (s, [])

/-- Lines 385-386: `if (size[i] === undefined) size[i] = origSize[i]`; `none` is
the TypeError of indexing a `null` context size. -/
def inheritAxis (a : Axis) (orig : Option Axis) : Option Axis :=
  if a = .undef then orig else some a

/-- Lines 388-399: the width axis when `size[0] === true`. -/
def measureWidth (s : Surface) (dom : Dom) : Surface × Axis :=
  if s._trueSizeCheck then
    let width := Axis.num dom.offsetWidth
    match s._size with
    | some (w, h) =>
      if w ≠ width then ({ s with _size := some (width, h), _sizeDirty := true }, width)
      else (s, width)
    | none => (s, width)
  else
    match s._size with
    | some (w, _) => (s, w)
    | none => (s, .tru)

/-- Lines 400-411: the height axis when `size[1] === true`. -/
def measureHeight (s : Surface) (dom : Dom) : Surface × Axis :=
  if s._trueSizeCheck then
    let height := Axis.num dom.offsetHeight
    match s._size with
    | some (w, h) =>
      if h ≠ height then ({ s with _size := some (w, height), _sizeDirty := true }, height)
      else (s, height)
    | none => (s, height)
  else
    match s._size with
    | some (_, h) => (s, h)
    | none => (s, .tru)

/-- Lines 360 and 382-414 of `commit`: the size this commit works with; `none`
is a TypeError. -/
def resolveSize (s : Surface) (ctx : Context) (dom : Dom) : Option (Surface × Option Size) :=
  match s.size with
  | none => some (s, ctx.size)
  | some (a, b) =>
    match inheritAxis a (ctx.size.map Prod.fst), inheritAxis b (ctx.size.map Prod.snd) with
    | some a1, some b1 =>
      if a1 = .tru ∨ b1 = .tru then
        let r0 := if a1 = .tru then measureWidth s dom else (s, a1)
        let r1 := if b1 = .tru then measureHeight r0.1 dom else (r0.1, b1)
        some ({ r1.1 with _trueSizeCheck := false }, some (r0.2, r1.2))
      else some (s, some (a1, b1))
    | _, _ => none

/-- Lines 416-422 of `commit`: store a changed size; `none` is the TypeError of
reading `size[0]` when `size` is `null` and `_size` is not. -/
def storeSize (s : Surface) (size : Option Size) : Option Surface :=
  if xyNotEquals s._size size then
    match size with
    | none => none
    | some sz => some { s with _size := some sz, _sizeDirty := true }
  else some s

/-- String `x + 'px'` for an axis value. -/
def pxString : Axis → String
  | .num n => toString n ++ "px"
  | .undef => "undefinedpx"
  | .tru => "truepx"

/-- Lines 426-427: the resolved width or height. -/
def resolvedLength (configured : Option Axis) (stored : Axis) : String :=
  if configured = some .tru ∨ stored = .tru then "" else pxString stored

/-- Lines 424-433 of `commit`: the size block, for a Surface whose listeners of
`resize` call none of its mutators (see `commitSizeDirtyWith` for the others). -/
def commitSizeDirty (s : Surface) (target : Nat) : Surface × List Effect :=
  if s._sizeDirty then
    let writes := match s._size with
      | some (w, h) =>
        [Effect.assignStyle target "width" (resolvedLength (s.size.map Prod.fst) w),
         Effect.assignStyle target "height" (resolvedLength (s.size.map Prod.snd) h)]
      | none => []
    ({ s with _sizeDirty := false }, writes ++ [Effect.emit "resize"])
  else (s, [])

/-- Call `this.deploy(target)`, dispatched on the class of the receiver. -/
def deployTarget (s : Surface) (target : Nat) (dom : Dom) : List Effect :=
  match s.input with
  | none => deploy s target dom
  | some f => InputSurface.deploy f target

/-- Lines 435-440 of `commit`: the content block, for a Surface whose listeners
of `deploy` call none of its mutators (see `commitContentWith` for the
others). -/
def commitContent (s : Surface) (target : Nat) (dom : Dom) : Surface × List Effect :=
  if s._contentDirty then
    ({ s with _contentDirty := false, _trueSizeCheck := true },
     deployTarget s target dom ++ [Effect.emit "deploy"])
  else (s, [])

/-- Lines 359-442 of `commit`, once the target is known. -/
def commitTarget (s : Surface) (target : Nat) (ctx : Context) (dom : Dom) :
    Outcome (Surface × List Effect) :=
  let c := commitClasses s target
  let y := commitStyles c.1 target
  let a := commitAttributes y.1 target
  let log := c.2 ++ y.2 ++ a.2
  match resolveSize a.1 ctx dom with
  | none => .threw (a.1, log)
  | some (s1, size) =>
    match storeSize s1 size with
    | none => .threw (s1, log)
    | some s2 =>
      let z := commitSizeDirty s2 target
      let d := commitContent z.1 target dom
      .returned (d.1, log ++ z.2 ++ d.2 ++ [Effect.elementOutputCommit])

/-- Method `commit(context)`: the new state and the calls made, in order. -/
def commit (s : Surface) (ctx : Context) (dom : Dom) : Outcome (Surface × List Effect) :=
  match s._currentTarget with
  | some target => commitTarget s target ctx dom
  | none =>
    let r := setup s ctx.allocator
    match commitTarget r.1 (allocate s ctx.allocator) ctx dom with
    | .returned (s1, log) => .returned (s1, r.2 ++ log)
    | .threw (s1, log) => .threw (s1, r.2 ++ log)

/-- Method `cleanup(allocator)`. -/
def cleanup (s : Surface) (dom : Dom) : Surface × List Effect :=
  match s._currentTarget with
  | none => (s, [])
  | some target =>
    let r := recallTarget s dom
    let c := cleanupClasses r.1 target
    ({ c.1 with _currentTarget := none },
     [Effect.emit "recall"] ++ r.2
       ++ [Effect.assignStyle target "display" "none",
           Effect.assignStyle target "opacity" "",
           Effect.assignStyle target "width" "",
           Effect.assignStyle target "height" ""]
       ++ cleanupStyles r.1 target
       ++ cleanupAttributes r.1 target
       ++ c.2
       ++ (getClassList r.1).map (Effect.classListRemove target)
       ++ s.elementClass.map (Effect.removeFromObject target)
       ++ [Effect.detach target, Effect.deallocate target])

/-- Constructor `new Surface(options)`; `id` is the identifier ElementOutput
registers for the renderable. -/
def new (id : Nat) (options : Option Options) : Outcome Surface :=
  let s : Surface := { id := id }
  match options with
  | none => .returned s
  | some o =>
    match setOptions s o with
    | .returned s1 => .returned { s1 with options := o, _currentTarget := none }
    | .threw s1 => .threw s1

end Surface

/-! ## EventEmitter (EventEmitter.js) and DOMEventHandler (DOMEventHandler.js) -/

/-- The object an emitter applies its handlers to (`this._owner`), told apart by
what a once wrapper does with it: `self` is the emitter itself (the constructor's
value); `forwarding` is an object whose `removeListener` is the emitter's own,
bound to the emitter, and which has no `_owner` (what `bindThis` is given by a
renderable); `emitter` is another EventEmitter, with itself as owner, on which
the wrapper is not registered; `plain` is an object without a `removeListener`
method. -/
inductive Owner where
  | self
  | forwarding (ref : Nat)
  | emitter (ref : Nat)
  | plain (ref : Nat)
  deriving DecidableEq, Repr

/-- An argument of an emit: `undefined`, a string, or an object such as an
event, identified by reference. -/
inductive Val where
  | undefined
  | str (s : String)
  | ref (n : Nat)
  deriving DecidableEq, Repr

/-- The receiver (`this`) of a function call. -/
inductive Receiver where
  | owner (o : Owner)
  | undefined
  deriving DecidableEq, Repr

/-- One call of a function supplied by a caller. -/
structure Invocation where
  fn : Nat
  receiver : Receiver
  args : List Val
  deriving DecidableEq, Repr

/-- The variables closed over by one call of `once`: the `type` and `handler`
arguments and `resolvers`, `resolveValue`, `isResolved`. -/
structure OnceClosure where
  type : String
  handler : Option Nat
  resolvers : List Nat := []
  resolveValue : Val := .undefined
  isResolved : Bool := false
  deriving DecidableEq, Repr

/-- A listener function, identified by reference.  `callback ref` is a function
supplied by a caller; `wrapper ref id callback` is the closure `wrapperCallback`
that `addEventListenerForAllOthers` creates: `ref` is the identity of the
closure, `id` the string form of the captured identifier and `callback` the
wrapped function; `onceWrapper closure` is the function `onceWrapper` made by
the call of `once` whose variables are entry `closure` of the emitter's
`onces`. -/
inductive Handler where
  | callback (ref : Nat)
  | wrapper (ref : Nat) (id : String) (callback : Nat)
  | onceWrapper (closure : Nat)
  deriving DecidableEq, Repr

/-- An EventEmitter: `listeners` maps a type to its handlers in registration
order, `_owner` is the receiver of the handlers, and `onces` holds, in creation
order, the closures of the calls of `once` made on this emitter. -/
structure EventEmitter where
  listeners : List (String × List Handler) := []
  _owner : Owner := .self
  onces : List OnceClosure := []
  deriving DecidableEq, Repr

namespace EventEmitter

/-- Method `on(type, handler)`, also exported as `addListener` (`on` is a
reserved word of Lean). -/
def addListener (e : EventEmitter) (type : String) (handler : Handler) : EventEmitter :=
  let hs := (get e.listeners type).getD []
  { e with listeners := assign e.listeners type (if handler ∈ hs then hs else hs ++ [handler]) }

/-- Method `removeListener(type, handler)`. -/
def removeListener (e : EventEmitter) (type : String) (handler : Handler) : EventEmitter :=
  match get e.listeners type with
  | some hs => { e with listeners := assign e.listeners type (hs.erase handler) }
  | none => e

/-- Method `replaceListeners(type, handler)`. -/
def replaceListeners (e : EventEmitter) (type : String) (handler : Handler) : EventEmitter :=
  addListener { e with listeners := assign e.listeners type [] } type handler

/-- Method `bindThis(owner)`. -/
def bindThis (e : EventEmitter) (owner : Owner) : EventEmitter :=
  { e with _owner := owner }

/-- Method `once(type, handler, options)`: the emitter with the wrapper
registered, and the index of the new closure, which stands for the thenable the
call returns. -/
def once (e : EventEmitter) (type : String) (handler : Option Nat) : EventEmitter × Nat :=
  let closure := e.onces.length
  let e1 := { e with onces := e.onces ++ [{ type := type, handler := handler }] }
  (addListener e1 type (.onceWrapper closure), closure)

/-- Method `then(resolveFunction)` of the thenable of closure `closure`. -/
def thenCall (e : EventEmitter) (closure : Nat) (resolveFunction : Nat) :
    EventEmitter × List Invocation :=
  match e.onces.get? closure with
  | none => (e, [])
  | some c =>
    if c.isResolved then (e, [⟨resolveFunction, .undefined, [c.resolveValue]⟩])
    else
      ({ e with onces := e.onces.set closure { c with resolvers := c.resolvers ++ [resolveFunction] } },
       [])

/-- Value of `this._owner` inside a once wrapper, where `this` is the owner of
the emitter. -/
def ownerOfOwner (e : EventEmitter) : Receiver :=
  match e._owner with
  | .self => .owner e._owner
  | .forwarding _ => .undefined
  | .emitter ref => .owner (.emitter ref)
  | .plain _ => .undefined

/-- Body of `onceWrapper` (lines 84-91), applied to the owner with `args`. -/
def applyOnceWrapper (e : EventEmitter) (closure : Nat) (args : List Val) :
    Outcome (EventEmitter × List Invocation) :=
  match e.onces.get? closure with
  | none => .returned (e, [])
  | some c =>
    match e._owner with
    | .plain _ => .threw (e, [])
    | owner =>
      let e1 := match owner with
        | .emitter _ => e
        | _ => removeListener e c.type (.onceWrapper closure)
      let called : List Invocation := match c.handler with
        | some f => [⟨f, ownerOfOwner e, args⟩]
        | none => []
      let v := args.head?.getD Val.undefined
      .returned
        ({ e1 with onces := e1.onces.set closure { c with resolveValue := v, isResolved := true } },
         called ++ c.resolvers.map (fun r => ⟨r, .undefined, [v]⟩))

/-- Call `handlers[i].apply(this._owner, args)` (line 45). -/
def applyListener (e : EventEmitter) (args : List Val) :
    Handler → Outcome (EventEmitter × List Invocation)
  | .callback f => .returned (e, [⟨f, .owner e._owner, args⟩])
  | .wrapper _ id f =>
    if args.head? ≠ some (Val.str id) then
      .returned (e, [⟨f, .undefined, [(args.get? 1).getD Val.undefined]⟩])
    else .returned (e, [])
  | .onceWrapper closure => applyOnceWrapper e closure args

/-- Loop of `emit` (lines 44-46) from index `i`: each round reads the array of
the type again, as the loop reads `handlers.length` and `handlers[i]` of the array
that `removeListener` splices.  `rounds` bounds the rounds left. -/
def emitLoop (type : String) (args : List Val) :
    Nat → Nat → EventEmitter → List Invocation → Outcome (EventEmitter × List Invocation)
  | 0, _, e, log => .returned (e, log)
  | rounds + 1, i, e, log =>
    match ((get e.listeners type).getD []).get? i with
    | none => .returned (e, log)
    | some h =>
      match applyListener e args h with
      | .threw r => .threw (r.1, log ++ r.2)
      | .returned r => emitLoop type args rounds (i + 1) r.1 (log ++ r.2)

/-- Method `emit(type, ...args)`: the emitter returned and the calls made, in
order.  The array never grows during the loop, so its length at the start
bounds the rounds. -/
def emit (e : EventEmitter) (type : String) (args : List Val) :
    Outcome (EventEmitter × List Invocation) :=
  match get e.listeners type with
  | none => .returned (e, [])
  | some hs => emitLoop type args hs.length 0 e []

/-- Handlers that `emit(type, ...)` applies, in order, when none of them changes
the listener list while it runs (the router registers callbacks and its own
wrappers only). -/
def appliedHandlers (e : EventEmitter) (type : String) : List Handler :=
  (get e.listeners type).getD []

end EventEmitter

/-- The pair of emitters kept per native event type. -/
structure EventEmitters where
  inclusion : EventEmitter := {}
  exclusion : EventEmitter := {}
  deriving DecidableEq, Repr

/-- What the module reads from the browser: the `iOS` test on the user agent and
whether `document.body` has the property `on` followed by the event name. -/
structure Platform where
  iOS : Bool
  hasOnProperty : String → Bool

/-- Calls made on the document by the event router. -/
inductive NativeCall where
  /-- Call `window.addEventListener(type, listener, passive)` -/
  | windowAddEventListener (type : String)
  /-- Call `element.addEventListener(type, callback)` -/
  | elementAddEventListener (element : Nat) (type : String) (callback : Nat)
  /-- Call `element.removeEventListener(type, callback)` -/
  | elementRemoveEventListener (element : Nat) (type : String) (callback : Nat)
  /-- Call `DOMBuffer.setAttribute(element, 'data-arvaid', id)` -/
  | setAttribute (element : Nat) (id : String)
  deriving DecidableEq, Repr

/-- Module state of DOMEventHandler.  `wrapperCallback` holds the property of
that name set on callbacks, `closures` counts the wrapper closures created so
far, `calls` logs the calls made on the document. -/
structure DOMEventHandler where
  initializedListeners : List (String × EventEmitters) := []
  wrapperCallback : List (Nat × Handler) := []
  closures : Nat := 0
  calls : List NativeCall := []
  deriving DecidableEq, Repr

namespace DOMEventHandler

/-- The list `singleElementEvents`. -/
def singleElementEvents (p : Platform) : List String :=
  ["submit", "focus", "blur", "load", "unload", "change", "reset", "scroll"]
    ++ (if p.iOS then ["click", "touchstart", "touchend"] else [])

/-- Function `isNativeEvent(eventName)`; the memo table returns what the test
computed the first time, which is the same value while the document is fixed. -/
def isNativeEvent (p : Platform) (eventName : String) : Bool :=
  p.hasOnProperty eventName || ["touchmove", "touchstart", "touchend"].contains eventName

/-- Function `_addEventListener(id, type, callback)`: the emitters of the type,
created together with the one native listener on first use. -/
def _addEventListener (st : DOMEventHandler) (type : String) : DOMEventHandler × EventEmitters :=
  match get st.initializedListeners type with
  | some eventEmitters => (st, eventEmitters)
  | none =>
    ({ st with initializedListeners := assign st.initializedListeners type {}
               calls := st.calls ++ [NativeCall.windowAddEventListener type] }, {})

/-- Function `addEventListenerForAllOthers(id, type, callback)`. -/
def addEventListenerForAllOthers (p : Platform) (st : DOMEventHandler) (id : String)
    (type : String) (callback : Nat) : Outcome DOMEventHandler :=
  if !isNativeEvent p type then .threw st
  else
    let r := _addEventListener st type
    let wrapperCallback := Handler.wrapper r.1.closures id callback
    let cached := match r.1.wrapperCallback.lookup callback with
      | some _ => r.1.wrapperCallback
      | none => r.1.wrapperCallback ++ [(callback, wrapperCallback)]
    .returned { r.1 with
      closures := r.1.closures + 1
      wrapperCallback := cached
      initializedListeners := assign r.1.initializedListeners type
        { r.2 with exclusion := r.2.exclusion.addListener type wrapperCallback } }

/-- Function `removeEventListenerForAllOthers(id, type, callback)`. -/
def removeEventListenerForAllOthers (st : DOMEventHandler) (type : String)
    (callback : Nat) : DOMEventHandler :=
  match get st.initializedListeners type, st.wrapperCallback.lookup callback with
  | some e, some w =>
    let e1 : EventEmitters := { e with exclusion := e.exclusion.removeListener type w }
    { st with initializedListeners := assign st.initializedListeners type e1 }
  | _, _ => st

/-- Function `addEventListener(id, element, type, callback)`. -/
def addEventListener (p : Platform) (st : DOMEventHandler) (id : String) (element : Nat)
    (type : String) (callback : Nat) : DOMEventHandler :=
  if !isNativeEvent p type then st
  else if type ∈ singleElementEvents p then
    { st with calls := st.calls ++ [NativeCall.elementAddEventListener element type callback] }
  else
    let st1 := { st with calls := st.calls ++ [NativeCall.setAttribute element id] }
    let r := _addEventListener st1 type
    let e1 : EventEmitters := { r.2 with inclusion := r.2.inclusion.addListener id (.callback callback) }
    { r.1 with initializedListeners := assign r.1.initializedListeners type e1 }

/-- Function `removeEventListener(element, id, type, callback)`. -/
def removeEventListener (p : Platform) (st : DOMEventHandler) (element : Nat) (id : String)
    (type : String) (callback : Nat) : DOMEventHandler :=
  if type ∈ singleElementEvents p then
    { st with calls := st.calls ++ [NativeCall.elementRemoveEventListener element type callback] }
  else
    match get st.initializedListeners type with
    | some e =>
      let e1 : EventEmitters :=
        { e with exclusion := e.exclusion.removeListener id (.callback callback) }
      { st with initializedListeners := assign st.initializedListeners type e1 }
    | none => st

/-- Callbacks a handler calls when it is applied by a dispatch that read
`receivedID` from the event target (the router never registers a once
wrapper). -/
def applyHandler (receivedID : Option String) : Handler → List Nat
  | .callback f => [f]
  | .wrapper _ id f => if receivedID ≠ some id then [f] else []
  | .onceWrapper _ => []

/-- The native listener installed by `_addEventListener` (lines 86-93), for
callbacks that make no call on the router while the dispatch runs, so that the
two handler arrays stay as they are: the callbacks called, in order, by one
dispatch of `type` whose target carries `receivedID` (`none` when the target has
no routing attribute). -/
def nativeListener (st : DOMEventHandler) (type : String) (receivedID : Option String) :
    List Nat :=
  match get st.initializedListeners type with
  | none => []
  | some e =>
    let included := match receivedID with
      | some rid => if rid ≠ "" then (e.inclusion.appliedHandlers rid).flatMap (applyHandler receivedID) else []
      | none => []
    included ++ (e.exclusion.appliedHandlers type).flatMap (applyHandler receivedID)

end DOMEventHandler

/-! ## Engine (Engine.js) -/

/-- A number of the priority table or a frame time limit: finite or
`Infinity`. -/
inductive Level where
  | num (n : Int)
  | infinity
  deriving DecidableEq, Repr

/-- Comparison `delta < level` of a time difference with a level. -/
def Level.above (delta : Int) : Level → Bool
  | .num n => decide (delta < n)
  | .infinity => true

/-- Comparison `a <= b` of two levels. -/
def Level.le : Level → Level → Bool
  | _, .infinity => true
  | .infinity, .num _ => false
  | .num a, .num b => decide (a ≤ b)

/-- Comparison `a < b` of two levels. -/
def Level.lt : Level → Level → Bool
  | .num a, b => Level.above a b
  | .infinity, _ => false

/-- Truthiness of a level used as a condition: `0` is falsy. -/
def Level.truthy : Level → Bool
  | .num n => decide (n ≠ 0)
  | .infinity => true

/-- What a function called by the engine may do to the engine while it runs:
call `Engine.nextTick(fn)`, `Engine.defer(fn)` or `Engine.doubleStep()`.  Other
effects of these functions are outside the model. -/
inductive Action where
  | nextTick (fn : Nat)
  | defer (fn : Nat)
  | doubleStep
  deriving DecidableEq, Repr

/-- The functions the engine calls, by reference: `fn` gives the actions of an
event handler, a next-tick function or a deferred function, `update` those of
the `update()` method of a context. -/
structure Program where
  fn : Nat → List Action
  update : Nat → List Action

/-- Calls made by a step, in order. -/
inductive EngineCall where
  /-- Call of handler `fn` by `eventHandler.emit(type)` -/
  | handler (type : String) (fn : Nat)
  /-- Call `(nextTickQueue.shift())(currentFrame)` -/
  | nextTick (fn : Nat) (frame : Nat)
  /-- Call `deferQueue.shift().call(this)` -/
  | deferred (fn : Nat)
  /-- Call `contexts[i].update()` -/
  | update (context : Nat)
  /-- Call `DOMBuffer.flushUpdates()` -/
  | flushUpdates
  deriving DecidableEq, Repr

/-- What a step reads from the clock: `currentTime` is the value of `getTime()`
at line 102; `readings` are the values `getTime()` returns at the successive
checks of the loop condition at line 128 while the deferred queue is not empty.
The wall clock advances, so only finitely many checks are made within the
budget: after the last reading listed the clock is past the budget. -/
structure Tick where
  currentTime : Int
  readings : List Int

/-- Module state of Engine.  `listeners` are the handlers registered on
`eventHandler` per type, in registration order. -/
structure Engine where
  PriorityLevels : List (String × Level) :=
    [("critical", .infinity), ("normal", .num 130), ("generous", .num 0)]
  contexts : List Nat := []
  nextTickQueue : List Nat := []
  currentFrame : Nat := 0
  nextTickFrame : Nat := 0
  deferQueue : List Nat := []
  lastTime : Int := 0
  frameTime : Option Int := none
  frameTimeLimit : Option Level := none
  listeners : List (String × List Nat) := []
  _lastFrameTimeDelta : Option Int := none
  _priorityLevel : Option Level := none
  _shouldTakeDoubleStep : Bool := false
  _disableAnimationSpec : Option (List (String × Level)) := none
  deriving DecidableEq, Repr

/-- Result of `1000 / frameTime`. -/
inductive Fps where
  | nan
  | infinity
  | value (q : Rat)
  deriving DecidableEq

namespace Engine

/-- The constant `MAX_DEFER_FRAME_TIME`. -/
def MAX_DEFER_FRAME_TIME : Int := 10

/-- Function `getCurrentFrameIndex()`. -/
def getCurrentFrameIndex (e : Engine) : Nat := e.currentFrame

/-- Function `getFrameTimeDelta()`. -/
def getFrameTimeDelta (e : Engine) : Option Int := e._lastFrameTimeDelta

/-- Function `getPriorityLevel()`. -/
def getPriorityLevel (e : Engine) : Option Level := e._priorityLevel

/-- Function `getFPS()`. -/
def getFPS (e : Engine) : Fps :=
  match e.frameTime with
  | none => .nan
  | some t => if t = 0 then .infinity else .value (1000 / (t : Rat))

/-- Function `setFPSCap(fps)` for an integer `fps`. -/
def setFPSCap (e : Engine) (fps : Int) : Engine :=
  { e with frameTimeLimit := some (if fps = 0 then .infinity else .num (Int.fdiv 1000 fps)) }

/-- Function `nextTick(fn)`. -/
def nextTick (e : Engine) (fn : Nat) : Engine :=
  { e with nextTickQueue := e.nextTickQueue ++ [fn] }

/-- Function `defer(fn)`. -/
def defer (e : Engine) (fn : Nat) : Engine :=
  { e with deferQueue := e.deferQueue ++ [fn] }

/-- Function `doubleStep()`. -/
def doubleStep (e : Engine) : Engine :=
  { e with _shouldTakeDoubleStep := true }

/-- Function `registerContext(context)`. -/
def registerContext (e : Engine) (context : Nat) : Engine :=
  { e with contexts := e.contexts ++ [context] }

/-- Function `deregisterContext(context)`. -/
def deregisterContext (e : Engine) (context : Nat) : Engine :=
  { e with contexts := e.contexts.erase context }

/-- Function `restrictAnimations(options)`, the options giving a priority level
per property name. -/
def restrictAnimations (e : Engine) (options : List (String × Level)) : Engine :=
  { e with _disableAnimationSpec := some options }

/-- Function `shouldPropertyAnimate(propertyName)`.  While `_priorityLevel` is
`undefined` the comparison at line 173 is false. -/
def shouldPropertyAnimate (e : Engine) (propertyName : String) : Bool :=
  match e._disableAnimationSpec with
  | none => true
  | some spec =>
    match get spec propertyName with
    | none => true
    | some priorityLevel =>
      match e._priorityLevel with
      | none => false
      | some current => Level.lt current priorityLevel

/-- The engine after one action of a running function. -/
def perform (e : Engine) : Action → Engine
  | .nextTick fn => nextTick e fn
  | .defer fn => defer e fn
  | .doubleStep => doubleStep e

/-- The engine after a function with the given actions has run. -/
def performAll (e : Engine) (actions : List Action) : Engine :=
  actions.foldl perform e

/-- Modelled from the spec: EventHandler is not part of the sources; the spec
has `emit` invoke every handler registered for the type, in registration order.
Call `eventHandler.emit(type)`. -/
def emit (prog : Program) (e : Engine) (type : String) : Engine × List EngineCall :=
  ((get e.listeners type).getD []).foldl
    (fun (acc : Engine × List EngineCall) h =>
      (performAll acc.1 (prog.fn h), acc.2 ++ [EngineCall.handler type h]))
    (e, [])

/-- Lines 108-116 of `step`: the priority level for a frame time delta. -/
def priorityLevelFor (delta : Int) (levels : List (String × Level)) : Level :=
  levels.foldl
    (fun (acc : Level) p => if Level.above delta p.2 && Level.le p.2 acc then p.2 else acc)
    Level.infinity

/-- Line 125 of `step`: `while (numFunctions--) (nextTickQueue.shift())(currentFrame)`.
The queue holds at least `numFunctions` functions, since running functions only
push; an empty queue would end the loop with a TypeError. -/
def drainNextTick (prog : Program) : Nat → Engine → Engine × List EngineCall
  | 0, e => (e, [])
  | numFunctions + 1, e =>
    match e.nextTickQueue with
    | [] => (e, [])
    | f :: rest =>
      let r := drainNextTick prog numFunctions
        (performAll { e with nextTickQueue := rest } (prog.fn f))
      (r.1, EngineCall.nextTick f e.currentFrame :: r.2)

/-- Lines 128-130 of `step`: the deferred functions run within the time
budget. -/
def runDeferred (prog : Program) (currentTime : Int) : List Int → Engine → Engine × List EngineCall
  | [], e => (e, [])
  | reading :: readings, e =>
    match e.deferQueue with
    | [] => (e, [])
    | f :: rest =>
      if reading - currentTime < MAX_DEFER_FRAME_TIME then
        let r := runDeferred prog currentTime readings
          (performAll { e with deferQueue := rest } (prog.fn f))
        (r.1, EngineCall.deferred f :: r.2)
      else (e, [])

/-- Line 132 of `step`: `update()` on the contexts, in order. -/
def updateContexts (prog : Program) (e : Engine) : Engine × List EngineCall :=
  e.contexts.foldl
    (fun (acc : Engine × List EngineCall) c =>
      (performAll acc.1 (prog.update c), acc.2 ++ [EngineCall.update c]))
    (e, [])

/-- Line 106 of `step`: is the frame skipped? -/
def throttles (e : Engine) (tick : Tick) : Bool :=
  match e.frameTimeLimit with
  | none => false
  | some limit => limit.truthy && Level.above (tick.currentTime - e.lastTime) limit

/-- Lines 99-106 of `step`: what every call does before the throttle test. -/
def beginStep (e : Engine) (tick : Tick) : Engine :=
  { e with
    currentFrame := e.currentFrame + 1
    nextTickFrame := e.currentFrame + 1
    _lastFrameTimeDelta := some (tick.currentTime - e.lastTime) }

/-- Lines 108-136 of `step`: the frame that is run when the step is not
skipped. -/
def runFrame (prog : Program) (e : Engine) (tick : Tick) : Engine × List EngineCall :=
  let e1 := beginStep e tick
  let e2 := { e1 with
    _priorityLevel := some (priorityLevelFor (tick.currentTime - e.lastTime) e.PriorityLevels)
    frameTime := some (tick.currentTime - e.lastTime)
    lastTime := tick.currentTime }
  let a := emit prog e2 "prerender"
  let b := drainNextTick prog a.1.nextTickQueue.length a.1
  let c := runDeferred prog tick.currentTime tick.readings b.1
  let d := updateContexts prog c.1
  let f := emit prog d.1 "postrender"
  (f.1, a.2 ++ b.2 ++ c.2 ++ d.2 ++ [EngineCall.flushUpdates] ++ f.2)

/-- Function `step()`.  Each call reads one `Tick`; a call that finds the double
step flag set calls itself once more, with the next tick.  `none` means that the
ticks given do not cover all the calls. -/
def step (prog : Program) : List Tick → Engine → Option (Engine × List EngineCall)
  | [], _ => none
  | tick :: ticks, e =>
    if throttles e tick then some (beginStep e tick, [])
    else
      let r := runFrame prog e tick
      if r.1._shouldTakeDoubleStep then
        match step prog ticks { r.1 with _shouldTakeDoubleStep := false } with
        | some n => some (n.1, r.2 ++ n.2)
        | none => none
      else some r

end Engine

/-! ## Example states used by the statements below -/

/-- An allocator that hands out element 5 for every tag. -/
def exampleAllocator : Allocator := ⟨fun _ => 5⟩

/-- A context without a size. -/
def exampleContext : Context := ⟨exampleAllocator, none⟩

/-- A document snapshot of an empty, unmeasured element. -/
def exampleDom : Dom := ⟨0, 0, [], ""⟩

/-- A Surface attached to element 5 whose last commit left nothing pending. -/
def committedSurface : Surface :=
  { _classesDirty := false, _stylesDirty := false, _attributesDirty := false, _sizeDirty := false, _contentDirty := false, _trueSizeCheck := false, _opacity := none, _currentTarget := some 5 }

/-- An InputSurface built from empty options, attached to element 5, with
nothing pending. -/
def committedInput : Surface :=
  { committedSurface with
    elementType := "input"
    input := some { _placeholder := "", _value := "", _type := "text", _name := "" } }

/-- A desktop browser: not iOS, `click` and `mousedown` are native events. -/
def desktop : Platform := ⟨false, fun t => t = "click" || t = "mousedown"⟩

/-- The second state differs from the first at most in the stored size, the
size dirty flag and the remeasure flag. -/
def Surface.SizeFrame (s s1 : Surface) : Prop :=
  s1 = { s with _size := s1._size, _sizeDirty := s1._sizeDirty, _trueSizeCheck := s1._trueSizeCheck }

/-- On every axis that the Surface measures from the element (configured as
`true`, directly or through the context), the measurement read from the element
equals the value stored in `_size`. -/
def Surface.measurementsCached (s : Surface) (ctx : Context) (dom : Dom) : Prop :=
  ∀ a b, s.size = some (a, b) →
    (Surface.inheritAxis a (ctx.size.map Prod.fst) = some .tru →
      s._size.map Prod.fst = some (.num dom.offsetWidth)) ∧
    (Surface.inheritAxis b (ctx.size.map Prod.snd) = some .tru →
      s._size.map Prod.snd = some (.num dom.offsetHeight))

/-- The pair a call returned or left behind when it threw. -/
def Outcome.state {σ : Type} : Outcome σ → σ
  | .returned s => s
  | .threw s => s

/-- A set-up Surface that measures its width and is 30 high, before its first
commit. -/
def measuredSurface : Surface :=
  (Surface.setup { size := some (.tru, .num 30) } exampleAllocator).1

/-- A document snapshot of an element 20 wide and 10 high. -/
def measuredDom : Dom := ⟨20, 10, [], ""⟩

/-- A context of size 100 by 50. -/
def sizedContext : Context := ⟨exampleAllocator, some (.num 100, .num 50)⟩

/-- A Surface that measures both axes, set up and committed twice while its
element measured 10 by 10, whose content is then replaced. -/
def remeasureSurface : Surface :=
  Surface.setContent
    (Surface.commit
      (Surface.commit (Surface.setup { size := some (.tru, .tru) } exampleAllocator).1
        sizedContext ⟨10, 10, [], ""⟩).state.1
      sizedContext ⟨10, 10, [], ""⟩).state.1
    (.text "x")

/-! ## Sequences of mutator calls and the element they are projected on -/

/-- A call of one of the class mutators. -/
inductive ClassOp where
  | addClass (className : String)
  | removeClass (className : String)
  | toggleClass (className : String)
  | setClasses (classList : List String)
  deriving DecidableEq, Repr

/-- The Surface after one class mutator call. -/
def Surface.applyClassOp (s : Surface) : ClassOp → Surface
  | .addClass c => Surface.addClass s c
  | .removeClass c => Surface.removeClass s c
  | .toggleClass c => Surface.toggleClass s c
  | .setClasses cs => Surface.setClasses s cs

/-- The Surface after a sequence of class mutator calls. -/
def Surface.applyClassOps (s : Surface) (ops : List ClassOp) : Surface :=
  ops.foldl Surface.applyClassOp s

/-- Modelled from the spec: DOMBuffer is not part of the sources; the spec
requires it to apply the queued operations in order, an add of a class token
putting the token on the element and a remove taking it off.  Effect of one
queued call on the class tokens of element `el`. -/
def applyClassWrite (el : Nat) (classes : List String) : Effect → List String
  | .addToObject t c => if t = el ∧ c ∉ classes then classes ++ [c] else classes
  | .removeFromObject t c => if t = el then classes.filter (fun x => x ≠ c) else classes
  | .classListRemove t c => if t = el then classes.filter (fun x => x ≠ c) else classes
  | _ => classes

/-- Modelled from the spec: the class tokens of element `el` after the queued
calls of a log have been applied in order (see `applyClassWrite`). -/
def applyClassWrites (el : Nat) (classes : List String) (log : List Effect) : List String :=
  log.foldl (applyClassWrite el) classes

/-- Is the effect a write to the class tokens of an element? -/
def Effect.isClassWrite : Effect → Bool
  | .addToObject _ _ => true
  | .removeFromObject _ _ => true
  | .classListRemove _ _ => true
  | _ => false

/-- What a later state keeps of an earlier one across class mutator calls: the
target, every class either still listed or queued for removal with the classes
flag set, the queue and the flag only growing, and no change at all while the
flag is clear. -/
def Surface.ClassStep (s s1 : Surface) : Prop :=
  s1._currentTarget = s._currentTarget ∧
  (∀ c ∈ s.classList, c ∈ s1.classList ∨ (c ∈ s1._dirtyClasses ∧ s1._classesDirty = true)) ∧
  (∀ c ∈ s._dirtyClasses, c ∈ s1._dirtyClasses) ∧
  (s._classesDirty = true → s1._classesDirty = true) ∧
  (s1._classesDirty = false → s1 = s)

/-- A call of `setProperties`, `setAttributes` or `addClass`. -/
inductive Mutation where
  | setProperties (properties : List (String × String))
  | setAttributes (attributes : List (String × String))
  | addClass (className : String)
  deriving DecidableEq, Repr

/-- The Surface after one such call, whether the call returned or threw. -/
def Surface.applyMutation (s : Surface) : Mutation → Surface
  | .setProperties ps => Surface.setProperties s ps
  | .setAttributes attrs => (Surface.setAttributes s attrs).state
  | .addClass c => Surface.addClass s c

/-- The Surface after a sequence of such calls. -/
def Surface.applyMutations (s : Surface) (ops : List Mutation) : Surface :=
  ops.foldl Surface.applyMutation s

/-- Is the call a `setProperties`? -/
def Mutation.isSetProperties : Mutation → Bool
  | .setProperties _ => true
  | _ => false

/-- Is the call a `setAttributes` that returns (its argument has no key
`style`)? -/
def Mutation.isReturningSetAttributes : Mutation → Bool
  | .setAttributes attrs => decide ("style" ∉ attrs.map Prod.fst)
  | _ => false

/-- Is the effect a `DOMBuffer.addToObject`? -/
def Effect.isAddToObject : Effect → Bool
  | .addToObject _ _ => true
  | _ => false

/-- Is the effect a `DOMBuffer.assignProperty` on the style of an element? -/
def Effect.isAssignStyle : Effect → Bool
  | .assignStyle _ _ _ => true
  | _ => false

/-- Is the effect a `DOMBuffer.setAttribute`? -/
def Effect.isSetAttribute : Effect → Bool
  | .setAttribute _ _ _ => true
  | _ => false

/-- What a sequence of `setProperties` / `setAttributes` / `addClass` calls
leaves alone, and how it moves the class list and the three flags. -/
def Surface.AspectStep (s s1 : Surface) (styles attrs : Bool) : Prop :=
  s1.size = s.size ∧ s1._size = s._size ∧ s1._sizeDirty = s._sizeDirty ∧
  s1._contentDirty = s._contentDirty ∧ s1._currentTarget = s._currentTarget ∧
  s1._stylesDirty = (s._stylesDirty || styles) ∧
  s1._attributesDirty = (s._attributesDirty || attrs) ∧
  ∃ added, s1.classList = s.classList ++ added ∧
    s1._classesDirty = (s._classesDirty || !added.isEmpty)

/-! ## Sequences of calls on the event router -/

/-- A call of one of the four registration functions of DOMEventHandler. -/
inductive RouterCall where
  | addEventListener (id : String) (element : Nat) (type : String) (callback : Nat)
  | addEventListenerForAllOthers (id : String) (type : String) (callback : Nat)
  | removeEventListener (element : Nat) (id : String) (type : String) (callback : Nat)
  | removeEventListenerForAllOthers (id : String) (type : String) (callback : Nat)
  deriving DecidableEq, Repr

/-- The module state after one call, whether the call returned or threw. -/
def DOMEventHandler.call (p : Platform) (st : DOMEventHandler) : RouterCall → DOMEventHandler
  | .addEventListener id element type callback =>
    DOMEventHandler.addEventListener p st id element type callback
  | .addEventListenerForAllOthers id type callback =>
    (DOMEventHandler.addEventListenerForAllOthers p st id type callback).state
  | .removeEventListener element id type callback =>
    DOMEventHandler.removeEventListener p st element id type callback
  | .removeEventListenerForAllOthers _ type callback =>
    DOMEventHandler.removeEventListenerForAllOthers st type callback

/-- The module state after a sequence of calls. -/
def DOMEventHandler.run (p : Platform) (st : DOMEventHandler) (calls : List RouterCall) :
    DOMEventHandler :=
  calls.foldl (DOMEventHandler.call p) st

/-- Number of native listeners attached to `window` for a type: the code never
removes one, and every `window.addEventListener` call passes a new function. -/
def DOMEventHandler.windowListeners (st : DOMEventHandler) (type : String) : Nat :=
  st.calls.count (NativeCall.windowAddEventListener type)

/-- Registration of `click` for identifier `r.1` on element `r.2.1` with
callback `r.2.2`. -/
def clickRegistration (r : String × Nat × Nat) : RouterCall :=
  .addEventListener r.1 r.2.1 "click" r.2.2

/-- A thousand renderables, numbered from 0, each with its own element and
callback. -/
def thousandRenderables : List (String × Nat × Nat) :=
  (List.range 1000).map (fun i => (toString i, i, i))

/-- An iOS browser on which `click` is a native event. -/
def iPhone : Platform := ⟨true, fun t => t = "click"⟩

/-- Each type has one native listener on `window` if its emitters exist and none
otherwise. -/
def DOMEventHandler.ListenerPerType (st : DOMEventHandler) : Prop :=
  ∀ type, st.windowListeners type = if (get st.initializedListeners type).isSome then 1 else 0

/-! ## Sequences of calls on an emitter -/

/-- A call of a method of an EventEmitter. -/
inductive EmitterCall where
  /-- Call of `on`, or of its alias `addListener` -/
  | register (type : String) (handler : Handler)
  | once (type : String) (handler : Option Nat)
  | removeListener (type : String) (handler : Handler)
  | replaceListeners (type : String) (handler : Handler)
  | emit (type : String) (args : List Val)
  | bindThis (owner : Owner)
  deriving DecidableEq, Repr

/-- The emitter after one call, whether the call returned or threw. -/
def EventEmitter.call (e : EventEmitter) : EmitterCall → EventEmitter
  | .register type handler => EventEmitter.addListener e type handler
  | .once type handler => (EventEmitter.once e type handler).1
  | .removeListener type handler => EventEmitter.removeListener e type handler
  | .replaceListeners type handler => EventEmitter.replaceListeners e type handler
  | .emit type args => (EventEmitter.emit e type args).state.1
  | .bindThis owner => EventEmitter.bindThis e owner

/-- The emitter after a sequence of calls. -/
def EventEmitter.run (e : EventEmitter) (calls : List EmitterCall) : EventEmitter :=
  calls.foldl EventEmitter.call e

/-- No handler appears twice in the list of any type. -/
def NoDuplicates (listeners : List (String × List Handler)) : Prop :=
  ∀ type hs, get listeners type = some hs → hs.Nodup

/-! ## Identifiers and wrapper closures of the event router -/

/-- An identifier as callers pass it: a string or a number. -/
inductive Identifier where
  | str (s : String)
  | num (n : Int)
  deriving DecidableEq, Repr

/-- String form of an identifier: the value of `"" + id`, which is also the
property key `id` stands for. -/
def Identifier.toJSString : Identifier → String
  | .str s => s
  | .num n => toString n

/-- A wrapper closure has an identity below `n`. -/
def Handler.refBelow (n : Nat) : Handler → Prop
  | .wrapper ref _ _ => ref < n
  | _ => True

/-- Every wrapper on a list of the emitter was created as closure number less
than `n`. -/
def EventEmitter.WrappersBelow (n : Nat) (e : EventEmitter) : Prop :=
  ∀ k hs h, get e.listeners k = some hs → h ∈ hs → Handler.refBelow n h

/-- Every wrapper on an exclusion list was created as closure number less than
`n`. -/
def ExclusionBelow (n : Nat) (listeners : List (String × EventEmitters)) : Prop :=
  ∀ type e, get listeners type = some e → EventEmitter.WrappersBelow n e.exclusion

/-! ## Notions used to state what a step of the engine does -/

/-- The function an action passes to `Engine.nextTick`, if it is such a call. -/
def Action.queued : Action → List Nat
  | .nextTick fn => [fn]
  | _ => []

/-- The functions a running function passes to `Engine.nextTick`, in order. -/
def queuedBy (actions : List Action) : List Nat :=
  actions.flatMap Action.queued

/-- The handlers registered on the engine for a type, in registration order. -/
def Engine.handlersOf (e : Engine) (type : String) : List Nat :=
  (get e.listeners type).getD []

/-- The actions of the function run by a call of a step. -/
def Engine.actionsOf (prog : Program) : EngineCall → List Action
  | .handler _ fn => prog.fn fn
  | .nextTick fn _ => prog.fn fn
  | .deferred fn => prog.fn fn
  | .update context => prog.update context
  | .flushUpdates => []

/-- The order of the calls of one frame: the `prerender` handlers, next-tick
functions, deferred functions, `update()` of every context in registration
order, one `flushUpdates()`, the `postrender` handlers. -/
def Engine.FrameOrder (e : Engine) (calls : List EngineCall) : Prop :=
  ∃ (frame : Nat) (ticks deferred : List Nat),
    calls = (e.handlersOf "prerender").map (EngineCall.handler "prerender")
      ++ ticks.map (fun fn => EngineCall.nextTick fn frame)
      ++ deferred.map EngineCall.deferred
      ++ e.contexts.map EngineCall.update
      ++ [EngineCall.flushUpdates]
      ++ (e.handlersOf "postrender").map (EngineCall.handler "postrender")

/-- The second state differs from the first at most in the two queues and the
double step flag. -/
def Engine.QueueFrame (e e1 : Engine) : Prop :=
  e1 = { e with
    nextTickQueue := e1.nextTickQueue
    deferQueue := e1.deferQueue
    _shouldTakeDoubleStep := e1._shouldTakeDoubleStep }

/-- The function of a call `(nextTickQueue.shift())(currentFrame)`. -/
def EngineCall.tickedFn : EngineCall → Option Nat
  | .nextTick fn _ => some fn
  | _ => none

/-- The clock of the example step: `getTime()` gives 20 at line 102, then 21
and 40 at the checks of the deferred budget. -/
def exampleTick : Tick := ⟨20, [21, 40]⟩

/-- The engine at line 120 of `step`, when `prerender` is about to be
emitted. -/
def Engine.frameStart (e : Engine) (tick : Tick) : Engine :=
  { Engine.beginStep e tick with
    _priorityLevel :=
      some (Engine.priorityLevelFor (tick.currentTime - e.lastTime) e.PriorityLevels)
    frameTime := some (tick.currentTime - e.lastTime)
    lastTime := tick.currentTime }

/-- Spec wording of the priority level: the smallest threshold of the table that
is strictly greater than `delta`, and `Infinity` when no threshold is greater. -/
def Engine.IsSmallestThresholdAbove (delta : Int) (levels : List (String × Level))
    (r : Level) : Prop :=
  ((∃ p ∈ levels, Level.above delta p.2 = true) →
    (∃ p ∈ levels, p.2 = r) ∧ Level.above delta r = true ∧
      ∀ p ∈ levels, Level.above delta p.2 = true → Level.le r p.2 = true) ∧
  ((¬ ∃ p ∈ levels, Level.above delta p.2 = true) → r = Level.infinity)

/-- An engine with a cap of 60 frames per second whose last accepted step, at
time 20, took 20 ms. -/
def cappedEngine : Engine :=
  (Engine.runFrame ⟨fun _ => [], fun _ => []⟩ (Engine.setFPSCap {} 60) ⟨20, []⟩).1

/-- Functions without actions, except handler 1, which calls
`Engine.nextTick(2)`, and function 5, which calls `Engine.nextTick(6)`. -/
def exampleProgram : Program :=
  ⟨fun f => if f = 1 then [.nextTick 2] else if f = 5 then [.nextTick 6] else [], fun _ => []⟩

/-- An engine with handler 1 on `prerender`, handler 3 on `postrender`, two
contexts, function 5 waiting for the next tick and functions 7 and 8
deferred. -/
def exampleEngine : Engine :=
  { listeners := [("prerender", [1]), ("postrender", [3])]
    contexts := [10, 11]
    nextTickQueue := [5]
    deferQueue := [7, 8] }

/-! ## Notions used to state the animation restriction and the registry -/

/-- Modelled from the spec: level `a` is strictly more permissive than level
`b`, the levels being ordered from most to least permissive as critical >
normal > generous, that is, as their thresholds `Infinity`, 130 and 0. -/
def Level.morePermissive (a b : Level) : Bool := Level.lt b a

/-- An engine told to restrict `size` at level critical and `opacity` at level
normal. -/
def restrictedEngine : Engine :=
  Engine.restrictAnimations {} [("size", .infinity), ("opacity", .num 130)]

/-- The context of a call `contexts[i].update()`. -/
def EngineCall.updatedContext : EngineCall → Option Nat
  | .update context => some context
  | _ => none

/-- A call on the registry of contexts. -/
inductive ContextCall where
  | registerContext (context : Nat)
  | deregisterContext (context : Nat)
  deriving DecidableEq, Repr

/-- The engine after a call on the registry. -/
def Engine.callContext (e : Engine) : ContextCall → Engine
  | .registerContext context => e.registerContext context
  | .deregisterContext context => e.deregisterContext context

/-- The engine after a sequence of calls on the registry. -/
def Engine.runContextCalls (e : Engine) (calls : List ContextCall) : Engine :=
  calls.foldl Engine.callContext e

/-- No call of the sequence registers a context that is registered at the time
of the call. -/
def Engine.registersOnlyNew : Engine → List ContextCall → Bool
  | _, [] => true
  | e, .registerContext context :: rest =>
    decide (context ∉ e.contexts) && registersOnlyNew (e.registerContext context) rest
  | e, .deregisterContext context :: rest =>
    registersOnlyNew (e.deregisterContext context) rest

/-! ## A native dispatch whose callbacks call the router -/

/-- What the callbacks registered on the router do when they are called: the
calls each one makes on the router, in order. -/
structure RouterProgram where
  callback : Nat → List RouterCall

/-- One call on the router made by a running callback. -/
def DOMEventHandler.callOutcome (p : Platform) (st : DOMEventHandler) :
    RouterCall → Outcome DOMEventHandler
  | .addEventListener id element type callback =>
    .returned (DOMEventHandler.addEventListener p st id element type callback)
  | .addEventListenerForAllOthers id type callback =>
    DOMEventHandler.addEventListenerForAllOthers p st id type callback
  | .removeEventListener element id type callback =>
    .returned (DOMEventHandler.removeEventListener p st element id type callback)
  | .removeEventListenerForAllOthers _ type callback =>
    .returned (DOMEventHandler.removeEventListenerForAllOthers st type callback)

/-- The calls of a running callback, up to the first one that throws. -/
def DOMEventHandler.runCallback (p : Platform) :
    DOMEventHandler → List RouterCall → Outcome DOMEventHandler
  | st, [] => .returned st
  | st, call :: rest =>
    match DOMEventHandler.callOutcome p st call with
    | .returned st1 => DOMEventHandler.runCallback p st1 rest
    | .threw st1 => .threw st1

/-- The array `listeners[key]` of the inclusion or of the exclusion emitter of a
type, as it is at this point of a dispatch; `none` is `undefined`. -/
def DOMEventHandler.handlersNow (st : DOMEventHandler) (type : String) (exclusion : Bool)
    (key : String) : Option (List Handler) :=
  match get st.initializedListeners type with
  | none => none
  | some e => get (if exclusion then e.exclusion.listeners else e.inclusion.listeners) key

/-- The call of a caller's function that `handlers[i].apply(this._owner, args)`
makes (EventEmitter.js line 45): a registered callback is called with the
arguments of the emit; a wrapper of `addEventListenerForAllOthers`
(DOMEventHandler.js lines 47-52) calls its callback with the event when the
received id is not the string form of its id.  The emitters of the router keep
their first owner and hold no once wrapper. -/
def DOMEventHandler.calledBy (args : List Val) : Handler → Option Invocation
  | .callback f => some ⟨f, .owner .self, args⟩
  | .wrapper _ id f =>
    if args.head? ≠ some (Val.str id) then
      some ⟨f, .undefined, [(args.get? 1).getD Val.undefined]⟩
    else none
  | .onceWrapper _ => none

/-- Loop of `emit` (EventEmitter.js lines 44-46) on an emitter of the router,
from index `i`: each round reads the array again, as the loop reads
`handlers.length` and `handlers[i]` of the array that `on` pushes to and
`removeListener` splices, and the callback called runs its calls on the router
before the next round.  `none` means that the rounds given do not cover the
loop. -/
def DOMEventHandler.dispatchLoop (prog : RouterProgram) (p : Platform) (type : String)
    (exclusion : Bool) (key : String) (args : List Val) :
    Nat → Nat → DOMEventHandler → List Invocation →
      Option (Outcome (DOMEventHandler × List Invocation))
  | 0, _, _, _ => none
  | rounds + 1, i, st, log =>
    match ((DOMEventHandler.handlersNow st type exclusion key).getD []).get? i with
    | none => some (.returned (st, log))
    | some h =>
      match DOMEventHandler.calledBy args h with
      | none => dispatchLoop prog p type exclusion key args rounds (i + 1) st log
      | some call =>
        match DOMEventHandler.runCallback p st (prog.callback call.fn) with
        | .threw st1 => some (.threw (st1, log ++ [call]))
        | .returned st1 =>
          dispatchLoop prog p type exclusion key args rounds (i + 1) st1 (log ++ [call])

/-- Call `emit(key, ...args)` on the inclusion or the exclusion emitter of a
type: nothing is called when `listeners[key]` is `undefined`. -/
def DOMEventHandler.dispatchEmit (prog : RouterProgram) (p : Platform) (type : String)
    (exclusion : Bool) (key : String) (args : List Val) (rounds : Nat)
    (st : DOMEventHandler) (log : List Invocation) :
    Option (Outcome (DOMEventHandler × List Invocation)) :=
  match DOMEventHandler.handlersNow st type exclusion key with
  | none => some (.returned (st, log))
  | some _ => DOMEventHandler.dispatchLoop prog p type exclusion key args rounds 0 st log

/-- The native listener installed by `_addEventListener` (DOMEventHandler.js
lines 86-93), run on event `event` of type `type` whose target carries
`receivedID` (`none`, passed on as `undefined`, when the target has no routing
attribute): the module state afterwards and the callbacks called, in order.
Each of the two emits is given `rounds` rounds. -/
def DOMEventHandler.dispatch (prog : RouterProgram) (p : Platform) (rounds : Nat)
    (st : DOMEventHandler) (type : String) (receivedID : Option String) (event : Nat) :
    Option (Outcome (DOMEventHandler × List Invocation)) :=
  match get st.initializedListeners type with
  | none => some (.returned (st, []))
  | some _ =>
    let included := match receivedID with
      | some rid =>
        if rid ≠ "" then
          DOMEventHandler.dispatchEmit prog p type false rid [Val.ref event] rounds st []
        else some (.returned (st, []))
      | none => some (.returned (st, []))
    match included with
    | none => none
    | some (.threw r) => some (.threw r)
    | some (.returned r) =>
      DOMEventHandler.dispatchEmit prog p type true type
        [match receivedID with
          | some rid => Val.str rid
          | none => Val.undefined,
         Val.ref event]
        rounds r.1 r.2

/-- Callback 41 unregisters itself from the all-others listeners of `click`
when it is called; the other callbacks make no call on the router. -/
def unregisteringProgram : RouterProgram :=
  ⟨fun f => if f = 41 then [.removeEventListenerForAllOthers "1" "click" 41] else []⟩

/-- Callbacks that make no call on the router. -/
def inertProgram : RouterProgram := ⟨fun _ => []⟩

/-- The router of a desktop browser after callback 41 has been registered for
all others than `1` and callback 42 for all others than `2`, on `click`. -/
def twoAllOthers : DOMEventHandler :=
  DOMEventHandler.run desktop {}
    [.addEventListenerForAllOthers "1" "click" 41,
     .addEventListenerForAllOthers "2" "click" 42]

/-! ## Commit with the listeners of the Surface and the context as it is read -/

/-- The `size` property of a commit context: absent (`undefined`), `null`, or an
array. -/
inductive ContextSize where
  | undefined
  | null
  | array (size : Size)
  deriving DecidableEq, Repr

/-- The array of a context size, if it is one. -/
def ContextSize.toOption : ContextSize → Option Size
  | .array size => some size
  | _ => none

/-- The context size that is `null` or the given array. -/
def ContextSize.ofOption : Option Size → ContextSize
  | some size => .array size
  | none => .null

/-- A commit context as `commit` reads it. -/
structure CommitContext where
  allocator : Allocator
  size : ContextSize

/-- A call of a mutator of the Surface made by a listener. -/
inductive ListenerCall where
  | setAttributes (attributes : List (String × String))
  | removeAttributes (attributes : List String)
  | setProperties (properties : List (String × String))
  | addClass (className : String)
  | removeClass (className : String)
  | toggleClass (className : String)
  | setClasses (classList : List String)
  | setContent (content : Content)
  | setSize (size : Option Size)
  | setOptions (options : Options)
  deriving DecidableEq, Repr

/-- Modelled from the spec: `_eventOutput` is an EventHandler, which is not part
of the sources; the spec has `emit` call every handler registered for the type
before it returns.  The calls on the mutators of the Surface that the handlers
of `resize` and of `deploy` make when the event is emitted, in order. -/
structure Listeners where
  resize : List ListenerCall := []
  deploy : List ListenerCall := []

/-- One mutator call of a listener. -/
def Surface.listenerCall (s : Surface) : ListenerCall → Outcome Surface
  | .setAttributes attributes => Surface.setAttributes s attributes
  | .removeAttributes attributes => .returned (Surface.removeAttributes s attributes)
  | .setProperties properties => .returned (Surface.setProperties s properties)
  | .addClass className => .returned (Surface.addClass s className)
  | .removeClass className => .returned (Surface.removeClass s className)
  | .toggleClass className => .returned (Surface.toggleClass s className)
  | .setClasses classList => .returned (Surface.setClasses s classList)
  | .setContent content => .returned (Surface.setContent s content)
  | .setSize size => .returned (Surface.setSize s size)
  | .setOptions options => Surface.setOptions s options

/-- The mutator calls of the listeners of one emit, up to the first one that
throws. -/
def Surface.runListeners : Surface → List ListenerCall → Outcome Surface
  | s, [] => .returned s
  | s, call :: rest =>
    match Surface.listenerCall s call with
    | .returned s1 => Surface.runListeners s1 rest
    | .threw s1 => .threw s1

/-- Function `_xyNotEquals(this._size, size)` at line 416, where `size` may be
the `undefined` or `null` size of the context. -/
def Surface.xyNotEqualsContext (a : Option Size) (b : ContextSize) : Bool :=
  match a, b with
  | some x, .array y => decide (x.1 ≠ y.1) || decide (x.2 ≠ y.2)
  | none, .null => false
  | _, _ => true

/-- Lines 360 and 382-414 of `commit`, for a context as it is read: the size this
commit works with; `none` is a TypeError. -/
def Surface.resolveSizeContext (s : Surface) (cc : CommitContext) (dom : Dom) :
    Option (Surface × ContextSize) :=
  match s.size with
  | none => some (s, cc.size)
  | some (a, b) =>
    match Surface.inheritAxis a (cc.size.toOption.map Prod.fst),
        Surface.inheritAxis b (cc.size.toOption.map Prod.snd) with
    | some a1, some b1 =>
      if a1 = .tru ∨ b1 = .tru then
        let r0 := if a1 = .tru then Surface.measureWidth s dom else (s, a1)
        let r1 := if b1 = .tru then Surface.measureHeight r0.1 dom else (r0.1, b1)
        some ({ r1.1 with _trueSizeCheck := false }, .array (r0.2, r1.2))
      else some (s, .array (a1, b1))
    | _, _ => none

/-- Lines 416-422 of `commit`, for a size that may be `undefined` or `null`:
store a changed size.  Reading `size[0]` of `undefined` or `null` is a TypeError,
raised after `_size` has been given the array `[0, 0]` if it had none. -/
def Surface.storeSizeContext (s : Surface) (size : ContextSize) : Outcome Surface :=
  if Surface.xyNotEqualsContext s._size size then
    match size with
    | .array sz => .returned { s with _size := some sz, _sizeDirty := true }
    | _ =>
      match s._size with
      | none => .threw { s with _size := some (.num 0, .num 0) }
      | some _ => .threw s
  else .returned s

/-- Lines 424-433 of `commit` with the listeners of `resize`. -/
def Surface.commitSizeDirtyWith (l : Listeners) (s : Surface) (target : Nat) :
    Outcome (Surface × List Effect) :=
  if s._sizeDirty then
    let writes := match s._size with
      | some (w, h) =>
        [Effect.assignStyle target "width" (Surface.resolvedLength (s.size.map Prod.fst) w),
         Effect.assignStyle target "height" (Surface.resolvedLength (s.size.map Prod.snd) h)]
      | none => []
    match Surface.runListeners s l.resize with
    | .returned s1 => .returned ({ s1 with _sizeDirty := false }, writes ++ [Effect.emit "resize"])
    | .threw s1 => .threw (s1, writes ++ [Effect.emit "resize"])
  else .returned (s, [])

/-- Lines 435-440 of `commit` with the listeners of `deploy`. -/
def Surface.commitContentWith (l : Listeners) (s : Surface) (target : Nat) (dom : Dom) :
    Outcome (Surface × List Effect) :=
  if s._contentDirty then
    match Surface.runListeners s l.deploy with
    | .returned s1 =>
      .returned ({ s1 with _contentDirty := false, _trueSizeCheck := true },
        Surface.deployTarget s target dom ++ [Effect.emit "deploy"])
    | .threw s1 => .threw (s1, Surface.deployTarget s target dom ++ [Effect.emit "deploy"])
  else .returned (s, [])

/-- Lines 359-442 of `commit`, once the target is known, with the listeners of
the Surface and the context as it is read. -/
def Surface.commitTargetWith (l : Listeners) (s : Surface) (target : Nat)
    (cc : CommitContext) (dom : Dom) : Outcome (Surface × List Effect) :=
  let c := Surface.commitClasses s target
  let y := Surface.commitStyles c.1 target
  let a := Surface.commitAttributes y.1 target
  let log := c.2 ++ y.2 ++ a.2
  match Surface.resolveSizeContext a.1 cc dom with
  | none => .threw (a.1, log)
  | some (s1, size) =>
    match Surface.storeSizeContext s1 size with
    | .threw s2 => .threw (s2, log)
    | .returned s2 =>
      match Surface.commitSizeDirtyWith l s2 target with
      | .threw z => .threw (z.1, log ++ z.2)
      | .returned z =>
        match Surface.commitContentWith l z.1 target dom with
        | .threw d => .threw (d.1, log ++ z.2 ++ d.2)
        | .returned d => .returned (d.1, log ++ z.2 ++ d.2 ++ [Effect.elementOutputCommit])

/-- Method `commit(context)` with the listeners of the Surface and the context
as it is read: the new state and the calls made, in order. -/
def Surface.commitWith (l : Listeners) (s : Surface) (cc : CommitContext) (dom : Dom) :
    Outcome (Surface × List Effect) :=
  match s._currentTarget with
  | some target => Surface.commitTargetWith l s target cc dom
  | none =>
    let r := Surface.setup s cc.allocator
    match Surface.commitTargetWith l r.1 (Surface.allocate s cc.allocator) cc dom with
    | .returned (s1, log) => .returned (s1, r.2 ++ log)
    | .threw (s1, log) => .threw (s1, r.2 ++ log)

/-- A Surface built with content `hello` and class `a`, set up on element 5. -/
def helloSurface : Surface :=
  (Surface.setup
    (Surface.new 1 (some { content := some (.text "hello"), classes := some ["a"] })).state
    exampleAllocator).1

/-- A listener of `deploy` that calls `setProperties({color: 'red'})`. -/
def stylingListeners : Listeners :=
  { deploy := [.setProperties [("color", "red")]] }

/-! ## Cleanup is a no-op once detached -/

/-- C8: a second `cleanup` directly after a first one returns without any
call on a collaborator (no DOMBuffer write, no `recall` emit, no `deallocate`)
and leaves the state, which has no current target, as it is. -/
theorem cleanup_twice_is_noop (s : Surface) (dom1 dom2 : Dom) :
    (Surface.cleanup s dom1).1._currentTarget = none ∧
    Surface.cleanup (Surface.cleanup s dom1).1 dom2 = ((Surface.cleanup s dom1).1, []) := by
  have h : (Surface.cleanup s dom1).1._currentTarget = none := by
    unfold Surface.cleanup
    cases ht : s._currentTarget with
    | none => simpa using ht
    | some t => rfl
  refine ⟨h, ?_⟩
  generalize Surface.cleanup s dom1 = r at h
  unfold Surface.cleanup
  rw [h]

/-! ## setAttributes and the `style` key -/

theorem setAttributesLoop_style_first (s : Surface) (v : String) (rest : List (String × String)) :
    Surface.setAttributesLoop s (("style", v) :: rest) = .threw s := by
  simp [Surface.setAttributesLoop]

theorem setAttributesLoop_threw (attrs : List (String × String)) :
    ∀ s : Surface, "style" ∈ attrs.map Prod.fst →
      ∃ s1, Surface.setAttributesLoop s attrs = .threw s1 ∧
        s1._attributesDirty = s._attributesDirty := by
  induction attrs with
  | nil => intro s h; simp at h
  | cons p rest ih =>
    intro s h
    obtain ⟨n, v⟩ := p
    by_cases hn : n = "style"
    · subst hn
      exact ⟨s, setAttributesLoop_style_first s v rest, rfl⟩
    · have hrest : "style" ∈ rest.map Prod.fst := by
        simp only [List.map_cons, List.mem_cons] at h
        rcases h with h | h
        · exact absurd h.symm hn
        · exact h
      obtain ⟨s1, h1, h2⟩ := ih
        { s with attributes := assign s.attributes n v
                 _dirtyAttributes := s._dirtyAttributes.erase n } hrest
      refine ⟨s1, ?_, h2⟩
      simp only [Surface.setAttributesLoop, hn, if_false]
      exact h1

/-- C5 (as amended): for every attribute map that contains the key `style`,
`setAttributes` raises an error and leaves the attribute dirty flag as it was;
when `style` is the first key enumerated (in particular the only key) the whole
state, so the attributes map and the queue of pending removals, is unchanged. -/
theorem setAttributes_style_raises (s : Surface) (attrs : List (String × String))
    (h : "style" ∈ attrs.map Prod.fst) :
    ∃ s1, Surface.setAttributes s attrs = .threw s1 ∧
      s1._attributesDirty = s._attributesDirty ∧
      ((attrs.map Prod.fst).head? = some "style" → s1 = s) := by
  obtain ⟨s1, h1, h2⟩ := setAttributesLoop_threw attrs s h
  refine ⟨s1, ?_, h2, ?_⟩
  · simp [Surface.setAttributes, h1]
  · intro hhead
    cases attrs with
    | nil => simp at hhead
    | cons p rest =>
      obtain ⟨n, v⟩ := p
      simp only [List.map_cons, List.head?_cons, Option.some.injEq] at hhead
      subst hhead
      rw [setAttributesLoop_style_first] at h1
      cases h1
      rfl

/-- Witness of C5: the map with the single key `style` on a fresh Surface. -/
theorem setAttributes_style_raises_witness :
    ∃ s1, Surface.setAttributes {} [("style", "x")] = .threw s1 ∧
      s1._attributesDirty = ({} : Surface)._attributesDirty ∧
      (([("style", "x")].map Prod.fst).head? = some "style" → s1 = {}) :=
  setAttributes_style_raises {} [("style", "x")] (by decide)

/-- Counterexample to C5 as stated: with a key enumerated before `style` the
call raises the error after that key has been merged into the attributes. -/
theorem setAttributes_style_after_key_mutates :
    Surface.setAttributes {} [("title", "t"), ("style", "x")]
      = .threw { attributes := [("title", "t")] } ∧
    ({ attributes := [("title", "t")] } : Surface).attributes ≠ ({} : Surface).attributes := by
  decide

/-! ## Defects found by evaluating the code -/

/-- C6 (evaluation): after `removeAttributes(['disabled', 'title'])` the next
commit issues `removeAttribute` for `disabled` only; `title` is skipped and
stays in the queue. -/
theorem removeAttributes_commit_skips_name :
    Surface.commit (Surface.removeAttributes committedSurface ["disabled", "title"])
        exampleContext exampleDom
      = .returned
          ({ committedSurface with _dirtyAttributes := ["title"], _trueSizeCheck := true },
           [Effect.removeAttribute 5 "disabled", Effect.elementOutputCommit]) := by
  decide

/-- C4 (evaluation): on an InputSurface with a pending `setValue('x')`,
`setOptions` with an empty options object returns with the content dirty flag
cleared although no commit took place. -/
theorem input_setOptions_clears_pending_content :
    (InputSurface.setValue committedInput "x")._contentDirty = true ∧
    InputSurface.setOptions (InputSurface.setValue committedInput "x") {} exampleDom
      = .returned
          { committedInput with
            input := some { _placeholder := "", _value := "x", _type := "text", _name := "" }
            _contentDirty := false } := by
  decide

/-- C10 (evaluation): after `addEventListener('7', 1, 'click', 42)` and
`removeEventListener(1, '7', 'click', 42)` the callback is still on the inclusion
channel of `click` under `7`, and a click on a target with routing id `7` calls
it. -/
theorem removeEventListener_leaves_inclusion_callback :
    get (DOMEventHandler.removeEventListener desktop
          (DOMEventHandler.addEventListener desktop {} "7" 1 "click" 42) 1 "7" "click" 42).initializedListeners
        "click"
      = some { inclusion := { listeners := [("7", [Handler.callback 42])] }
               exclusion := {} } ∧
    DOMEventHandler.nativeListener
        (DOMEventHandler.removeEventListener desktop
          (DOMEventHandler.addEventListener desktop {} "7" 1 "click" 42) 1 "7" "click" 42)
        "click" (some "7")
      = [42] := by
  decide

/-! ## The blocks of commit -/

theorem xyNotEquals_eq_false {a b : Option Size} :
    Surface.xyNotEquals a b = false ↔ a = b := by
  cases a with
  | none => cases b <;> simp [Surface.xyNotEquals]
  | some x =>
    cases b with
    | none => simp [Surface.xyNotEquals]
    | some y =>
      obtain ⟨x1, x2⟩ := x
      obtain ⟨y1, y2⟩ := y
      simp [Surface.xyNotEquals]

theorem commitClasses_fst (s : Surface) (t : Nat) :
    (Surface.commitClasses s t).1 =
      { s with _classesDirty := false
               _dirtyClasses := if s._classesDirty then [] else s._dirtyClasses
               _trueSizeCheck := s._classesDirty || s._trueSizeCheck } := by
  cases hc : s._classesDirty <;> cases s <;> simp_all [Surface.commitClasses, Surface.cleanupClasses]

theorem commitStyles_fst (s : Surface) (t : Nat) :
    (Surface.commitStyles s t).1 =
      { s with _stylesDirty := false
               _trueSizeCheck := s._stylesDirty || s._trueSizeCheck } := by
  cases hc : s._stylesDirty <;> cases s <;> simp_all [Surface.commitStyles]

theorem commitAttributes_fst (s : Surface) (t : Nat) :
    (Surface.commitAttributes s t).1 =
      { s with _attributesDirty := false
               _dirtyAttributes :=
                 if s._attributesDirty then (Surface.applyAttributes s t).1._dirtyAttributes
                 else s._dirtyAttributes
               _trueSizeCheck := s._attributesDirty || s._trueSizeCheck } := by
  cases hc : s._attributesDirty <;> cases s <;>
    simp_all [Surface.commitAttributes, Surface.applyAttributes]

theorem commitSizeDirty_fst (s : Surface) (t : Nat) :
    (Surface.commitSizeDirty s t).1 = { s with _sizeDirty := false } := by
  cases hc : s._sizeDirty <;> cases s <;> simp_all [Surface.commitSizeDirty]

theorem commitContent_fst (s : Surface) (t : Nat) (dom : Dom) :
    (Surface.commitContent s t dom).1 =
      { s with _contentDirty := false
               _trueSizeCheck := s._contentDirty || s._trueSizeCheck } := by
  cases hc : s._contentDirty <;> cases s <;> simp_all [Surface.commitContent]

theorem sizeFrame_refl (s : Surface) : Surface.SizeFrame s s := by
  cases s; rfl

theorem sizeFrame_trans {s s1 s2 : Surface} (h1 : Surface.SizeFrame s s1)
    (h2 : Surface.SizeFrame s1 s2) : Surface.SizeFrame s s2 := by
  unfold Surface.SizeFrame at *
  rw [h2, h1]

theorem sizeFrame_update (s : Surface) (sz : Option Size) (sd tsc : Bool) :
    Surface.SizeFrame s { s with _size := sz, _sizeDirty := sd, _trueSizeCheck := tsc } := by
  rfl

theorem measureWidth_frame (s : Surface) (dom : Dom) :
    Surface.SizeFrame s (Surface.measureWidth s dom).1 := by
  unfold Surface.measureWidth
  by_cases h1 : s._trueSizeCheck = true
  · rcases hs : s._size with _ | ⟨w, h⟩
    · simp only [h1, if_true]; exact sizeFrame_refl s
    · by_cases hw : w = Axis.num dom.offsetWidth
      · simp only [h1, if_true, hw, ne_eq, not_true_eq_false, if_false]; exact sizeFrame_refl s
      · simp only [h1, if_true, hw, ne_eq, not_false_eq_true]
        exact sizeFrame_update s _ _ _
  · rcases hs : s._size with _ | ⟨w, h⟩ <;> simp only [h1] <;> exact sizeFrame_refl s

theorem measureHeight_frame (s : Surface) (dom : Dom) :
    Surface.SizeFrame s (Surface.measureHeight s dom).1 := by
  unfold Surface.measureHeight
  by_cases h1 : s._trueSizeCheck = true
  · rcases hs : s._size with _ | ⟨w, h⟩
    · simp only [h1, if_true]; exact sizeFrame_refl s
    · by_cases hw : h = Axis.num dom.offsetHeight
      · simp only [h1, if_true, hw, ne_eq, not_true_eq_false, if_false]; exact sizeFrame_refl s
      · simp only [h1, if_true, hw, ne_eq, not_false_eq_true]
        exact sizeFrame_update s _ _ _
  · rcases hs : s._size with _ | ⟨w, h⟩ <;> simp only [h1] <;> exact sizeFrame_refl s

theorem resolveSize_none {s : Surface} (ctx : Context) (dom : Dom) (hs : s.size = none) :
    Surface.resolveSize s ctx dom = some (s, ctx.size) := by
  unfold Surface.resolveSize
  rw [hs]

theorem resolveSize_some {s : Surface} (ctx : Context) (dom : Dom) {a b a1 b1 : Axis}
    (hs : s.size = some (a, b))
    (ha : Surface.inheritAxis a (ctx.size.map Prod.fst) = some a1)
    (hb : Surface.inheritAxis b (ctx.size.map Prod.snd) = some b1) :
    Surface.resolveSize s ctx dom =
      if a1 = .tru ∨ b1 = .tru then
        some ({ (if b1 = .tru then
                  Surface.measureHeight (if a1 = .tru then Surface.measureWidth s dom else (s, a1)).1 dom
                 else ((if a1 = .tru then Surface.measureWidth s dom else (s, a1)).1, b1)).1
                with _trueSizeCheck := false },
              some ((if a1 = .tru then Surface.measureWidth s dom else (s, a1)).2,
                    (if b1 = .tru then
                      Surface.measureHeight (if a1 = .tru then Surface.measureWidth s dom else (s, a1)).1 dom
                     else ((if a1 = .tru then Surface.measureWidth s dom else (s, a1)).1, b1)).2))
      else some (s, some (a1, b1)) := by
  unfold Surface.resolveSize
  rw [hs]
  simp only [ha, hb]

theorem resolveSize_inherits {s s1 : Surface} {ctx : Context} {dom : Dom} {size : Option Size}
    {a b : Axis} (h : Surface.resolveSize s ctx dom = some (s1, size))
    (hs : s.size = some (a, b)) :
    ∃ a1 b1, Surface.inheritAxis a (ctx.size.map Prod.fst) = some a1 ∧
      Surface.inheritAxis b (ctx.size.map Prod.snd) = some b1 := by
  unfold Surface.resolveSize at h
  rw [hs] at h
  simp only at h
  split at h
  · rename_i a1 b1 ha hb
    exact ⟨a1, b1, ha, hb⟩
  · cases h

theorem resolveSize_frame {s s1 : Surface} {ctx : Context} {dom : Dom} {size : Option Size}
    (h : Surface.resolveSize s ctx dom = some (s1, size)) : Surface.SizeFrame s s1 := by
  rcases hs : s.size with _ | ⟨a, b⟩
  · rw [resolveSize_none ctx dom hs] at h
    cases h
    exact sizeFrame_refl s
  · obtain ⟨a1, b1, ha, hb⟩ := resolveSize_inherits h hs
    rw [resolveSize_some ctx dom hs ha hb] at h
    have hw : Surface.SizeFrame s (if a1 = .tru then Surface.measureWidth s dom else (s, a1)).1 := by
      split
      · exact measureWidth_frame s dom
      · exact sizeFrame_refl s
    split at h
    · cases h
      refine sizeFrame_trans (sizeFrame_trans hw ?_) (sizeFrame_update _ _ _ _)
      by_cases hb1 : b1 = .tru
      · rw [if_pos hb1]; exact measureHeight_frame _ dom
      · rw [if_neg hb1]; exact sizeFrame_refl _
    · cases h
      exact sizeFrame_refl s

theorem resolveSize_kept_axes {s s1 : Surface} {ctx : Context} {dom : Dom} {size : Option Size}
    {a b a1 b1 : Axis} (h : Surface.resolveSize s ctx dom = some (s1, size))
    (hs : s.size = some (a, b))
    (ha : Surface.inheritAxis a (ctx.size.map Prod.fst) = some a1)
    (hb : Surface.inheritAxis b (ctx.size.map Prod.snd) = some b1) :
    ∃ r0 r1, size = some (r0, r1) ∧ (a1 ≠ .tru → r0 = a1) ∧ (b1 ≠ .tru → r1 = b1) := by
  rw [resolveSize_some ctx dom hs ha hb] at h
  split at h
  · cases h
    refine ⟨_, _, rfl, ?_, ?_⟩
    · intro hne
      simp only [hne, if_false]
    · intro hne
      simp only [hne, if_false]
  · cases h
    exact ⟨a1, b1, rfl, fun _ => rfl, fun _ => rfl⟩

theorem measureWidth_cached {s : Surface} {dom : Dom} {r0 r1 : Axis}
    (hs : s._size = some (r0, r1)) (h : r0 = .num dom.offsetWidth) :
    Surface.measureWidth s dom = (s, r0) := by
  unfold Surface.measureWidth
  rw [hs]
  by_cases h1 : s._trueSizeCheck = true
  · simp only [h1, if_true, h, ne_eq, not_true_eq_false, if_false]
  · simp only [h1, Bool.false_eq_true, if_false]

theorem measureHeight_cached {s : Surface} {dom : Dom} {r0 r1 : Axis}
    (hs : s._size = some (r0, r1)) (h : r1 = .num dom.offsetHeight) :
    Surface.measureHeight s dom = (s, r1) := by
  unfold Surface.measureHeight
  rw [hs]
  by_cases h1 : s._trueSizeCheck = true
  · simp only [h1, if_true, h, ne_eq, not_true_eq_false, if_false]
  · simp only [h1, Bool.false_eq_true, if_false]

/-- With the stored size equal to what the configured size resolves to, the size
resolution of a commit returns the stored size and changes at most the remeasure
flag. -/
theorem resolveSize_stable {u : Surface} {ctx : Context} {dom : Dom} {a b a1 b1 r0 r1 : Axis}
    (hs : u.size = some (a, b))
    (ha : Surface.inheritAxis a (ctx.size.map Prod.fst) = some a1)
    (hb : Surface.inheritAxis b (ctx.size.map Prod.snd) = some b1)
    (hu : u._size = some (r0, r1))
    (ka : a1 ≠ .tru → r0 = a1) (kb : b1 ≠ .tru → r1 = b1)
    (ma : a1 = .tru → r0 = .num dom.offsetWidth)
    (mb : b1 = .tru → r1 = .num dom.offsetHeight) :
    ∃ tsc, Surface.resolveSize u ctx dom
      = some ({ u with _trueSizeCheck := tsc }, u._size) := by
  suffices hx : ∃ tsc, Surface.resolveSize u ctx dom
      = some ({ u with _trueSizeCheck := tsc }, some (r0, r1)) by
    obtain ⟨tsc, h⟩ := hx
    exact ⟨tsc, by rw [h, hu]⟩
  rw [resolveSize_some ctx dom hs ha hb]
  by_cases hta : a1 = .tru
  · have hw := measureWidth_cached hu (ma hta)
    by_cases htb : b1 = .tru
    · have hh := measureHeight_cached hu (mb htb)
      refine ⟨false, ?_⟩
      simp only [hta, htb, or_self, if_true, hw, hh]
    · refine ⟨false, ?_⟩
      simp only [hta, htb, or_false, if_true, if_false, hw, kb htb]
  · by_cases htb : b1 = .tru
    · have hh := measureHeight_cached hu (mb htb)
      refine ⟨false, ?_⟩
      simp only [hta, htb, or_true, if_true, if_false, hh, ka hta]
    · refine ⟨u._trueSizeCheck, ?_⟩
      simp only [hta, htb, or_self, if_false, ka hta, kb htb]

theorem storeSize_eq {s s2 : Surface} {size : Option Size}
    (h : Surface.storeSize s size = some s2) :
    s2._size = size ∧ ∃ sd, s2 = { s with _size := size, _sizeDirty := sd } := by
  unfold Surface.storeSize at h
  split at h
  · split at h
    · cases h
    · cases h
      exact ⟨rfl, true, rfl⟩
  · rename_i hx
    cases h
    have hx1 : s._size = size := xyNotEquals_eq_false.mp (by simpa using hx)
    refine ⟨hx1, s._sizeDirty, ?_⟩
    rw [← hx1]

/-- The state in which the size is resolved: after the class, style and
attribute blocks. -/
theorem commitTarget_blocks {s s1 : Surface} {t : Nat} {ctx : Context} {dom : Dom}
    {log : List Effect} (h : Surface.commitTarget s t ctx dom = .returned (s1, log)) :
    ∃ sR size s2,
      Surface.resolveSize
        (Surface.commitAttributes (Surface.commitStyles (Surface.commitClasses s t).1 t).1 t).1
        ctx dom = some (sR, size) ∧
      Surface.storeSize sR size = some s2 ∧
      s1 = (Surface.commitContent (Surface.commitSizeDirty s2 t).1 t dom).1 ∧
      log = (Surface.commitClasses s t).2 ++ (Surface.commitStyles (Surface.commitClasses s t).1 t).2
        ++ (Surface.commitAttributes (Surface.commitStyles (Surface.commitClasses s t).1 t).1 t).2
        ++ (Surface.commitSizeDirty s2 t).2
        ++ (Surface.commitContent (Surface.commitSizeDirty s2 t).1 t dom).2
        ++ [Effect.elementOutputCommit] := by
  unfold Surface.commitTarget at h
  simp only at h
  split at h
  · cases h
  · rename_i sR size hR
    split at h
    · cases h
    · rename_i s2 hS
      cases h
      exact ⟨sR, size, s2, hR, hS, rfl, rfl⟩

theorem commitTarget_post {s s1 : Surface} {t : Nat} {ctx : Context} {dom : Dom}
    {log : List Effect} (h : Surface.commitTarget s t ctx dom = .returned (s1, log)) :
    s1._classesDirty = false ∧ s1._stylesDirty = false ∧ s1._attributesDirty = false ∧
    s1._sizeDirty = false ∧ s1._contentDirty = false ∧
    s1._currentTarget = s._currentTarget ∧ s1.size = s.size ∧
    ∃ sA sR, sA.size = s.size ∧ Surface.resolveSize sA ctx dom = some (sR, s1._size) := by
  obtain ⟨sR, size, s2, hR, hS, h1, -⟩ := commitTarget_blocks h
  have hF := resolveSize_frame hR
  obtain ⟨hsz, sd, h2⟩ := storeSize_eq hS
  unfold Surface.SizeFrame at hF
  have e1 : s1 = { s2 with _sizeDirty := false, _contentDirty := false
                           _trueSizeCheck := s2._contentDirty || s2._trueSizeCheck } := by
    rw [h1, commitContent_fst, commitSizeDirty_fst]
  have e2 : s1._size = size := by rw [e1]; exact hsz
  have hA : (Surface.commitAttributes (Surface.commitStyles (Surface.commitClasses s t).1 t).1
      t).1.size = s.size := by
    rw [commitAttributes_fst, commitStyles_fst, commitClasses_fst]
  refine ⟨?_, ?_, ?_, ?_, ?_, ?_, ?_, _, sR, hA, e2 ▸ hR⟩
  all_goals
    first
    | rw [e1]; done
    | rw [e1, h2, hF]
      dsimp only
      rw [commitAttributes_fst, commitStyles_fst, commitClasses_fst]

theorem commit_post {s s1 : Surface} {ctx : Context} {dom : Dom} {log : List Effect}
    (h : Surface.commit s ctx dom = .returned (s1, log)) :
    s1._classesDirty = false ∧ s1._stylesDirty = false ∧ s1._attributesDirty = false ∧
    s1._sizeDirty = false ∧ s1._contentDirty = false ∧
    (∃ t, s1._currentTarget = some t) ∧ s1.size = s.size ∧
    ∃ sA sR, sA.size = s.size ∧ Surface.resolveSize sA ctx dom = some (sR, s1._size) := by
  unfold Surface.commit at h
  split at h
  · rename_i t ht
    obtain ⟨h1, h2, h3, h4, h5, h6, h7, h8⟩ := commitTarget_post h
    exact ⟨h1, h2, h3, h4, h5, ⟨t, h6.trans ht⟩, h7, h8⟩
  · simp only at h
    split at h
    · rename_i s1a loga hc
      cases h
      obtain ⟨h1, h2, h3, h4, h5, h6, h7, h8⟩ := commitTarget_post hc
      exact ⟨h1, h2, h3, h4, h5, ⟨_, h6⟩, h7, h8⟩
    · cases h

theorem commitTarget_quiet {u : Surface} {t : Nat} {ctx : Context} {dom : Dom} {tsc : Bool}
    (h1 : u._classesDirty = false) (h2 : u._stylesDirty = false)
    (h3 : u._attributesDirty = false) (h4 : u._sizeDirty = false)
    (h5 : u._contentDirty = false)
    (hR : Surface.resolveSize u ctx dom = some ({ u with _trueSizeCheck := tsc }, u._size)) :
    Surface.commitTarget u t ctx dom
      = .returned ({ u with _trueSizeCheck := tsc }, [Effect.elementOutputCommit]) := by
  have c1 : Surface.commitClasses u t = (u, []) := by simp [Surface.commitClasses, h1]
  have c2 : Surface.commitStyles u t = (u, []) := by simp [Surface.commitStyles, h2]
  have c3 : Surface.commitAttributes u t = (u, []) := by simp [Surface.commitAttributes, h3]
  have c4 : Surface.storeSize { u with _trueSizeCheck := tsc } u._size
      = some { u with _trueSizeCheck := tsc } := by
    have : Surface.xyNotEquals u._size u._size = false := xyNotEquals_eq_false.mpr rfl
    simp [Surface.storeSize, this]
  have c5 : Surface.commitSizeDirty { u with _trueSizeCheck := tsc } t
      = ({ u with _trueSizeCheck := tsc }, []) := by simp [Surface.commitSizeDirty, h4]
  have c6 : Surface.commitContent { u with _trueSizeCheck := tsc } t dom
      = ({ u with _trueSizeCheck := tsc }, []) := by simp [Surface.commitContent, h5]
  unfold Surface.commitTarget
  simp only [c1, c2, c3, hR, c4, c5, c6, List.append_nil, List.nil_append]

/-- After a returned commit, with the same context size and the measurements
stored, the size resolution of any state that has the same configured and
stored size returns the stored size. -/
theorem resolveSize_settled {s s1 v : Surface} {ctx ctx2 : Context} {dom dom2 : Dom}
    {log1 : List Effect}
    (h1 : Surface.commit s ctx dom = .returned (s1, log1))
    (hctx : ctx2.size = ctx.size)
    (hm : Surface.measurementsCached s1 ctx2 dom2)
    (hv1 : v.size = s1.size) (hv2 : v._size = s1._size) :
    ∃ tsc, Surface.resolveSize v ctx2 dom2
      = some ({ v with _trueSizeCheck := tsc }, v._size) := by
  obtain ⟨-, -, -, -, -, -, hsize, sA, sR, hsA, hR⟩ := commit_post h1
  rcases hs : s.size with _ | ⟨a, b⟩
  · have hs1 : v.size = none := hv1.trans (hsize.trans hs)
    refine ⟨v._trueSizeCheck, ?_⟩
    rw [resolveSize_none ctx dom (hsA.trans hs)] at hR
    simp only [Option.some.injEq, Prod.mk.injEq] at hR
    rw [resolveSize_none ctx2 dom2 hs1, hctx, hR.2, ← hv2]
  · have hs1 : s1.size = some (a, b) := hsize.trans hs
    have hsA1 : sA.size = some (a, b) := hsA.trans hs
    obtain ⟨a1, b1, ha, hb⟩ := resolveSize_inherits hR hsA1
    obtain ⟨r0, r1, hr, ka, kb⟩ := resolveSize_kept_axes hR hsA1 ha hb
    rw [← hctx] at ha hb
    obtain ⟨ma, mb⟩ := hm a b hs1
    refine resolveSize_stable (hv1.trans hs1) ha hb (hv2.trans hr) ka kb ?_ ?_
    · intro hta
      have := ma (hta ▸ ha)
      rw [hr] at this
      simpa using this
    · intro htb
      have := mb (htb ▸ hb)
      rw [hr] at this
      simpa using this

/-- C1 (as amended): a commit that directly follows a returned commit, with the
same context size, no mutator call in between, and element measurements equal to
the stored size on every measured axis, calls nothing but the commit of
ElementOutput: Surface.commit issues no DOMBuffer write and emits no event (so
neither `resize` nor `deploy`); the state changes at most in the remeasure
flag. -/
theorem commit_after_commit_is_silent (s s1 : Surface) (ctx ctx2 : Context) (dom dom2 : Dom)
    (log1 : List Effect)
    (h1 : Surface.commit s ctx dom = .returned (s1, log1))
    (hctx : ctx2.size = ctx.size)
    (hm : Surface.measurementsCached s1 ctx2 dom2) :
    ∃ tsc log, Surface.commit s1 ctx2 dom2
        = .returned ({ s1 with _trueSizeCheck := tsc }, log) ∧
      log = [Effect.elementOutputCommit] ∧
      ∀ e ∈ log, Effect.isDOMBufferWrite e = false ∧ Effect.isEmit e = false := by
  obtain ⟨f1, f2, f3, f4, f5, ⟨t, ht⟩, -⟩ := commit_post h1
  have key := @resolveSize_settled s s1 s1 ctx ctx2 dom dom2 log1 h1 hctx hm rfl rfl
  obtain ⟨tsc, hk⟩ := key
  refine ⟨tsc, [Effect.elementOutputCommit], ?_, rfl, ?_⟩
  · unfold Surface.commit
    split
    · exact commitTarget_quiet f1 f2 f3 f4 f5 hk
    · rename_i hn
      rw [ht] at hn
      cases hn
  · intro e he
    rw [List.mem_singleton] at he
    subst he
    exact ⟨rfl, rfl⟩

/-- Witness of C1: a Surface measuring its width, committed twice while the
element measures 20 by 10. -/
theorem commit_after_commit_is_silent_witness :
    ∃ tsc log, Surface.commit
          (Surface.commit measuredSurface exampleContext measuredDom).state.1
          exampleContext measuredDom
        = .returned
            ({ (Surface.commit measuredSurface exampleContext measuredDom).state.1 with
                _trueSizeCheck := tsc },
             log) ∧
      log = [Effect.elementOutputCommit] ∧
      ∀ e ∈ log, Effect.isDOMBufferWrite e = false ∧ Effect.isEmit e = false :=
  commit_after_commit_is_silent measuredSurface
    (Surface.commit measuredSurface exampleContext measuredDom).state.1
    exampleContext exampleContext measuredDom measuredDom
    (Surface.commit measuredSurface exampleContext measuredDom).state.2
    (by decide) rfl
    (by
      intro a b hs
      have h0 : (Surface.commit measuredSurface exampleContext measuredDom).state.1.size
          = some (.tru, .num 30) := by decide
      rw [h0] at hs
      cases hs
      constructor
      · intro _; decide
      · intro h; simp [Surface.inheritAxis] at h)

/-- Counterexample to C1 as stated: the first commit deploys new content without
measuring, the second one, with the same context size and the same element
measurements (20 by 20), measures, finds the stored size (10 by 10) stale and
issues two DOMBuffer writes and a `resize`. -/
theorem commit_after_commit_can_write :
    (Surface.commit remeasureSurface sizedContext ⟨20, 20, [], ""⟩).state.2
      = [Effect.assignProperty 5 "textContent" (.text "x"), Effect.emit "deploy",
         Effect.elementOutputCommit] ∧
    Surface.commit remeasureSurface sizedContext ⟨20, 20, [], ""⟩
      = .returned (Surface.commit remeasureSurface sizedContext ⟨20, 20, [], ""⟩).state ∧
    (Surface.commit
        (Surface.commit remeasureSurface sizedContext ⟨20, 20, [], ""⟩).state.1
        sizedContext ⟨20, 20, [], ""⟩).state.2
      = [Effect.assignStyle 5 "width" "", Effect.assignStyle 5 "height" "",
         Effect.emit "resize", Effect.elementOutputCommit] := by
  decide

/-! ## Class mutators and the projection of classes by commit -/

theorem classStep_refl (s : Surface) : Surface.ClassStep s s :=
  ⟨rfl, fun _ h => Or.inl h, fun _ h => h, fun h => h, fun _ => rfl⟩

theorem classStep_trans {s s1 s2 : Surface} (h1 : Surface.ClassStep s s1)
    (h2 : Surface.ClassStep s1 s2) : Surface.ClassStep s s2 := by
  obtain ⟨a1, b1, c1, d1, e1⟩ := h1
  obtain ⟨a2, b2, c2, d2, e2⟩ := h2
  refine ⟨a2.trans a1, ?_, fun c h => c2 c (c1 c h), fun h => d2 (d1 h), ?_⟩
  · intro c hc
    rcases b1 c hc with h | ⟨h, hf⟩
    · exact b2 c h
    · exact Or.inr ⟨c2 c h, d2 hf⟩
  · intro hf
    have h21 := e2 hf
    rw [h21] at hf
    rw [h21, e1 hf]

theorem addClass_step (s : Surface) (c : String) : Surface.ClassStep s (Surface.addClass s c) := by
  unfold Surface.addClass
  split
  · refine ⟨rfl, ?_, fun _ h => h, fun _ => rfl, ?_⟩
    · intro x hx
      exact Or.inl (List.mem_append_left _ hx)
    · intro hf
      simp at hf
  · exact classStep_refl s

theorem removeClass_step (s : Surface) (c : String) :
    Surface.ClassStep s (Surface.removeClass s c) := by
  unfold Surface.removeClass
  split
  · refine ⟨rfl, ?_, ?_, fun _ => rfl, ?_⟩
    · intro x hx
      by_cases hxc : x = c
      · subst hxc
        exact Or.inr ⟨by simp, rfl⟩
      · exact Or.inl ((List.mem_erase_of_ne hxc).mpr hx)
    · intro x hx
      exact List.mem_append_left _ hx
    · intro hf
      simp at hf
  · exact classStep_refl s

theorem toggleClass_step (s : Surface) (c : String) :
    Surface.ClassStep s (Surface.toggleClass s c) := by
  unfold Surface.toggleClass
  split
  · exact removeClass_step s c
  · exact addClass_step s c

theorem foldl_step (f : Surface → String → Surface)
    (hf : ∀ s c, Surface.ClassStep s (f s c)) (cs : List String) :
    ∀ s, Surface.ClassStep s (cs.foldl f s) := by
  induction cs with
  | nil => intro s; exact classStep_refl s
  | cons c rest ih =>
    intro s
    exact classStep_trans (hf s c) (ih (f s c))

theorem setClasses_step (s : Surface) (cs : List String) :
    Surface.ClassStep s (Surface.setClasses s cs) := by
  unfold Surface.setClasses
  exact classStep_trans (foldl_step _ removeClass_step _ s) (foldl_step _ addClass_step _ _)

theorem applyClassOp_step (s : Surface) (op : ClassOp) :
    Surface.ClassStep s (Surface.applyClassOp s op) := by
  cases op with
  | addClass c => exact addClass_step s c
  | removeClass c => exact removeClass_step s c
  | toggleClass c => exact toggleClass_step s c
  | setClasses cs => exact setClasses_step s cs

theorem applyClassOps_step (ops : List ClassOp) :
    ∀ s, Surface.ClassStep s (Surface.applyClassOps s ops) := by
  induction ops with
  | nil => intro s; exact classStep_refl s
  | cons op rest ih =>
    intro s
    exact classStep_trans (applyClassOp_step s op) (ih (Surface.applyClassOp s op))

theorem applyClassOps_take_drop (s : Surface) (ops : List ClassOp) (k : Nat) :
    Surface.applyClassOps (Surface.applyClassOps s (ops.take k)) (ops.drop k)
      = Surface.applyClassOps s ops := by
  unfold Surface.applyClassOps
  rw [← List.foldl_append, List.take_append_drop]

theorem applyClassWrites_append (el : Nat) (classes : List String) (l1 l2 : List Effect) :
    applyClassWrites el classes (l1 ++ l2)
      = applyClassWrites el (applyClassWrites el classes l1) l2 := by
  unfold applyClassWrites
  rw [List.foldl_append]

theorem applyClassWrites_of_no_class_write (el : Nat) (log : List Effect) :
    ∀ classes : List String, (∀ e ∈ log, Effect.isClassWrite e = false) →
      applyClassWrites el classes log = classes := by
  induction log with
  | nil => intro classes _; rfl
  | cons e rest ih =>
    intro classes h
    have he : applyClassWrite el classes e = classes := by
      have := h e (List.mem_cons_self _ _)
      cases e <;> simp_all [applyClassWrite, Effect.isClassWrite]
    have hrest := ih classes (fun x hx => h x (List.mem_cons_of_mem _ hx))
    unfold applyClassWrites at *
    rw [List.foldl_cons, he]
    exact hrest

theorem mem_applyClassWrites_removes (el : Nat) (ds : List String) :
    ∀ (classes : List String) (x : String),
      x ∈ applyClassWrites el classes (ds.map (Effect.removeFromObject el))
        ↔ x ∈ classes ∧ x ∉ ds := by
  induction ds with
  | nil => intro classes x; simp [applyClassWrites]
  | cons d rest ih =>
    intro classes x
    have := ih (classes.filter (fun y => y ≠ d)) x
    unfold applyClassWrites at *
    simp only [List.map_cons, List.foldl_cons, applyClassWrite, if_true]
    rw [this]
    simp only [List.mem_filter, List.mem_cons, not_or, decide_eq_true_eq, ne_eq]
    tauto

theorem mem_applyClassWrites_adds (el : Nat) (cs : List String) :
    ∀ (classes : List String) (x : String),
      x ∈ applyClassWrites el classes (cs.map (Effect.addToObject el))
        ↔ x ∈ classes ∨ x ∈ cs := by
  induction cs with
  | nil => intro classes x; simp [applyClassWrites]
  | cons c rest ih =>
    intro classes x
    have := ih (if True ∧ c ∉ classes then classes ++ [c] else classes) x
    unfold applyClassWrites at *
    simp only [List.map_cons, List.foldl_cons, applyClassWrite]
    rw [this]
    by_cases hc : c ∈ classes
    · simp only [hc, not_true_eq_false, and_false, if_false, List.mem_cons]
      constructor
      · rintro (h | h)
        · exact Or.inl h
        · exact Or.inr (Or.inr h)
      · rintro (h | h | h)
        · exact Or.inl h
        · exact Or.inl (h ▸ hc)
        · exact Or.inr h
    · simp only [hc, not_false_eq_true, and_self, if_true, List.mem_append, List.mem_singleton,
        List.mem_cons]
      tauto

theorem removeDirtyAttributes_no_class_write (t : Nat) (indices : List Nat) :
    ∀ (q : List String), ∀ e ∈ (Surface.removeDirtyAttributes t indices q).1,
      Effect.isClassWrite e = false := by
  induction indices with
  | nil => intro q e he; simp [Surface.removeDirtyAttributes] at he
  | cons i rest ih =>
    intro q e he
    unfold Surface.removeDirtyAttributes at he
    split at he
    · exact ih q e he
    · simp only [List.mem_cons] at he
      rcases he with rfl | he
      · rfl
      · exact ih _ e he

theorem commitStyles_no_class_write (s : Surface) (t : Nat) :
    ∀ e ∈ (Surface.commitStyles s t).2, Effect.isClassWrite e = false := by
  intro e he
  unfold Surface.commitStyles at he
  split at he
  · simp only [Surface.applyStyles, List.mem_map] at he
    obtain ⟨p, -, rfl⟩ := he
    rfl
  · simp at he

theorem commitAttributes_no_class_write (s : Surface) (t : Nat) :
    ∀ e ∈ (Surface.commitAttributes s t).2, Effect.isClassWrite e = false := by
  intro e he
  unfold Surface.commitAttributes at he
  split at he
  · simp only [Surface.applyAttributes, List.mem_append, List.mem_map] at he
    rcases he with ⟨p, -, rfl⟩ | he
    · rfl
    · exact removeDirtyAttributes_no_class_write t _ _ e he
  · simp at he

theorem commitSizeDirty_no_class_write (s : Surface) (t : Nat) :
    ∀ e ∈ (Surface.commitSizeDirty s t).2, Effect.isClassWrite e = false := by
  intro e he
  unfold Surface.commitSizeDirty at he
  split at he
  · rcases hs : s._size with _ | ⟨w, h⟩
    · simp only [hs, List.nil_append, List.mem_singleton] at he
      subst he; rfl
    · simp only [hs, List.cons_append, List.nil_append, List.mem_cons, List.mem_singleton,
        List.not_mem_nil, or_false] at he
      rcases he with rfl | rfl | rfl <;> rfl
  · simp at he

theorem commitContent_no_class_write (s : Surface) (t : Nat) (dom : Dom) :
    ∀ e ∈ (Surface.commitContent s t dom).2, Effect.isClassWrite e = false := by
  intro e he
  unfold Surface.commitContent at he
  split at he
  · simp only [List.mem_append, List.mem_singleton] at he
    rcases he with he | rfl
    · unfold Surface.deployTarget at he
      split at he
      · unfold Surface.deploy at he
        split at he
        · simp only [List.mem_append, List.mem_map, List.mem_singleton] at he
          rcases he with ⟨n, -, rfl⟩ | rfl <;> rfl
        · split at he
          · simp only [List.mem_cons, List.mem_singleton, List.not_mem_nil, or_false] at he
            rcases he with rfl | rfl <;> rfl
          · simp only [List.mem_singleton] at he
            subst he; rfl
      · simp only [InputSurface.deploy, List.mem_cons, List.mem_singleton, List.not_mem_nil,
          or_false] at he
        rcases he with rfl | rfl | rfl | rfl <;> rfl
    · rfl
  · simp at he

theorem commitTarget_class_writes {u s1 : Surface} {t : Nat} {ctx : Context} {dom : Dom}
    {log : List Effect} (classes : List String)
    (h : Surface.commitTarget u t ctx dom = .returned (s1, log)) :
    applyClassWrites t classes log = applyClassWrites t classes (Surface.commitClasses u t).2 := by
  obtain ⟨sR, size, s2, -, -, -, hlog⟩ := commitTarget_blocks h
  rw [hlog]
  simp only [List.append_assoc]
  rw [applyClassWrites_append]
  apply applyClassWrites_of_no_class_write
  intro e he
  simp only [List.mem_append, List.mem_singleton] at he
  rcases he with he | he | he | he | he
  · exact commitStyles_no_class_write _ _ e he
  · exact commitAttributes_no_class_write _ _ e he
  · exact commitSizeDirty_no_class_write _ _ e he
  · exact commitContent_no_class_write _ _ _ e he
  · subst he; rfl

theorem mem_applyClassWrites_commitClasses (u : Surface) (t : Nat) (classes : List String)
    (hd : u._classesDirty = true) (x : String) :
    x ∈ applyClassWrites t classes (Surface.commitClasses u t).2
      ↔ (x ∈ classes ∧ x ∉ u._dirtyClasses) ∨ x ∈ u.classList := by
  have hl : (Surface.commitClasses u t).2
      = u._dirtyClasses.map (Effect.removeFromObject t)
        ++ u.classList.map (Effect.addToObject t) := by
    simp [Surface.commitClasses, Surface.cleanupClasses, Surface.getClassList, hd]
  rw [hl, applyClassWrites_append, mem_applyClassWrites_adds, mem_applyClassWrites_removes]

/-- C7: after any sequence of `addClass` / `removeClass` / `toggleClass` /
`setClasses` calls on a set-up Surface whose element carries the class list
unless the classes are flagged dirty, applying the writes queued by `commit` in
order leaves the element with every class of `getClassList()` and without any
class that was listed at some point since the previous commit and is no longer
listed. -/
theorem commit_projects_classes (s : Surface) (ops : List ClassOp) (ctx : Context) (dom : Dom)
    (t : Nat) (classes : List String) (s1 : Surface) (log : List Effect)
    (ht : s._currentTarget = some t)
    (hsync : s._classesDirty = false → ∀ c ∈ s.classList, c ∈ classes)
    (hc : Surface.commit (Surface.applyClassOps s ops) ctx dom = .returned (s1, log)) :
    (∀ c ∈ Surface.getClassList (Surface.applyClassOps s ops),
      c ∈ applyClassWrites t classes log) ∧
    (∀ k c, c ∈ Surface.getClassList (Surface.applyClassOps s (ops.take k)) →
      c ∉ Surface.getClassList (Surface.applyClassOps s ops) →
      c ∉ applyClassWrites t classes log) := by
  have hstep := applyClassOps_step ops s
  have hu : (Surface.applyClassOps s ops)._currentTarget = some t := hstep.1.trans ht
  have hct : Surface.commitTarget (Surface.applyClassOps s ops) t ctx dom = .returned (s1, log) := by
    unfold Surface.commit at hc
    rw [hu] at hc
    exact hc
  rw [commitTarget_class_writes classes hct]
  unfold Surface.getClassList
  cases hd : (Surface.applyClassOps s ops)._classesDirty with
  | true =>
    constructor
    · intro c hcl
      exact (mem_applyClassWrites_commitClasses _ t classes hd c).mpr (Or.inr hcl)
    · intro k c hk hn hmem
      rcases (mem_applyClassWrites_commitClasses _ t classes hd c).mp hmem with ⟨-, hnd⟩ | hl
      · have hmid := applyClassOps_step (ops.drop k) (Surface.applyClassOps s (ops.take k))
        rw [applyClassOps_take_drop] at hmid
        rcases hmid.2.1 c hk with h | ⟨h, -⟩
        · exact hn h
        · exact hnd h
      · exact hn hl
  | false =>
    have hl : (Surface.commitClasses (Surface.applyClassOps s ops) t).2 = [] := by
      simp [Surface.commitClasses, hd]
    rw [hl]
    constructor
    · intro c hcl
      have hus := hstep.2.2.2.2 hd
      rw [hus] at hcl hd
      exact hsync hd c hcl
    · intro k c hk hn _
      have hmid := applyClassOps_step (ops.drop k) (Surface.applyClassOps s (ops.take k))
      rw [applyClassOps_take_drop] at hmid
      have := hmid.2.2.2.2 hd
      rw [← this] at hk
      exact hn hk

/-! ## Writes of a commit after setProperties / setAttributes / addClass calls -/

theorem setProperties_fold (ps : List (String × String)) :
    ∀ s : Surface, ∃ props,
      ps.foldl (fun (acc : Surface) p => { acc with properties := assign acc.properties p.1 p.2 }) s
        = { s with properties := props } := by
  induction ps with
  | nil => intro s; exact ⟨s.properties, rfl⟩
  | cons p rest ih =>
    intro s
    obtain ⟨props, h⟩ := ih { s with properties := assign s.properties p.1 p.2 }
    exact ⟨props, by rw [List.foldl_cons, h]⟩

theorem setAttributesLoop_state (attrs : List (String × String)) :
    ∀ s : Surface, ∃ at1 dq,
      (Surface.setAttributesLoop s attrs).state
        = { s with attributes := at1, _dirtyAttributes := dq } := by
  induction attrs with
  | nil => intro s; exact ⟨s.attributes, s._dirtyAttributes, rfl⟩
  | cons p rest ih =>
    intro s
    obtain ⟨n, v⟩ := p
    unfold Surface.setAttributesLoop
    split
    · exact ⟨s.attributes, s._dirtyAttributes, rfl⟩
    · obtain ⟨at1, dq, h⟩ := ih
        { s with attributes := assign s.attributes n v
                 _dirtyAttributes := s._dirtyAttributes.erase n }
      exact ⟨at1, dq, by rw [h]⟩

theorem setAttributesLoop_returned_iff (attrs : List (String × String)) :
    ∀ s : Surface,
      (∃ s1, Surface.setAttributesLoop s attrs = .returned s1) ↔ "style" ∉ attrs.map Prod.fst := by
  induction attrs with
  | nil => intro s; simp [Surface.setAttributesLoop]
  | cons p rest ih =>
    intro s
    obtain ⟨n, v⟩ := p
    by_cases hn : n = "style"
    · subst hn
      simp [Surface.setAttributesLoop]
    · have hn1 : ¬ "style" = n := fun h => hn h.symm
      simp only [Surface.setAttributesLoop, hn, if_false, List.map_cons, List.mem_cons, hn1,
        false_or]
      exact ih _

theorem applyMutation_step (s : Surface) (m : Mutation) :
    Surface.AspectStep s (Surface.applyMutation s m)
      (Mutation.isSetProperties m) (Mutation.isReturningSetAttributes m) := by
  cases m with
  | setProperties ps =>
    obtain ⟨props, h⟩ := setProperties_fold ps s
    simp only [Surface.applyMutation, Surface.setProperties, h]
    exact ⟨rfl, rfl, rfl, rfl, rfl, by simp [Mutation.isSetProperties],
      by simp [Mutation.isReturningSetAttributes], [], by simp, by simp⟩
  | setAttributes attrs =>
    obtain ⟨at1, dq, h⟩ := setAttributesLoop_state attrs s
    have hiff := setAttributesLoop_returned_iff attrs s
    simp only [Surface.applyMutation, Surface.setAttributes]
    cases hl : Surface.setAttributesLoop s attrs with
    | returned s1 =>
      have hs : "style" ∉ attrs.map Prod.fst := hiff.mp ⟨s1, hl⟩
      rw [hl] at h
      simp only [Outcome.state] at h ⊢
      rw [h]
      exact ⟨rfl, rfl, rfl, rfl, rfl, by simp [Mutation.isSetProperties],
        by simp [Mutation.isReturningSetAttributes, hs], [], by simp, by simp⟩
    | threw s1 =>
      have hs : ¬ "style" ∉ attrs.map Prod.fst := by
        intro hc
        obtain ⟨s2, h2⟩ := hiff.mpr hc
        rw [hl] at h2
        cases h2
      have hs1 : decide ("style" ∉ attrs.map Prod.fst) = false := decide_eq_false hs
      rw [hl] at h
      simp only [Outcome.state] at h ⊢
      rw [h]
      refine ⟨rfl, rfl, rfl, rfl, rfl, by simp [Mutation.isSetProperties], ?_, [], by simp,
        by simp⟩
      show s._attributesDirty = (s._attributesDirty || decide ("style" ∉ attrs.map Prod.fst))
      rw [hs1, Bool.or_false]
  | addClass c =>
    simp only [Surface.applyMutation, Surface.addClass]
    split
    · exact ⟨rfl, rfl, rfl, rfl, rfl, by simp [Mutation.isSetProperties],
        by simp [Mutation.isReturningSetAttributes], [c], rfl, by simp⟩
    · exact ⟨rfl, rfl, rfl, rfl, rfl, by simp [Mutation.isSetProperties],
        by simp [Mutation.isReturningSetAttributes], [], by simp, by simp⟩

theorem applyMutations_step (ops : List Mutation) :
    ∀ s : Surface, Surface.AspectStep s (Surface.applyMutations s ops)
      (ops.any Mutation.isSetProperties) (ops.any Mutation.isReturningSetAttributes) := by
  induction ops with
  | nil =>
    intro s
    exact ⟨rfl, rfl, rfl, rfl, rfl, by simp [Surface.applyMutations],
      by simp [Surface.applyMutations], [], by simp [Surface.applyMutations],
      by simp [Surface.applyMutations]⟩
  | cons m rest ih =>
    intro s
    obtain ⟨a1, a2, a3, a4, a5, a6, a7, ad1, a8, a9⟩ := applyMutation_step s m
    obtain ⟨b1, b2, b3, b4, b5, b6, b7, ad2, b8, b9⟩ := ih (Surface.applyMutation s m)
    have e : Surface.applyMutations s (m :: rest)
        = Surface.applyMutations (Surface.applyMutation s m) rest := rfl
    rw [e]
    refine ⟨b1.trans a1, b2.trans a2, b3.trans a3, b4.trans a4, b5.trans a5, ?_, ?_,
      ad1 ++ ad2, ?_, ?_⟩
    · rw [b6, a6, List.any_cons, Bool.or_assoc]
    · rw [b7, a7, List.any_cons, Bool.or_assoc]
    · rw [b8, a8, List.append_assoc]
    · rw [b9, a9]
      cases s._classesDirty <;> cases ad1 <;> cases ad2 <;> simp

theorem countP_map_const {α : Type} (p : Effect → Bool) (f : α → Effect) (b : Bool)
    (h : ∀ x, p (f x) = b) (l : List α) :
    (l.map f).countP p = if b then l.length else 0 := by
  induction l with
  | nil => cases b <;> rfl
  | cons x rest ih =>
    rw [List.map_cons, List.countP_cons, ih, h x]
    cases b <;> simp

theorem mem_removeDirtyAttributes (t : Nat) (indices : List Nat) :
    ∀ (q : List String), ∀ e ∈ (Surface.removeDirtyAttributes t indices q).1,
      ∃ n, e = Effect.removeAttribute t n := by
  induction indices with
  | nil => intro q e he; simp [Surface.removeDirtyAttributes] at he
  | cons i rest ih =>
    intro q e he
    unfold Surface.removeDirtyAttributes at he
    split at he
    · exact ih q e he
    · simp only [List.mem_cons] at he
      rcases he with rfl | he
      · exact ⟨_, rfl⟩
      · exact ih _ e he

theorem countP_removeDirtyAttributes (p : Effect → Bool) (hp : ∀ t n, p (Effect.removeAttribute t n) = false)
    (t : Nat) (indices : List Nat) (q : List String) :
    (Surface.removeDirtyAttributes t indices q).1.countP p = 0 := by
  rw [List.countP_eq_zero]
  intro e he
  obtain ⟨n, rfl⟩ := mem_removeDirtyAttributes t indices q e he
  simp [hp]

theorem commitClasses_snd (u : Surface) (t : Nat) :
    (Surface.commitClasses u t).2
      = if u._classesDirty then
          u._dirtyClasses.map (Effect.removeFromObject t) ++ u.classList.map (Effect.addToObject t)
        else [] := by
  cases hd : u._classesDirty <;>
    simp [Surface.commitClasses, Surface.cleanupClasses, Surface.getClassList, hd]

theorem commitStyles_snd (u : Surface) (t : Nat) :
    (Surface.commitStyles u t).2
      = if u._stylesDirty then u.properties.map (fun p => Effect.assignStyle t p.1 p.2)
        else [] := by
  cases hd : u._stylesDirty <;> simp [Surface.commitStyles, Surface.applyStyles, hd]

theorem commitAttributes_snd (u : Surface) (t : Nat) :
    (Surface.commitAttributes u t).2
      = if u._attributesDirty then
          u.attributes.map (fun p => Effect.setAttribute t p.1 p.2)
            ++ (Surface.removeDirtyAttributes t (List.range u._dirtyAttributes.length)
                  u._dirtyAttributes).1
        else [] := by
  cases hd : u._attributesDirty <;> simp [Surface.commitAttributes, Surface.applyAttributes, hd]

theorem countP_commitClasses (u : Surface) (t : Nat) :
    (Surface.commitClasses u t).2.countP Effect.isAddToObject
        = (if u._classesDirty then u.classList.length else 0) ∧
    (Surface.commitClasses u t).2.countP Effect.isAssignStyle = 0 ∧
    (Surface.commitClasses u t).2.countP Effect.isSetAttribute = 0 := by
  rw [commitClasses_snd]
  cases u._classesDirty
  · simp
  · simp only [if_true, List.countP_append]
    rw [countP_map_const Effect.isAddToObject (Effect.removeFromObject t) false (fun _ => rfl),
      countP_map_const Effect.isAddToObject (Effect.addToObject t) true (fun _ => rfl),
      countP_map_const Effect.isAssignStyle (Effect.removeFromObject t) false (fun _ => rfl),
      countP_map_const Effect.isAssignStyle (Effect.addToObject t) false (fun _ => rfl),
      countP_map_const Effect.isSetAttribute (Effect.removeFromObject t) false (fun _ => rfl),
      countP_map_const Effect.isSetAttribute (Effect.addToObject t) false (fun _ => rfl)]
    simp

theorem countP_commitStyles (u : Surface) (t : Nat) :
    (Surface.commitStyles u t).2.countP Effect.isAddToObject = 0 ∧
    (Surface.commitStyles u t).2.countP Effect.isAssignStyle
        = (if u._stylesDirty then u.properties.length else 0) ∧
    (Surface.commitStyles u t).2.countP Effect.isSetAttribute = 0 := by
  rw [commitStyles_snd]
  cases u._stylesDirty
  · simp
  · simp only [if_true]
    rw [countP_map_const Effect.isAddToObject
        (fun p : String × String => Effect.assignStyle t p.1 p.2) false (fun _ => rfl),
      countP_map_const Effect.isAssignStyle
        (fun p : String × String => Effect.assignStyle t p.1 p.2) true (fun _ => rfl),
      countP_map_const Effect.isSetAttribute
        (fun p : String × String => Effect.assignStyle t p.1 p.2) false (fun _ => rfl)]
    simp

theorem countP_commitAttributes (u : Surface) (t : Nat) :
    (Surface.commitAttributes u t).2.countP Effect.isAddToObject = 0 ∧
    (Surface.commitAttributes u t).2.countP Effect.isAssignStyle = 0 ∧
    (Surface.commitAttributes u t).2.countP Effect.isSetAttribute
        = (if u._attributesDirty then u.attributes.length else 0) := by
  rw [commitAttributes_snd]
  cases u._attributesDirty
  · simp
  · simp only [if_true, List.countP_append]
    rw [countP_map_const Effect.isAddToObject
        (fun p : String × String => Effect.setAttribute t p.1 p.2) false (fun _ => rfl),
      countP_map_const Effect.isAssignStyle
        (fun p : String × String => Effect.setAttribute t p.1 p.2) false (fun _ => rfl),
      countP_map_const Effect.isSetAttribute
        (fun p : String × String => Effect.setAttribute t p.1 p.2) true (fun _ => rfl),
      countP_removeDirtyAttributes Effect.isAddToObject (fun _ _ => rfl),
      countP_removeDirtyAttributes Effect.isAssignStyle (fun _ _ => rfl),
      countP_removeDirtyAttributes Effect.isSetAttribute (fun _ _ => rfl)]
    simp

theorem commitTarget_tail {sA : Surface} {t : Nat} {ctx : Context} {dom : Dom} {tsc : Bool}
    (e3 : sA._sizeDirty = false) (e4 : sA._contentDirty = false)
    (hr : Surface.resolveSize sA ctx dom = some ({ sA with _trueSizeCheck := tsc }, sA._size))
    (log : List Effect) :
    (match Surface.resolveSize sA ctx dom with
      | none => Outcome.threw (sA, log)
      | some (s1, size) =>
        match Surface.storeSize s1 size with
        | none => Outcome.threw (s1, log)
        | some s2 =>
          Outcome.returned
            ((Surface.commitContent (Surface.commitSizeDirty s2 t).1 t dom).1,
             log ++ (Surface.commitSizeDirty s2 t).2
               ++ (Surface.commitContent (Surface.commitSizeDirty s2 t).1 t dom).2
               ++ [Effect.elementOutputCommit]))
      = Outcome.returned ({ sA with _trueSizeCheck := tsc }, log ++ [Effect.elementOutputCommit]) := by
  have c4 : Surface.storeSize { sA with _trueSizeCheck := tsc } sA._size
      = some { sA with _trueSizeCheck := tsc } := by
    have : Surface.xyNotEquals sA._size sA._size = false := xyNotEquals_eq_false.mpr rfl
    simp [Surface.storeSize, this]
  have c5 : Surface.commitSizeDirty { sA with _trueSizeCheck := tsc } t
      = ({ sA with _trueSizeCheck := tsc }, []) := by simp [Surface.commitSizeDirty, e3]
  have c6 : Surface.commitContent { sA with _trueSizeCheck := tsc } t dom
      = ({ sA with _trueSizeCheck := tsc }, []) := by simp [Surface.commitContent, e4]
  simp only [hr, c4, c5, c6, List.append_nil]

theorem commitTarget_aspects {u : Surface} {t : Nat} {ctx : Context} {dom : Dom}
    (h4 : u._sizeDirty = false) (h5 : u._contentDirty = false)
    (hR : ∀ v : Surface, v.size = u.size → v._size = u._size →
      ∃ tsc, Surface.resolveSize v ctx dom = some ({ v with _trueSizeCheck := tsc }, v._size)) :
    ∃ s2, Surface.commitTarget u t ctx dom
      = .returned (s2,
          (Surface.commitClasses u t).2
            ++ (Surface.commitStyles (Surface.commitClasses u t).1 t).2
            ++ (Surface.commitAttributes
                  (Surface.commitStyles (Surface.commitClasses u t).1 t).1 t).2
            ++ [Effect.elementOutputCommit]) := by
  have e1 : (Surface.commitAttributes (Surface.commitStyles (Surface.commitClasses u t).1 t).1
      t).1.size = u.size := by
    rw [commitAttributes_fst, commitStyles_fst, commitClasses_fst]
  have e2 : (Surface.commitAttributes (Surface.commitStyles (Surface.commitClasses u t).1 t).1
      t).1._size = u._size := by
    rw [commitAttributes_fst, commitStyles_fst, commitClasses_fst]
  have e3 : (Surface.commitAttributes (Surface.commitStyles (Surface.commitClasses u t).1 t).1
      t).1._sizeDirty = false := by
    rw [commitAttributes_fst, commitStyles_fst, commitClasses_fst]
    exact h4
  have e4 : (Surface.commitAttributes (Surface.commitStyles (Surface.commitClasses u t).1 t).1
      t).1._contentDirty = false := by
    rw [commitAttributes_fst, commitStyles_fst, commitClasses_fst]
    exact h5
  obtain ⟨tsc, hr⟩ := hR _ e1 e2
  exact ⟨_, commitTarget_tail e3 e4 hr _⟩

/-- C2 (as amended): for every sequence of `setProperties` / `setAttributes` /
`addClass` calls made between a returned commit and the next one (same context
size, measurements stored), the next commit returns and issues, for each aspect
the calls changed, one DOMBuffer write per entry the Surface holds for that
aspect (one `addToObject` per class when a class was added, one `assignProperty`
on the style per property when `setProperties` was called, one `setAttribute`
per attribute when a `setAttributes` call returned) and none of these writes for
an aspect left unchanged. -/
theorem commit_writes_one_per_entry (s0 s1 : Surface) (ctx ctx2 : Context) (dom dom2 : Dom)
    (log1 : List Effect) (ops : List Mutation)
    (h1 : Surface.commit s0 ctx dom = .returned (s1, log1))
    (hctx : ctx2.size = ctx.size)
    (hm : Surface.measurementsCached s1 ctx2 dom2) :
    ∃ s2 log,
      Surface.commit (Surface.applyMutations s1 ops) ctx2 dom2 = .returned (s2, log) ∧
      log.countP Effect.isAddToObject
        = (if (Surface.applyMutations s1 ops).classList ≠ s1.classList
            then (Surface.applyMutations s1 ops).classList.length else 0) ∧
      log.countP Effect.isAssignStyle
        = (if ops.any Mutation.isSetProperties
            then (Surface.applyMutations s1 ops).properties.length else 0) ∧
      log.countP Effect.isSetAttribute
        = (if ops.any Mutation.isReturningSetAttributes
            then (Surface.applyMutations s1 ops).attributes.length else 0) := by
  obtain ⟨f1, f2, f3, f4, f5, ⟨t, ht⟩, -⟩ := commit_post h1
  obtain ⟨g1, g2, g3, g4, g5, g6, g7, added, g8, g9⟩ := applyMutations_step ops s1
  generalize Surface.applyMutations s1 ops = u at g1 g2 g3 g4 g5 g6 g7 g8 g9 ⊢
  rw [f2, Bool.false_or] at g6
  rw [f3, Bool.false_or] at g7
  rw [f1, Bool.false_or] at g9
  obtain ⟨s2, hct⟩ := @commitTarget_aspects u t ctx2 dom2
    (g3.trans f4) (g4.trans f5)
    (fun v hv1 hv2 => resolveSize_settled h1 hctx hm (hv1.trans g1) (hv2.trans g2))
  have hcommit : Surface.commit u ctx2 dom2 = Surface.commitTarget u t ctx2 dom2 := by
    unfold Surface.commit
    rw [g5.trans ht]
  have p1 : (Surface.commitClasses u t).1._stylesDirty = u._stylesDirty := by
    rw [commitClasses_fst]
  have p2 : (Surface.commitClasses u t).1.properties = u.properties := by
    rw [commitClasses_fst]
  have p3 : (Surface.commitStyles (Surface.commitClasses u t).1 t).1._attributesDirty
      = u._attributesDirty := by
    rw [commitStyles_fst, commitClasses_fst]
  have p4 : (Surface.commitStyles (Surface.commitClasses u t).1 t).1.attributes
      = u.attributes := by
    rw [commitStyles_fst, commitClasses_fst]
  obtain ⟨c1, c2, c3⟩ := countP_commitClasses u t
  obtain ⟨y1, y2, y3⟩ := countP_commitStyles (Surface.commitClasses u t).1 t
  obtain ⟨a1, a2, a3⟩ :=
    countP_commitAttributes (Surface.commitStyles (Surface.commitClasses u t).1 t).1 t
  rw [p1, p2] at y2
  rw [p3, p4] at a3
  have hcl : (u.classList ≠ s1.classList) ↔ u._classesDirty = true := by
    rw [g9, g8]
    cases added <;> simp
  refine ⟨s2, _, hcommit.trans hct, ?_, ?_, ?_⟩
  · simp only [List.countP_append, c1, y1, a1]
    by_cases hd : u._classesDirty = true
    · simp [hd, hcl.mpr hd, Effect.isAddToObject]
    · have hn : ¬ (u.classList ≠ s1.classList) := fun h => hd (hcl.mp h)
      simp [hd, hn, Effect.isAddToObject]
  · simp only [List.countP_append, c2, y2, a2, g6]
    simp [Effect.isAssignStyle]
  · simp only [List.countP_append, c3, y3, a3, g7]
    simp [Effect.isSetAttribute]

/-- Witness of C2: two properties, one class and one attribute set between two
commits of a Surface that measures its width. -/
theorem commit_writes_one_per_entry_witness :
    ∃ s2 log,
      Surface.commit
          (Surface.applyMutations
            (Surface.commit measuredSurface exampleContext measuredDom).state.1
            [.setProperties [("color", "red"), ("margin", "0")], .addClass "big",
             .setAttributes [("title", "t")]])
          exampleContext measuredDom
        = .returned (s2, log) ∧
      log.countP Effect.isAddToObject
        = (if (Surface.applyMutations
                (Surface.commit measuredSurface exampleContext measuredDom).state.1
                [.setProperties [("color", "red"), ("margin", "0")], .addClass "big",
                 .setAttributes [("title", "t")]]).classList
              ≠ (Surface.commit measuredSurface exampleContext measuredDom).state.1.classList
            then (Surface.applyMutations
                (Surface.commit measuredSurface exampleContext measuredDom).state.1
                [.setProperties [("color", "red"), ("margin", "0")], .addClass "big",
                 .setAttributes [("title", "t")]]).classList.length
            else 0) ∧
      log.countP Effect.isAssignStyle
        = (if [Mutation.setProperties [("color", "red"), ("margin", "0")], .addClass "big",
                .setAttributes [("title", "t")]].any Mutation.isSetProperties
            then (Surface.applyMutations
                (Surface.commit measuredSurface exampleContext measuredDom).state.1
                [.setProperties [("color", "red"), ("margin", "0")], .addClass "big",
                 .setAttributes [("title", "t")]]).properties.length
            else 0) ∧
      log.countP Effect.isSetAttribute
        = (if [Mutation.setProperties [("color", "red"), ("margin", "0")], .addClass "big",
                .setAttributes [("title", "t")]].any Mutation.isReturningSetAttributes
            then (Surface.applyMutations
                (Surface.commit measuredSurface exampleContext measuredDom).state.1
                [.setProperties [("color", "red"), ("margin", "0")], .addClass "big",
                 .setAttributes [("title", "t")]]).attributes.length
            else 0) :=
  commit_writes_one_per_entry measuredSurface
    (Surface.commit measuredSurface exampleContext measuredDom).state.1
    exampleContext exampleContext measuredDom measuredDom
    (Surface.commit measuredSurface exampleContext measuredDom).state.2
    [.setProperties [("color", "red"), ("margin", "0")], .addClass "big",
     .setAttributes [("title", "t")]]
    (by decide) rfl
    (by
      intro a b hs
      have h0 : (Surface.commit measuredSurface exampleContext measuredDom).state.1.size
          = some (.tru, .num 30) := by decide
      rw [h0] at hs
      cases hs
      constructor
      · intro _; decide
      · intro h; simp [Surface.inheritAxis] at h)

/-- Counterexample to C2 as stated: one `setProperties` call with two properties
between two commits makes the next commit issue two style writes, not one. -/
theorem commit_writes_twice_for_two_properties :
    Surface.commit measuredSurface exampleContext measuredDom
      = .returned (Surface.commit measuredSurface exampleContext measuredDom).state ∧
    (Surface.commit
        (Surface.setProperties
          (Surface.commit measuredSurface exampleContext measuredDom).state.1
          [("color", "red"), ("margin", "0")])
        exampleContext measuredDom).state.2
      = [Effect.assignStyle 5 "color" "red", Effect.assignStyle 5 "margin" "0",
         Effect.elementOutputCommit] ∧
    ((Surface.commit
        (Surface.setProperties
          (Surface.commit measuredSurface exampleContext measuredDom).state.1
          [("color", "red"), ("margin", "0")])
        exampleContext measuredDom).state.2.countP Effect.isAssignStyle) ≠ 1 := by
  decide

/-- Witness of C7: classes `a` and `b` are on the element; `a` is removed, `c`
added, `b` removed and added again. -/
theorem commit_projects_classes_witness :
    (∀ c ∈ Surface.getClassList
        (Surface.applyClassOps { committedSurface with classList := ["a", "b"] }
          [.removeClass "a", .addClass "c", .removeClass "b", .addClass "b"]),
      c ∈ applyClassWrites 5 ["famous-surface", "a", "b"]
        (Surface.commit
          (Surface.applyClassOps { committedSurface with classList := ["a", "b"] }
            [.removeClass "a", .addClass "c", .removeClass "b", .addClass "b"])
          exampleContext exampleDom).state.2) ∧
    (∀ k c,
      c ∈ Surface.getClassList
        (Surface.applyClassOps { committedSurface with classList := ["a", "b"] }
          (([.removeClass "a", .addClass "c", .removeClass "b", .addClass "b"] :
            List ClassOp).take k)) →
      c ∉ Surface.getClassList
        (Surface.applyClassOps { committedSurface with classList := ["a", "b"] }
          [.removeClass "a", .addClass "c", .removeClass "b", .addClass "b"]) →
      c ∉ applyClassWrites 5 ["famous-surface", "a", "b"]
        (Surface.commit
          (Surface.applyClassOps { committedSurface with classList := ["a", "b"] }
            [.removeClass "a", .addClass "c", .removeClass "b", .addClass "b"])
          exampleContext exampleDom).state.2) :=
  commit_projects_classes { committedSurface with classList := ["a", "b"] }
    [.removeClass "a", .addClass "c", .removeClass "b", .addClass "b"]
    exampleContext exampleDom 5 ["famous-surface", "a", "b"]
    (Surface.commit
      (Surface.applyClassOps { committedSurface with classList := ["a", "b"] }
        [.removeClass "a", .addClass "c", .removeClass "b", .addClass "b"])
      exampleContext exampleDom).state.1
    (Surface.commit
      (Surface.applyClassOps { committedSurface with classList := ["a", "b"] }
        [.removeClass "a", .addClass "c", .removeClass "b", .addClass "b"])
      exampleContext exampleDom).state.2
    rfl (by decide) (by decide)

/-! ## One native listener per event type -/

theorem get_assign {α : Type} (obj : List (String × α)) (k k1 : String) (v : α) :
    get (assign obj k v) k1 = if k1 = k then some v else get obj k1 := by
  induction obj with
  | nil =>
    by_cases h : k1 = k
    · simp [assign, get, h]
    · have h1 : ¬ k = k1 := fun e => h e.symm
      simp [assign, get, h, h1]
  | cons q rest ih =>
    obtain ⟨k2, v2⟩ := q
    unfold assign
    by_cases h2 : k2 = k
    · subst h2
      by_cases h : k1 = k2
      · subst h; simp [get]
      · have h1 : ¬ k2 = k1 := fun e => h e.symm
        simp [get, h, h1]
    · simp only [h2, if_false]
      unfold get
      by_cases h3 : k2 = k1
      · subst h3
        have : ¬ k2 = k := h2
        simp [this]
      · simp only [h3, if_false]
        exact ih

theorem listenerPerType_calls {st st1 : DOMEventHandler}
    (h : DOMEventHandler.ListenerPerType st)
    (hk : ∀ type, (get st1.initializedListeners type).isSome
      = (get st.initializedListeners type).isSome)
    (hc : ∀ type, st1.calls.count (NativeCall.windowAddEventListener type)
      = st.calls.count (NativeCall.windowAddEventListener type)) :
    DOMEventHandler.ListenerPerType st1 := by
  intro type
  unfold DOMEventHandler.windowListeners
  rw [hc type, hk type]
  exact h type

theorem isSome_get_assign_of_isSome {α : Type} (obj : List (String × α)) (k : String) (v : α)
    (h : (get obj k).isSome = true) (k1 : String) :
    (get (assign obj k v) k1).isSome = (get obj k1).isSome := by
  rw [get_assign]
  by_cases hk : k1 = k
  · subst hk; simp [h]
  · simp [hk]

theorem _addEventListener_spec (st : DOMEventHandler) (type : String)
    (h : DOMEventHandler.ListenerPerType st) :
    DOMEventHandler.ListenerPerType (DOMEventHandler._addEventListener st type).1 ∧
    get (DOMEventHandler._addEventListener st type).1.initializedListeners type
      = some (DOMEventHandler._addEventListener st type).2 ∧
    (∀ k, (get st.initializedListeners k).isSome = true →
      (get (DOMEventHandler._addEventListener st type).1.initializedListeners k).isSome = true) := by
  unfold DOMEventHandler._addEventListener
  cases hg : get st.initializedListeners type with
  | some e => exact ⟨h, hg, fun k hk => hk⟩
  | none =>
    refine ⟨?_, ?_, ?_⟩
    · intro k
      have hk := h k
      unfold DOMEventHandler.windowListeners at hk ⊢
      simp only [get_assign, List.count_append]
      by_cases e : k = type
      · subst e
        rw [hk, hg]
        simp
      · have e1 : ¬ type = k := fun x => e x.symm
        rw [hk]
        simp [e, e1, List.count_cons]
    · simp [get_assign]
    · intro k hk
      simp only [get_assign]
      by_cases e : k = type
      · simp [e]
      · simp [e, hk]

theorem count_window_append_other (calls : List NativeCall) (c : NativeCall) (type : String)
    (h : ∀ t, c ≠ NativeCall.windowAddEventListener t) :
    (calls ++ [c]).count (NativeCall.windowAddEventListener type)
      = calls.count (NativeCall.windowAddEventListener type) := by
  rw [List.count_append]
  have : [c].count (NativeCall.windowAddEventListener type) = 0 := by
    rw [List.count_eq_zero]
    simp only [List.mem_singleton]
    exact fun e => h type e.symm
  rw [this, Nat.add_zero]

theorem call_spec (p : Platform) (st : DOMEventHandler) (c : RouterCall)
    (h : DOMEventHandler.ListenerPerType st) :
    DOMEventHandler.ListenerPerType (DOMEventHandler.call p st c) ∧
    (∀ k, (get st.initializedListeners k).isSome = true →
      (get (DOMEventHandler.call p st c).initializedListeners k).isSome = true) := by
  cases c with
  | addEventListener id element type callback =>
    simp only [DOMEventHandler.call, DOMEventHandler.addEventListener]
    split
    · exact ⟨h, fun k hk => hk⟩
    · split
      · exact ⟨listenerPerType_calls h (fun _ => rfl)
          (fun t => count_window_append_other _ _ t (fun _ e => by cases e)), fun k hk => hk⟩
      · have h1 : DOMEventHandler.ListenerPerType
            { st with calls := st.calls ++ [NativeCall.setAttribute element id] } :=
          listenerPerType_calls h (fun _ => rfl)
            (fun t => count_window_append_other _ _ t (fun _ e => by cases e))
        obtain ⟨a1, a2, a3⟩ := _addEventListener_spec _ type h1
        have hsome : (get (DOMEventHandler._addEventListener
            { st with calls := st.calls ++ [NativeCall.setAttribute element id] }
            type).1.initializedListeners type).isSome = true := by
          rw [a2]; rfl
        refine ⟨listenerPerType_calls a1
          (fun k => isSome_get_assign_of_isSome _ type _ hsome k) (fun _ => rfl), ?_⟩
        intro k hk
        have := a3 k hk
        rw [← isSome_get_assign_of_isSome _ type _ hsome k] at this
        exact this
  | addEventListenerForAllOthers id type callback =>
    simp only [DOMEventHandler.call, DOMEventHandler.addEventListenerForAllOthers]
    split
    · exact ⟨h, fun k hk => hk⟩
    · obtain ⟨a1, a2, a3⟩ := _addEventListener_spec st type h
      have hsome : (get (DOMEventHandler._addEventListener st
          type).1.initializedListeners type).isSome = true := by
        rw [a2]; rfl
      refine ⟨listenerPerType_calls a1
        (fun k => isSome_get_assign_of_isSome _ type _ hsome k) (fun _ => rfl), ?_⟩
      intro k hk
      have := a3 k hk
      rw [← isSome_get_assign_of_isSome _ type _ hsome k] at this
      exact this
  | removeEventListener element id type callback =>
    simp only [DOMEventHandler.call, DOMEventHandler.removeEventListener]
    split
    · exact ⟨listenerPerType_calls h (fun _ => rfl)
        (fun t => count_window_append_other _ _ t (fun _ e => by cases e)), fun k hk => hk⟩
    · split
      · rename_i e he
        have hsome : (get st.initializedListeners type).isSome = true := by rw [he]; rfl
        refine ⟨listenerPerType_calls h
          (fun k => isSome_get_assign_of_isSome _ type _ hsome k) (fun _ => rfl), ?_⟩
        intro k hk
        rw [← isSome_get_assign_of_isSome _ type _ hsome k] at hk
        exact hk
      · exact ⟨h, fun k hk => hk⟩
  | removeEventListenerForAllOthers id type callback =>
    simp only [DOMEventHandler.call, DOMEventHandler.removeEventListenerForAllOthers]
    split
    · rename_i e w he hw
      have hsome : (get st.initializedListeners type).isSome = true := by rw [he]; rfl
      refine ⟨listenerPerType_calls h
        (fun k => isSome_get_assign_of_isSome _ type _ hsome k) (fun _ => rfl), ?_⟩
      intro k hk
      rw [← isSome_get_assign_of_isSome _ type _ hsome k] at hk
      exact hk
    · exact ⟨h, fun k hk => hk⟩

theorem run_spec (p : Platform) (calls : List RouterCall) :
    ∀ st, DOMEventHandler.ListenerPerType st →
      DOMEventHandler.ListenerPerType (DOMEventHandler.run p st calls) ∧
      (∀ k, (get st.initializedListeners k).isSome = true →
        (get (DOMEventHandler.run p st calls).initializedListeners k).isSome = true) := by
  induction calls with
  | nil => intro st h; exact ⟨h, fun k hk => hk⟩
  | cons c rest ih =>
    intro st h
    obtain ⟨a1, a2⟩ := call_spec p st c h
    obtain ⟨b1, b2⟩ := ih _ a1
    exact ⟨b1, fun k hk => b2 k (a2 k hk)⟩

theorem listenerPerType_initial : DOMEventHandler.ListenerPerType {} := by
  intro type
  rfl

theorem addEventListener_delegable (p : Platform) (st : DOMEventHandler) (id : String)
    (element : Nat) (type : String) (callback : Nat)
    (hn : DOMEventHandler.isNativeEvent p type = true)
    (hs : type ∉ DOMEventHandler.singleElementEvents p) :
    (get (DOMEventHandler.addEventListener p st id element type callback).initializedListeners
      type).isSome = true := by
  simp only [DOMEventHandler.addEventListener, hn, hs, Bool.not_true, Bool.false_eq_true,
    if_false, get_assign, if_true, Option.isSome_some]

theorem click_not_single (p : Platform) (h : p.iOS = false) :
    "click" ∉ DOMEventHandler.singleElementEvents p := by
  simp [DOMEventHandler.singleElementEvents, h]

theorem run_clicks_on_iOS (p : Platform) (h : p.iOS = true) (regs : List (String × Nat × Nat)) :
    ∀ st, (DOMEventHandler.run p st (regs.map clickRegistration)).initializedListeners
      = st.initializedListeners := by
  induction regs with
  | nil => intro st; rfl
  | cons r rest ih =>
    intro st
    have e : DOMEventHandler.run p st ((r :: rest).map clickRegistration)
        = DOMEventHandler.run p (DOMEventHandler.call p st (clickRegistration r))
            (rest.map clickRegistration) := rfl
    rw [e, ih]
    have hs : "click" ∈ DOMEventHandler.singleElementEvents p := by
      simp [DOMEventHandler.singleElementEvents, h]
    simp only [clickRegistration, DOMEventHandler.call, DOMEventHandler.addEventListener, hs,
      if_true]
    split <;> rfl

/-- C9 (as amended): for every platform and every sequence of calls of the four
registration functions, at most one native listener per event type is attached
to `window`; on a platform where `click` is delegated (a native event, not iOS)
registering 1000 identifiers for `click` attaches exactly one. -/
theorem one_native_listener_per_type (p : Platform) :
    (∀ (calls : List RouterCall) (type : String),
      (DOMEventHandler.run p {} calls).windowListeners type ≤ 1) ∧
    (p.iOS = false → DOMEventHandler.isNativeEvent p "click" = true →
      ∀ regs : List (String × Nat × Nat), regs.length = 1000 →
        (DOMEventHandler.run p {} (regs.map clickRegistration)).windowListeners "click" = 1) := by
  constructor
  · intro calls type
    have h := (run_spec p calls {} listenerPerType_initial).1 type
    rw [h]
    split <;> simp
  · intro hi hn regs hlen
    cases regs with
    | nil => simp at hlen
    | cons r rest =>
      have e : DOMEventHandler.run p {} ((r :: rest).map clickRegistration)
          = DOMEventHandler.run p (DOMEventHandler.call p {} (clickRegistration r))
              (rest.map clickRegistration) := rfl
      obtain ⟨a1, -⟩ := call_spec p {} (clickRegistration r) listenerPerType_initial
      obtain ⟨b1, b2⟩ := run_spec p (rest.map clickRegistration) _ a1
      have hsome := b2 "click"
        (addEventListener_delegable p {} r.1 r.2.1 "click" r.2.2 hn (click_not_single p hi))
      rw [e, b1 "click"]
      exact if_pos hsome

/-- Witness of C9: a thousand `click` registrations on a desktop browser. -/
theorem one_native_listener_per_type_witness :
    (DOMEventHandler.run desktop {} (thousandRenderables.map clickRegistration)).windowListeners
      "click" = 1 :=
  (one_native_listener_per_type desktop).2 rfl (by decide) thousandRenderables
    (by simp [thousandRenderables])

/-- Counterexample to C9 as stated: on iOS `click` is attached to each element
directly, so a thousand registrations attach no listener to `window`. -/
theorem no_window_listener_for_click_on_iOS :
    (DOMEventHandler.run iPhone {} (thousandRenderables.map clickRegistration)).windowListeners
      "click" = 0 ∧
    (DOMEventHandler.run iPhone {} (thousandRenderables.map clickRegistration)).windowListeners
      "click" ≠ 1 := by
  have h := (run_spec iPhone (thousandRenderables.map clickRegistration) {}
    listenerPerType_initial).1 "click"
  rw [run_clicks_on_iOS iPhone rfl thousandRenderables {}] at h
  have h0 : (DOMEventHandler.run iPhone {}
      (thousandRenderables.map clickRegistration)).windowListeners "click" = 0 := h
  exact ⟨h0, by rw [h0]; decide⟩

/-! ## Defects of the event router and of emit, found by evaluating the code -/

/-- C12 (evaluation): `addEventListenerForAllOthers('7', 'click', 42)` followed
by `removeEventListenerForAllOthers('7', 'click', 42)`, twice.  The first pair
leaves the exclusion list empty; the second registration makes a new wrapper
while the callback keeps the first one cached, so the second removal finds
nothing and the new wrapper stays: a later click on a target with routing id `8`
still calls the callback. -/
theorem second_allOthers_wrapper_is_not_removed :
    DOMEventHandler.nativeListener
        (DOMEventHandler.removeEventListenerForAllOthers
          (DOMEventHandler.addEventListenerForAllOthers desktop {} "7" "click" 42).state
          "click" 42)
        "click" (some "8") = [] ∧
    (DOMEventHandler.removeEventListenerForAllOthers
        (DOMEventHandler.addEventListenerForAllOthers desktop
          (DOMEventHandler.removeEventListenerForAllOthers
            (DOMEventHandler.addEventListenerForAllOthers desktop {} "7" "click" 42).state
            "click" 42)
          "7" "click" 42).state
        "click" 42)
      = { initializedListeners :=
            [("click", { inclusion := { listeners := [] }
                         exclusion := { listeners := [("click", [Handler.wrapper 1 "7" 42])] } })]
          wrapperCallback := [(42, Handler.wrapper 0 "7" 42)]
          closures := 2
          calls := [NativeCall.windowAddEventListener "click"] } ∧
    DOMEventHandler.nativeListener
        (DOMEventHandler.removeEventListenerForAllOthers
          (DOMEventHandler.addEventListenerForAllOthers desktop
            (DOMEventHandler.removeEventListenerForAllOthers
              (DOMEventHandler.addEventListenerForAllOthers desktop {} "7" "click" 42).state
              "click" 42)
            "7" "click" 42).state
          "click" 42)
        "click" (some "8") = [42] := by
  decide

/-- C13 (evaluation): on a new emitter, `once('e', 1)` then `on('e', 2)` then
`emit('e', 'p')`: the once wrapper splices itself out of the array the loop
walks, handler 2 moves to index 0 and the loop, now at index 1, ends without
calling it. -/
theorem emit_skips_handler_after_once_wrapper :
    EventEmitter.emit
        (EventEmitter.addListener (EventEmitter.once {} "e" (some 1)).1 "e" (.callback 2))
        "e" [.str "p"]
      = .returned
          ({ listeners := [("e", [Handler.callback 2])]
             onces := [{ type := "e", handler := some 1, resolveValue := .str "p",
                         isResolved := true }] },
           [⟨1, .owner .self, [.str "p"]⟩]) := by
  decide

/-- C15 (evaluation): on a new emitter, `once('e', 1)` and then `once('e', 3)`,
whose thenable is closure 1.  After `emit('e', 'p')` the second wrapper has been
skipped, so `then(9)` calls nothing and queues 9; after a further
`emit('e', 'q')`, `then(9)` calls 9 with `q`, not with the payload `p` of the
first emit. -/
theorem late_then_misses_first_payload :
    (EventEmitter.thenCall
        (EventEmitter.emit
          (EventEmitter.once (EventEmitter.once {} "e" (some 1)).1 "e" (some 3)).1
          "e" [.str "p"]).state.1
        1 9).2 = [] ∧
    (EventEmitter.thenCall
        (EventEmitter.emit
          (EventEmitter.emit
            (EventEmitter.once (EventEmitter.once {} "e" (some 1)).1 "e" (some 3)).1
            "e" [.str "p"]).state.1
          "e" [.str "q"]).state.1
        1 9).2 = [⟨9, .undefined, [.str "q"]⟩] := by
  decide

/-- C16 (evaluation): an emitter bound with `bindThis` to another emitter, then
`once('e', 1)`.  The wrapper calls `removeListener` on the owner, so it stays in
the list and both `emit('e', 'p')` and `emit('e', 'q')` call handler 1.  With
the default owner, a wrapper registered after another once wrapper is not called
by the first emit and is still listed after it. -/
theorem once_handler_called_twice_after_bindThis :
    EventEmitter.emit
        (EventEmitter.once (EventEmitter.bindThis {} (.emitter 1)) "e" (some 1)).1
        "e" [.str "p"]
      = .returned
          ({ listeners := [("e", [Handler.onceWrapper 0])]
             _owner := .emitter 1
             onces := [{ type := "e", handler := some 1, resolveValue := .str "p",
                         isResolved := true }] },
           [⟨1, .owner (.emitter 1), [.str "p"]⟩]) ∧
    (EventEmitter.emit
        (EventEmitter.emit
          (EventEmitter.once (EventEmitter.bindThis {} (.emitter 1)) "e" (some 1)).1
          "e" [.str "p"]).state.1
        "e" [.str "q"]).state.2 = [⟨1, .owner (.emitter 1), [.str "q"]⟩] ∧
    (EventEmitter.emit
        (EventEmitter.once (EventEmitter.once {} "e" (some 1)).1 "e" (some 3)).1
        "e" [.str "p"]).state
      = ({ listeners := [("e", [Handler.onceWrapper 1])]
           onces := [{ type := "e", handler := some 1, resolveValue := .str "p",
                       isResolved := true },
                     { type := "e", handler := some 3 }] },
         [⟨1, .owner .self, [.str "p"]⟩]) := by
  decide

/-! ## A listener appears at most once per type -/

theorem assign_same {α : Type} (obj : List (String × α)) (k : String) (v : α)
    (h : get obj k = some v) : assign obj k v = obj := by
  induction obj with
  | nil => simp [get] at h
  | cons q rest ih =>
    obtain ⟨k1, v1⟩ := q
    unfold get at h
    unfold assign
    by_cases hk : k1 = k
    · simp only [hk, if_true, Option.some.injEq] at h
      simp [hk, h]
    · simp only [hk, if_false] at h
      simp [hk, ih h]

theorem noDuplicates_assign {listeners : List (String × List Handler)} {type : String}
    {hs : List Handler} (h : NoDuplicates listeners) (hn : hs.Nodup) :
    NoDuplicates (assign listeners type hs) := by
  intro t l hl
  rw [get_assign] at hl
  by_cases ht : t = type
  · simp only [ht, if_true, Option.some.injEq] at hl
    rw [← hl]
    exact hn
  · simp only [ht, if_false] at hl
    exact h t l hl

theorem noDuplicates_getD {listeners : List (String × List Handler)} (type : String)
    (h : NoDuplicates listeners) : ((get listeners type).getD []).Nodup := by
  cases hg : get listeners type with
  | none => simp
  | some hs => exact h type hs hg

theorem addListener_noDuplicates (e : EventEmitter) (type : String) (handler : Handler)
    (h : NoDuplicates e.listeners) :
    NoDuplicates (EventEmitter.addListener e type handler).listeners := by
  unfold EventEmitter.addListener
  apply noDuplicates_assign h
  have hn := noDuplicates_getD type h
  split
  · exact hn
  · rename_i hmem
    exact List.Nodup.append hn (List.nodup_singleton _) (by simpa using hmem)

theorem removeListener_noDuplicates (e : EventEmitter) (type : String) (handler : Handler)
    (h : NoDuplicates e.listeners) :
    NoDuplicates (EventEmitter.removeListener e type handler).listeners := by
  unfold EventEmitter.removeListener
  split
  · rename_i hs hg
    exact noDuplicates_assign h ((h type hs hg).erase _)
  · exact h

theorem applyListener_noDuplicates (e : EventEmitter) (args : List Val) (handler : Handler)
    (h : NoDuplicates e.listeners) :
    NoDuplicates (EventEmitter.applyListener e args handler).state.1.listeners := by
  cases handler with
  | callback f => exact h
  | wrapper r id f =>
    simp only [EventEmitter.applyListener]
    split <;> exact h
  | onceWrapper k =>
    simp only [EventEmitter.applyListener, EventEmitter.applyOnceWrapper]
    split
    · exact h
    · rename_i c hc
      cases ho : e._owner with
      | plain r => exact h
      | self => exact removeListener_noDuplicates e _ _ h
      | forwarding r => exact removeListener_noDuplicates e _ _ h
      | emitter r => exact h

theorem emitLoop_noDuplicates (type : String) (args : List Val) (rounds : Nat) :
    ∀ (i : Nat) (e : EventEmitter) (log : List Invocation), NoDuplicates e.listeners →
      NoDuplicates (EventEmitter.emitLoop type args rounds i e log).state.1.listeners := by
  induction rounds with
  | zero => intro i e log h; exact h
  | succ n ih =>
    intro i e log h
    unfold EventEmitter.emitLoop
    split
    · exact h
    · rename_i hd hget
      have ha := applyListener_noDuplicates e args hd h
      cases hr : EventEmitter.applyListener e args hd with
      | threw r => rw [hr] at ha; exact ha
      | returned r =>
        rw [hr] at ha
        exact ih (i + 1) r.1 (log ++ r.2) ha

theorem call_noDuplicates (e : EventEmitter) (c : EmitterCall) (h : NoDuplicates e.listeners) :
    NoDuplicates (EventEmitter.call e c).listeners := by
  cases c with
  | register type handler => exact addListener_noDuplicates e type handler h
  | once type handler => exact addListener_noDuplicates _ type _ h
  | removeListener type handler => exact removeListener_noDuplicates e type handler h
  | replaceListeners type handler =>
    exact addListener_noDuplicates _ type handler (noDuplicates_assign h List.nodup_nil)
  | emit type args =>
    simp only [EventEmitter.call, EventEmitter.emit]
    split
    · exact h
    · exact emitLoop_noDuplicates type args _ 0 e [] h
  | bindThis owner => exact h

theorem run_noDuplicates (calls : List EmitterCall) :
    ∀ e : EventEmitter, NoDuplicates e.listeners →
      NoDuplicates (EventEmitter.run e calls).listeners := by
  induction calls with
  | nil => intro e h; exact h
  | cons c rest ih => intro e h; exact ih _ (call_noDuplicates e c h)

/-- C14: after any sequence of `on` / `addListener`, `once`, `removeListener`,
`replaceListeners`, `emit` (and `bindThis`) calls on a new emitter, no handler
appears more than once in the listener list of any type; and `on` with a handler
that is already in the list of the type leaves the emitter unchanged. -/
theorem listener_at_most_once_per_type :
    (∀ (calls : List EmitterCall) (type : String) (hs : List Handler),
      get (EventEmitter.run {} calls).listeners type = some hs → hs.Nodup) ∧
    (∀ (e : EventEmitter) (type : String) (handler : Handler) (hs : List Handler),
      get e.listeners type = some hs → handler ∈ hs →
        EventEmitter.addListener e type handler = e) := by
  constructor
  · intro calls type hs h
    exact run_noDuplicates calls {} (fun t l hl => by simp [get] at hl) type hs h
  · intro e type handler hs hg hmem
    unfold EventEmitter.addListener
    simp only [hg, Option.getD_some, hmem, if_true]
    rw [assign_same _ _ _ hg]

/-- Witness of C14: handler 2 registered twice around a `once` and an `emit`. -/
theorem listener_at_most_once_per_type_witness :
    [Handler.callback 2].Nodup ∧
    EventEmitter.addListener { listeners := [("e", [Handler.callback 2])] } "e" (.callback 2)
      = { listeners := [("e", [Handler.callback 2])] } :=
  ⟨listener_at_most_once_per_type.1
      [.register "e" (.callback 2), .once "e" (some 1), .register "e" (.callback 2),
       .emit "e" [.str "p"]]
      "e" [Handler.callback 2] (by decide),
   listener_at_most_once_per_type.2 { listeners := [("e", [Handler.callback 2])] } "e"
      (.callback 2) [Handler.callback 2] (by decide) (by decide)⟩

/-! ## Callbacks registered for all others -/

theorem refBelow_mono {n m : Nat} (hnm : n ≤ m) (h : Handler) (hb : Handler.refBelow n h) :
    Handler.refBelow m h := by
  cases h with
  | callback f => trivial
  | wrapper r id f => exact Nat.lt_of_lt_of_le hb hnm
  | onceWrapper k => trivial

theorem wrappersBelow_mono {n m : Nat} (hnm : n ≤ m) {e : EventEmitter}
    (h : EventEmitter.WrappersBelow n e) : EventEmitter.WrappersBelow m e :=
  fun k hs x hg hx => refBelow_mono hnm x (h k hs x hg hx)

theorem wrappersBelow_empty (n : Nat) : EventEmitter.WrappersBelow n {} := by
  intro k hs x hg
  simp [get] at hg

theorem wrappersBelow_removeListener {n : Nat} {e : EventEmitter} (type : String)
    (handler : Handler) (h : EventEmitter.WrappersBelow n e) :
    EventEmitter.WrappersBelow n (EventEmitter.removeListener e type handler) := by
  unfold EventEmitter.removeListener
  split
  · rename_i hs0 hg0
    intro k hs x hg hx
    simp only [get_assign] at hg
    by_cases hk : k = type
    · simp only [hk, if_true, Option.some.injEq] at hg
      rw [← hg] at hx
      exact h type hs0 x hg0 (List.mem_of_mem_erase hx)
    · simp only [hk, if_false] at hg
      exact h k hs x hg hx
  · exact h

theorem wrappersBelow_addListener {n : Nat} {e : EventEmitter} (type : String)
    (handler : Handler) (h : EventEmitter.WrappersBelow n e) (hb : Handler.refBelow n handler) :
    EventEmitter.WrappersBelow n (EventEmitter.addListener e type handler) := by
  unfold EventEmitter.addListener
  intro k hs x hg hx
  simp only [get_assign] at hg
  by_cases hk : k = type
  · simp only [hk, if_true, Option.some.injEq] at hg
    have hold : ∀ y ∈ (get e.listeners type).getD [], Handler.refBelow n y := by
      intro y hy
      cases hg0 : get e.listeners type with
      | none => rw [hg0] at hy; simp at hy
      | some l => rw [hg0] at hy; exact h type l y hg0 hy
    rw [← hg] at hx
    split at hx
    · exact hold x hx
    · rcases List.mem_append.mp hx with hx1 | hx1
      · exact hold x hx1
      · rw [List.mem_singleton] at hx1
        rw [hx1]
        exact hb
  · simp only [hk, if_false] at hg
    exact h k hs x hg hx

theorem exclusionBelow_mono {n m : Nat} (hnm : n ≤ m) {l : List (String × EventEmitters)}
    (h : ExclusionBelow n l) : ExclusionBelow m l :=
  fun type e hg => wrappersBelow_mono hnm (h type e hg)

theorem exclusionBelow_assign {n : Nat} {l : List (String × EventEmitters)} (type : String)
    (e1 : EventEmitters) (h : ExclusionBelow n l)
    (h1 : EventEmitter.WrappersBelow n e1.exclusion) :
    ExclusionBelow n (assign l type e1) := by
  intro t e hg
  rw [get_assign] at hg
  by_cases ht : t = type
  · simp only [ht, if_true, Option.some.injEq] at hg
    rw [← hg]
    exact h1
  · simp only [ht, if_false] at hg
    exact h t e hg

theorem _addEventListener_below (st : DOMEventHandler) (type : String)
    (h : ExclusionBelow st.closures st.initializedListeners) :
    ExclusionBelow (DOMEventHandler._addEventListener st type).1.closures
      (DOMEventHandler._addEventListener st type).1.initializedListeners ∧
    EventEmitter.WrappersBelow (DOMEventHandler._addEventListener st type).1.closures
      (DOMEventHandler._addEventListener st type).2.exclusion ∧
    (DOMEventHandler._addEventListener st type).1.closures = st.closures ∧
    get (DOMEventHandler._addEventListener st type).1.initializedListeners type
      = some (DOMEventHandler._addEventListener st type).2 := by
  unfold DOMEventHandler._addEventListener
  cases hg : get st.initializedListeners type with
  | some e => exact ⟨h, h type e hg, rfl, hg⟩
  | none =>
    refine ⟨exclusionBelow_assign type {} h (wrappersBelow_empty _), wrappersBelow_empty _, rfl, ?_⟩
    simp [get_assign]

theorem call_below (p : Platform) (st : DOMEventHandler) (c : RouterCall)
    (h : ExclusionBelow st.closures st.initializedListeners) :
    ExclusionBelow (DOMEventHandler.call p st c).closures
      (DOMEventHandler.call p st c).initializedListeners := by
  cases c with
  | addEventListener id element type callback =>
    simp only [DOMEventHandler.call, DOMEventHandler.addEventListener]
    split
    · exact h
    · split
      · exact h
      · obtain ⟨a1, a2, -, -⟩ := _addEventListener_below
          { st with calls := st.calls ++ [NativeCall.setAttribute element id] } type h
        exact exclusionBelow_assign type _ a1 a2
  | addEventListenerForAllOthers id type callback =>
    simp only [DOMEventHandler.call, DOMEventHandler.addEventListenerForAllOthers]
    split
    · exact h
    · obtain ⟨a1, a2, -, -⟩ := _addEventListener_below st type h
      simp only [Outcome.state]
      refine exclusionBelow_assign type _ (exclusionBelow_mono (Nat.le_succ _) a1) ?_
      refine wrappersBelow_addListener type _ (wrappersBelow_mono (Nat.le_succ _) a2) ?_
      exact Nat.lt_succ_self _
  | removeEventListener element id type callback =>
    simp only [DOMEventHandler.call, DOMEventHandler.removeEventListener]
    split
    · exact h
    · split
      · rename_i e he
        exact exclusionBelow_assign type _ h (wrappersBelow_removeListener _ _ (h type e he))
      · exact h
  | removeEventListenerForAllOthers id type callback =>
    simp only [DOMEventHandler.call, DOMEventHandler.removeEventListenerForAllOthers]
    split
    · rename_i e w he hw
      exact exclusionBelow_assign type _ h (wrappersBelow_removeListener _ _ (h type e he))
    · exact h

theorem run_below (p : Platform) (calls : List RouterCall) :
    ∀ st : DOMEventHandler, ExclusionBelow st.closures st.initializedListeners →
      ExclusionBelow (DOMEventHandler.run p st calls).closures
        (DOMEventHandler.run p st calls).initializedListeners := by
  induction calls with
  | nil => intro st h; exact h
  | cons c rest ih => intro st h; exact ih _ (call_below p st c h)

theorem appliedHandlers_addListener_new (em : EventEmitter) (type : String) (w : Handler)
    (hw : w ∉ EventEmitter.appliedHandlers em type) :
    EventEmitter.appliedHandlers (EventEmitter.addListener em type w) type
      = EventEmitter.appliedHandlers em type ++ [w] := by
  unfold EventEmitter.appliedHandlers at hw ⊢
  unfold EventEmitter.addListener
  simp only [get_assign, if_true, Option.getD_some, hw, if_false]

theorem wrapper_not_applied {n : Nat} {em : EventEmitter} (h : EventEmitter.WrappersBelow n em)
    (type id : String) (callback : Nat) :
    Handler.wrapper n id callback ∉ EventEmitter.appliedHandlers em type := by
  unfold EventEmitter.appliedHandlers
  intro hmem
  cases hg : get em.listeners type with
  | none => rw [hg] at hmem; simp at hmem
  | some hs =>
    rw [hg] at hmem
    exact Nat.lt_irrefl n (h type hs _ hg hmem)

theorem nativeListener_after_allOthers (p : Platform) (st : DOMEventHandler) (id type : String)
    (callback : Nat) (receivedID : Option String)
    (hB : ExclusionBelow st.closures st.initializedListeners)
    (hn : DOMEventHandler.isNativeEvent p type = true) :
    DOMEventHandler.addEventListenerForAllOthers p st id type callback
      = .returned (DOMEventHandler.addEventListenerForAllOthers p st id type callback).state ∧
    DOMEventHandler.nativeListener
        (DOMEventHandler.addEventListenerForAllOthers p st id type callback).state type receivedID
      = DOMEventHandler.nativeListener st type receivedID
        ++ (if receivedID ≠ some id then [callback] else []) := by
  obtain ⟨-, a2, a3, -⟩ := _addEventListener_below st type hB
  have hfresh := wrapper_not_applied a2 type id callback
  have happ := appliedHandlers_addListener_new _ type _ hfresh
  constructor
  · simp only [DOMEventHandler.addEventListenerForAllOthers, hn, Bool.not_true,
      Bool.false_eq_true, if_false, Outcome.state]
  · simp only [DOMEventHandler.addEventListenerForAllOthers, hn, Bool.not_true,
      Bool.false_eq_true, if_false, Outcome.state, DOMEventHandler.nativeListener, get_assign,
      if_true, happ, List.flatMap_append, List.flatMap_singleton, DOMEventHandler.applyHandler,
      List.flatMap_nil]
    unfold DOMEventHandler._addEventListener
    cases hg : get st.initializedListeners type with
    | some e => simp only [List.append_assoc]
    | none =>
      simp only [EventEmitter.appliedHandlers, get, Option.getD_none, List.flatMap_nil,
        List.nil_append, ite_self]
      cases receivedID <;> rfl

/-- While the callbacks make no call on the router during a dispatch: after any
sequence of registration calls, a returned
`addEventListenerForAllOthers(id, type, callback)` makes every native dispatch
of `type` call `callback` once more than before if the routing identifier read
from the target differs from the string form of `id`, and not at all more if it
is equal.  On a desktop browser a click whose target carries routing id `7`
calls the delegated callback registered for `7` exactly once and neither of the
all-others callbacks registered for the string `7` and for the number 7. -/
theorem allOthers_callback_called_iff_other_id :
    (∀ (p : Platform) (calls : List RouterCall) (id type : String) (callback : Nat)
        (receivedID : Option String),
      DOMEventHandler.isNativeEvent p type = true →
      ∃ st1,
        DOMEventHandler.addEventListenerForAllOthers p (DOMEventHandler.run p {} calls)
            id type callback = .returned st1 ∧
        DOMEventHandler.nativeListener st1 type receivedID
          = DOMEventHandler.nativeListener (DOMEventHandler.run p {} calls) type receivedID
            ++ (if receivedID ≠ some id then [callback] else [])) ∧
    DOMEventHandler.nativeListener
        (DOMEventHandler.run desktop {}
          [.addEventListener "7" 1 "click" 40,
           .addEventListenerForAllOthers (Identifier.toJSString (.str "7")) "click" 41,
           .addEventListenerForAllOthers (Identifier.toJSString (.num 7)) "click" 42])
        "click" (some "7") = [40] := by
  constructor
  · intro p calls id type callback receivedID hn
    have hB := run_below p calls {} (fun t e hg => by simp [get] at hg)
    obtain ⟨h1, h2⟩ := nativeListener_after_allOthers p _ id type callback receivedID hB hn
    exact ⟨_, h1, h2⟩
  · decide

/-- A callback registered for all others than `7` on a desktop browser and a
click on a target with routing id `8`. -/
theorem allOthers_callback_called_iff_other_id_witness :
    ∃ st1,
      DOMEventHandler.addEventListenerForAllOthers desktop
          (DOMEventHandler.run desktop {} [.addEventListener "8" 1 "click" 40])
          "7" "click" 41 = .returned st1 ∧
      DOMEventHandler.nativeListener st1 "click" (some "8")
        = DOMEventHandler.nativeListener
            (DOMEventHandler.run desktop {} [.addEventListener "8" 1 "click" 40])
            "click" (some "8")
          ++ (if some "8" ≠ some "7" then [41] else []) :=
  allOthers_callback_called_iff_other_id.1 desktop [.addEventListener "8" 1 "click" 40]
    "7" "click" 41 (some "8") (by decide)

/-! ## The frame of an engine step -/

theorem queueFrame_refl (e : Engine) : Engine.QueueFrame e e := by
  cases e; rfl

theorem queueFrame_trans {e e1 e2 : Engine} (h1 : Engine.QueueFrame e e1)
    (h2 : Engine.QueueFrame e1 e2) : Engine.QueueFrame e e2 := by
  unfold Engine.QueueFrame at *
  rw [h2, h1]

theorem perform_spec (e : Engine) (a : Action) :
    Engine.QueueFrame e (Engine.perform e a) ∧
    (Engine.perform e a).nextTickQueue = e.nextTickQueue ++ Action.queued a := by
  cases a with
  | nextTick fn => exact ⟨rfl, rfl⟩
  | defer fn => exact ⟨rfl, by simp [Engine.perform, Engine.defer, Action.queued]⟩
  | doubleStep => exact ⟨rfl, by simp [Engine.perform, Engine.doubleStep, Action.queued]⟩

theorem performAll_spec (actions : List Action) :
    ∀ e : Engine, Engine.QueueFrame e (Engine.performAll e actions) ∧
      (Engine.performAll e actions).nextTickQueue = e.nextTickQueue ++ queuedBy actions := by
  induction actions with
  | nil => intro e; exact ⟨queueFrame_refl e, by simp [Engine.performAll, queuedBy]⟩
  | cons a rest ih =>
    intro e
    obtain ⟨p1, p2⟩ := perform_spec e a
    obtain ⟨q1, q2⟩ := ih (Engine.perform e a)
    have e0 : Engine.performAll e (a :: rest) = Engine.performAll (Engine.perform e a) rest := rfl
    rw [e0]
    refine ⟨queueFrame_trans p1 q1, ?_⟩
    rw [q2, p2]
    simp [queuedBy, List.append_assoc]

theorem emit_fold_spec (prog : Program) (type : String) (hs : List Nat) :
    ∀ acc : Engine × List EngineCall,
      Engine.QueueFrame acc.1
        (hs.foldl (fun (acc : Engine × List EngineCall) h =>
          (Engine.performAll acc.1 (prog.fn h), acc.2 ++ [EngineCall.handler type h])) acc).1 ∧
      (hs.foldl (fun (acc : Engine × List EngineCall) h =>
          (Engine.performAll acc.1 (prog.fn h), acc.2 ++ [EngineCall.handler type h])) acc).1.nextTickQueue
        = acc.1.nextTickQueue ++ hs.flatMap (fun h => queuedBy (prog.fn h)) ∧
      (hs.foldl (fun (acc : Engine × List EngineCall) h =>
          (Engine.performAll acc.1 (prog.fn h), acc.2 ++ [EngineCall.handler type h])) acc).2
        = acc.2 ++ hs.map (EngineCall.handler type) := by
  induction hs with
  | nil => intro acc; exact ⟨queueFrame_refl _, by simp, by simp⟩
  | cons h rest ih =>
    intro acc
    obtain ⟨p1, p2⟩ := performAll_spec (prog.fn h) acc.1
    obtain ⟨q1, q2, q3⟩ := ih (Engine.performAll acc.1 (prog.fn h), acc.2 ++ [EngineCall.handler type h])
    simp only [List.foldl_cons]
    refine ⟨queueFrame_trans p1 q1, ?_, ?_⟩
    · rw [q2, p2]; simp [List.append_assoc]
    · rw [q3]; simp [List.append_assoc]

theorem emit_spec (prog : Program) (e : Engine) (type : String) :
    Engine.QueueFrame e (Engine.emit prog e type).1 ∧
    (Engine.emit prog e type).1.nextTickQueue
      = e.nextTickQueue ++ (e.handlersOf type).flatMap (fun h => queuedBy (prog.fn h)) ∧
    (Engine.emit prog e type).2 = (e.handlersOf type).map (EngineCall.handler type) := by
  obtain ⟨a, b, c⟩ := emit_fold_spec prog type ((get e.listeners type).getD []) (e, [])
  exact ⟨a, b, by simpa using c⟩

theorem updateContexts_fold_spec (prog : Program) (cs : List Nat) :
    ∀ acc : Engine × List EngineCall,
      Engine.QueueFrame acc.1
        (cs.foldl (fun (acc : Engine × List EngineCall) c =>
          (Engine.performAll acc.1 (prog.update c), acc.2 ++ [EngineCall.update c])) acc).1 ∧
      (cs.foldl (fun (acc : Engine × List EngineCall) c =>
          (Engine.performAll acc.1 (prog.update c), acc.2 ++ [EngineCall.update c])) acc).1.nextTickQueue
        = acc.1.nextTickQueue ++ cs.flatMap (fun c => queuedBy (prog.update c)) ∧
      (cs.foldl (fun (acc : Engine × List EngineCall) c =>
          (Engine.performAll acc.1 (prog.update c), acc.2 ++ [EngineCall.update c])) acc).2
        = acc.2 ++ cs.map EngineCall.update := by
  induction cs with
  | nil => intro acc; exact ⟨queueFrame_refl _, by simp, by simp⟩
  | cons c rest ih =>
    intro acc
    obtain ⟨p1, p2⟩ := performAll_spec (prog.update c) acc.1
    obtain ⟨q1, q2, q3⟩ := ih (Engine.performAll acc.1 (prog.update c), acc.2 ++ [EngineCall.update c])
    simp only [List.foldl_cons]
    refine ⟨queueFrame_trans p1 q1, ?_, ?_⟩
    · rw [q2, p2]; simp [List.append_assoc]
    · rw [q3]; simp [List.append_assoc]

theorem updateContexts_spec (prog : Program) (e : Engine) :
    Engine.QueueFrame e (Engine.updateContexts prog e).1 ∧
    (Engine.updateContexts prog e).1.nextTickQueue
      = e.nextTickQueue ++ e.contexts.flatMap (fun c => queuedBy (prog.update c)) ∧
    (Engine.updateContexts prog e).2 = e.contexts.map EngineCall.update := by
  obtain ⟨a, b, c⟩ := updateContexts_fold_spec prog e.contexts (e, [])
  exact ⟨a, b, by simpa using c⟩


theorem queueFrame_fields {e e1 : Engine} (h : Engine.QueueFrame e e1) :
    e1.PriorityLevels = e.PriorityLevels ∧ e1.contexts = e.contexts ∧
    e1.currentFrame = e.currentFrame ∧ e1.nextTickFrame = e.nextTickFrame ∧
    e1.lastTime = e.lastTime ∧ e1.frameTime = e.frameTime ∧
    e1.frameTimeLimit = e.frameTimeLimit ∧ e1.listeners = e.listeners ∧
    e1._lastFrameTimeDelta = e._lastFrameTimeDelta ∧ e1._priorityLevel = e._priorityLevel := by
  unfold Engine.QueueFrame at h
  rw [h]
  exact ⟨rfl, rfl, rfl, rfl, rfl, rfl, rfl, rfl, rfl, rfl⟩

theorem queueFrame_handlersOf {e e1 : Engine} (h : Engine.QueueFrame e e1) (type : String) :
    e1.handlersOf type = e.handlersOf type := by
  unfold Engine.handlersOf
  rw [(queueFrame_fields h).2.2.2.2.2.2.2.1]

theorem drainNextTick_spec (prog : Program) (n : Nat) :
    ∀ e : Engine, n ≤ e.nextTickQueue.length →
      Engine.QueueFrame e (Engine.drainNextTick prog n e).1 ∧
      (Engine.drainNextTick prog n e).1.nextTickQueue
        = e.nextTickQueue.drop n
          ++ (e.nextTickQueue.take n).flatMap (fun f => queuedBy (prog.fn f)) ∧
      (Engine.drainNextTick prog n e).2
        = (e.nextTickQueue.take n).map (fun f => EngineCall.nextTick f e.currentFrame) := by
  induction n with
  | zero => intro e _; exact ⟨queueFrame_refl e, by simp [Engine.drainNextTick], by simp [Engine.drainNextTick]⟩
  | succ n ih =>
    intro e hn
    cases hq : e.nextTickQueue with
    | nil => rw [hq] at hn; simp at hn
    | cons f rest =>
      rw [hq] at hn
      have hn1 : n ≤ rest.length := by simpa using hn
      obtain ⟨p1, p2⟩ := performAll_spec (prog.fn f) { e with nextTickQueue := rest }
      have p0 : Engine.QueueFrame e { e with nextTickQueue := rest } := by
        cases e; rfl
      have p3 : (Engine.performAll { e with nextTickQueue := rest } (prog.fn f)).nextTickQueue
          = rest ++ queuedBy (prog.fn f) := p2
      have hlen : n ≤ (Engine.performAll { e with nextTickQueue := rest } (prog.fn f)).nextTickQueue.length := by
        rw [p3]; simp; omega
      obtain ⟨q1, q2, q3⟩ := ih _ hlen
      have hcf : (Engine.performAll { e with nextTickQueue := rest } (prog.fn f)).currentFrame
          = e.currentFrame := (queueFrame_fields p1).2.2.1
      have e0 : Engine.drainNextTick prog (n + 1) e
          = ((Engine.drainNextTick prog n
              (Engine.performAll { e with nextTickQueue := rest } (prog.fn f))).1,
             EngineCall.nextTick f e.currentFrame ::
              (Engine.drainNextTick prog n
                (Engine.performAll { e with nextTickQueue := rest } (prog.fn f))).2) := by
        rw [Engine.drainNextTick]
        simp only [hq]
      rw [e0]
      refine ⟨queueFrame_trans p0 (queueFrame_trans p1 q1), ?_, ?_⟩
      · show (Engine.drainNextTick prog n _).1.nextTickQueue = _
        rw [q2, p3]
        simp [List.take_append_of_le_length hn1, List.drop_append_of_le_length hn1,
          List.append_assoc]
      · show EngineCall.nextTick f e.currentFrame :: (Engine.drainNextTick prog n _).2 = _
        rw [q3, p3, hcf]
        simp [List.take_append_of_le_length hn1]

theorem runDeferred_spec (prog : Program) (currentTime : Int) (readings : List Int) :
    ∀ e : Engine, ∃ ran : List Nat,
      Engine.QueueFrame e (Engine.runDeferred prog currentTime readings e).1 ∧
      (Engine.runDeferred prog currentTime readings e).1.nextTickQueue
        = e.nextTickQueue ++ ran.flatMap (fun f => queuedBy (prog.fn f)) ∧
      (Engine.runDeferred prog currentTime readings e).2 = ran.map EngineCall.deferred := by
  induction readings with
  | nil => intro e; exact ⟨[], queueFrame_refl e, by simp [Engine.runDeferred], by simp [Engine.runDeferred]⟩
  | cons reading readings ih =>
    intro e
    cases hq : e.deferQueue with
    | nil =>
      refine ⟨[], ?_, ?_, ?_⟩
      · rw [Engine.runDeferred]; simp only [hq]; exact queueFrame_refl e
      · rw [Engine.runDeferred]; simp only [hq]; simp
      · rw [Engine.runDeferred]; simp only [hq]; simp
    | cons f rest =>
      by_cases hb : reading - currentTime < Engine.MAX_DEFER_FRAME_TIME
      · obtain ⟨p1, p2⟩ := performAll_spec (prog.fn f) { e with deferQueue := rest }
        have p0 : Engine.QueueFrame e { e with deferQueue := rest } := by
          cases e; rfl
        have p3 : (Engine.performAll { e with deferQueue := rest } (prog.fn f)).nextTickQueue
            = e.nextTickQueue ++ queuedBy (prog.fn f) := p2
        obtain ⟨ran, q1, q2, q3⟩ := ih (Engine.performAll { e with deferQueue := rest } (prog.fn f))
        have e0 : Engine.runDeferred prog currentTime (reading :: readings) e
            = ((Engine.runDeferred prog currentTime readings
                (Engine.performAll { e with deferQueue := rest } (prog.fn f))).1,
               EngineCall.deferred f ::
                (Engine.runDeferred prog currentTime readings
                  (Engine.performAll { e with deferQueue := rest } (prog.fn f))).2) := by
          rw [Engine.runDeferred]
          simp only [hq, hb, if_true]
        rw [e0]
        refine ⟨f :: ran, queueFrame_trans p0 (queueFrame_trans p1 q1), ?_, ?_⟩
        · show (Engine.runDeferred prog currentTime readings _).1.nextTickQueue = _
          rw [q2, p3]
          simp [List.append_assoc]
        · show EngineCall.deferred f :: (Engine.runDeferred prog currentTime readings _).2 = _
          rw [q3]
          simp
      · have e0 : Engine.runDeferred prog currentTime (reading :: readings) e = (e, []) := by
          rw [Engine.runDeferred]
          simp only [hq, hb, if_false]
        rw [e0]
        exact ⟨[], queueFrame_refl e, by simp, by simp⟩


theorem runFrame_spec (prog : Program) (e : Engine) (tick : Tick) :
    ∃ ran : List Nat,
      (Engine.runFrame prog e tick).2
        = (e.handlersOf "prerender").map (EngineCall.handler "prerender")
          ++ (e.nextTickQueue
                ++ (e.handlersOf "prerender").flatMap (fun h => queuedBy (prog.fn h))).map
              (fun fn => EngineCall.nextTick fn (e.currentFrame + 1))
          ++ ran.map EngineCall.deferred
          ++ e.contexts.map EngineCall.update
          ++ [EngineCall.flushUpdates]
          ++ (e.handlersOf "postrender").map (EngineCall.handler "postrender") ∧
      (Engine.runFrame prog e tick).1.nextTickQueue
        = (e.nextTickQueue
              ++ (e.handlersOf "prerender").flatMap (fun h => queuedBy (prog.fn h))).flatMap
            (fun f => queuedBy (prog.fn f))
          ++ ran.flatMap (fun f => queuedBy (prog.fn f))
          ++ e.contexts.flatMap (fun c => queuedBy (prog.update c))
          ++ (e.handlersOf "postrender").flatMap (fun h => queuedBy (prog.fn h)) ∧
      Engine.QueueFrame (Engine.frameStart e tick) (Engine.runFrame prog e tick).1 := by
  obtain ⟨a1, a2, a3⟩ := emit_spec prog (Engine.frameStart e tick) "prerender"
  obtain ⟨b1, b2, b3⟩ := drainNextTick_spec prog
    (Engine.emit prog (Engine.frameStart e tick) "prerender").1.nextTickQueue.length
    (Engine.emit prog (Engine.frameStart e tick) "prerender").1 (le_refl _)
  obtain ⟨ran, c1, c2, c3⟩ := runDeferred_spec prog tick.currentTime tick.readings
    (Engine.drainNextTick prog
      (Engine.emit prog (Engine.frameStart e tick) "prerender").1.nextTickQueue.length
      (Engine.emit prog (Engine.frameStart e tick) "prerender").1).1
  obtain ⟨d1, d2, d3⟩ := updateContexts_spec prog
    (Engine.runDeferred prog tick.currentTime tick.readings
      (Engine.drainNextTick prog
        (Engine.emit prog (Engine.frameStart e tick) "prerender").1.nextTickQueue.length
        (Engine.emit prog (Engine.frameStart e tick) "prerender").1).1).1
  obtain ⟨f1, f2, f3⟩ := emit_spec prog
    (Engine.updateContexts prog
      (Engine.runDeferred prog tick.currentTime tick.readings
        (Engine.drainNextTick prog
          (Engine.emit prog (Engine.frameStart e tick) "prerender").1.nextTickQueue.length
          (Engine.emit prog (Engine.frameStart e tick) "prerender").1).1).1).1 "postrender"
  have hab := queueFrame_trans a1 b1
  have hac := queueFrame_trans hab c1
  have had := queueFrame_trans hac d1
  have haf := queueFrame_trans had f1
  have hpre : (Engine.frameStart e tick).handlersOf "prerender" = e.handlersOf "prerender" := rfl
  have hpost : (Engine.frameStart e tick).handlersOf "postrender" = e.handlersOf "postrender" := rfl
  have hq0 : (Engine.frameStart e tick).nextTickQueue = e.nextTickQueue := rfl
  have hcf : (Engine.emit prog (Engine.frameStart e tick) "prerender").1.currentFrame
      = e.currentFrame + 1 := (queueFrame_fields a1).2.2.1
  have hctx : (Engine.runDeferred prog tick.currentTime tick.readings
      (Engine.drainNextTick prog
        (Engine.emit prog (Engine.frameStart e tick) "prerender").1.nextTickQueue.length
        (Engine.emit prog (Engine.frameStart e tick) "prerender").1).1).1.contexts
      = e.contexts := (queueFrame_fields hac).2.1
  rw [queueFrame_handlersOf had, hpost] at f2 f3
  rw [hpre, hq0] at a2
  rw [hpre] at a3
  have b2 := b2.trans (by rw [List.take_length, List.drop_length, a2, List.nil_append])
  have b3 := b3.trans (by rw [List.take_length, a2, hcf])
  rw [hctx] at d2 d3
  have c2 := c2.trans (by rw [b2])
  have d2 := d2.trans (by rw [c2])
  have f2 := f2.trans (by rw [d2])
  refine ⟨ran, ?_, ?_, haf⟩
  · show (Engine.emit prog (Engine.frameStart e tick) "prerender").2 ++ _ ++ _ ++ _ ++ _ ++ _ = _
    rw [a3]
    exact congrArg₂ (· ++ ·)
      (congrArg₂ (· ++ ·)
        (congrArg₂ (· ++ ·)
          (congrArg₂ (· ++ ·) (congrArg₂ (· ++ ·) rfl b3) c3) d3) rfl) f3
  · exact f2


/-! ## The priority level of a frame -/

theorem level_le_refl (a : Level) : Level.le a a = true := by
  cases a <;> simp [Level.le]

theorem level_le_trans {a b c : Level} (h1 : Level.le a b = true) (h2 : Level.le b c = true) :
    Level.le a c = true := by
  cases a <;> cases b <;> cases c <;> simp [Level.le] at *
  omega

theorem level_le_total (a b : Level) : Level.le a b = true ∨ Level.le b a = true := by
  cases a <;> cases b <;> simp [Level.le]
  omega

theorem priorityLevel_fold (delta : Int) (levels : List (String × Level)) :
    ∀ (seen : List (String × Level)) (acc : Level),
      Level.above delta acc = true →
      (∀ p ∈ seen, Level.above delta p.2 = true → Level.le acc p.2 = true) →
      ((∃ p ∈ seen, Level.above delta p.2 = true) → ∃ p ∈ seen, p.2 = acc) →
      ((¬ ∃ p ∈ seen, Level.above delta p.2 = true) → acc = Level.infinity) →
      Engine.IsSmallestThresholdAbove delta (seen ++ levels)
        (levels.foldl
          (fun (acc : Level) p => if Level.above delta p.2 && Level.le p.2 acc then p.2 else acc)
          acc) := by
  induction levels with
  | nil =>
    intro seen acc hA hB hC hD
    simp only [List.append_nil, List.foldl_nil]
    exact ⟨fun h => ⟨hC h, hA, hB⟩, hD⟩
  | cons p rest ih =>
    intro seen acc hA hB hC hD
    have hs : seen ++ p :: rest = (seen ++ [p]) ++ rest := by simp
    rw [hs, List.foldl_cons]
    by_cases hp : (Level.above delta p.2 && Level.le p.2 acc) = true
    · rw [if_pos hp]
      have hp1 : Level.above delta p.2 = true := by
        cases h : Level.above delta p.2
        · rw [h] at hp; simp at hp
        · rfl
      have hp2 : Level.le p.2 acc = true := by
        rw [hp1] at hp; simpa using hp
      apply ih (seen ++ [p]) p.2 hp1
      · intro q hq hqa
        rcases List.mem_append.1 hq with h | h
        · exact level_le_trans hp2 (hB q h hqa)
        · rw [List.mem_singleton.1 h]; exact level_le_refl _
      · intro _
        exact ⟨p, by simp, rfl⟩
      · intro hn
        exact absurd ⟨p, by simp, hp1⟩ hn
    · rw [if_neg hp]
      apply ih (seen ++ [p]) acc hA
      · intro q hq hqa
        rcases List.mem_append.1 hq with h | h
        · exact hB q h hqa
        · have hqp := List.mem_singleton.1 h
          rw [hqp] at hqa ⊢
          rcases level_le_total acc p.2 with h1 | h1
          · exact h1
          · exact absurd (by rw [hqa, h1]; rfl) hp
      · rintro ⟨q, hq, hqa⟩
        rcases List.mem_append.1 hq with h | h
        · obtain ⟨r, hr, hra⟩ := hC ⟨q, h, hqa⟩
          exact ⟨r, List.mem_append.2 (Or.inl hr), hra⟩
        · have hqp := List.mem_singleton.1 h
          rw [hqp] at hqa
          by_cases hex : ∃ p ∈ seen, Level.above delta p.2 = true
          · obtain ⟨r, hr, hra⟩ := hC hex
            exact ⟨r, List.mem_append.2 (Or.inl hr), hra⟩
          · have hinf := hD hex
            refine absurd ?_ hp
            rw [hqa, hinf]
            cases p.2 <;> rfl
      · intro hn
        apply hD
        rintro ⟨q, hq, hqa⟩
        exact hn ⟨q, List.mem_append.2 (Or.inl hq), hqa⟩

theorem priorityLevelFor_spec (delta : Int) (levels : List (String × Level)) :
    Engine.IsSmallestThresholdAbove delta levels (Engine.priorityLevelFor delta levels) := by
  have h := priorityLevel_fold delta levels [] Level.infinity rfl
    (by intro p hp; cases hp) (by rintro ⟨p, hp, _⟩; cases hp) (fun _ => rfl)
  rw [List.nil_append] at h
  exact h

theorem step_priority_invariant (prog : Program) (ticks : List Tick) :
    ∀ (e e1 : Engine) (trace : List EngineCall),
      Engine.step prog ticks e = some (e1, trace) →
      (∃ d r, e.frameTime = some d ∧ e.getPriorityLevel = some r ∧
        Engine.IsSmallestThresholdAbove d e.PriorityLevels r) ∨
        (∃ tick rest, ticks = tick :: rest ∧ Engine.throttles e tick = false) →
      ∃ d r, e1.frameTime = some d ∧ e1.getPriorityLevel = some r ∧
        Engine.IsSmallestThresholdAbove d e1.PriorityLevels r := by
  induction ticks with
  | nil => intro e e1 trace h; simp [Engine.step] at h
  | cons tick rest ih =>
    intro e e1 trace h hinv
    rw [Engine.step] at h
    by_cases ht : Engine.throttles e tick = true
    · rw [if_pos ht] at h
      have h1 : e1 = Engine.beginStep e tick := by
        have := Option.some.inj h
        exact (congrArg Prod.fst this).symm
      rcases hinv with hinv | ⟨t, r, hl, hn⟩
      · rw [h1]; exact hinv
      · cases hl
        rw [ht] at hn; cases hn
    · rw [if_neg ht] at h
      obtain ⟨ran, _, _, hf⟩ := runFrame_spec prog e tick
      have hfields := queueFrame_fields hf
      have hframe : ∃ d r, (Engine.runFrame prog e tick).1.frameTime = some d ∧
          (Engine.runFrame prog e tick).1.getPriorityLevel = some r ∧
          Engine.IsSmallestThresholdAbove d (Engine.runFrame prog e tick).1.PriorityLevels r := by
        refine ⟨tick.currentTime - e.lastTime,
          Engine.priorityLevelFor (tick.currentTime - e.lastTime) e.PriorityLevels,
          ?_, ?_, ?_⟩
        · rw [hfields.2.2.2.2.2.1]; rfl
        · unfold Engine.getPriorityLevel
          rw [hfields.2.2.2.2.2.2.2.2.2]; rfl
        · rw [hfields.1]
          exact priorityLevelFor_spec _ _
      simp only at h
      by_cases hd : (Engine.runFrame prog e tick).1._shouldTakeDoubleStep = true
      · rw [if_pos hd] at h
        cases hn : Engine.step prog rest
            { (Engine.runFrame prog e tick).1 with _shouldTakeDoubleStep := false } with
        | none => rw [hn] at h; cases h
        | some n =>
          rw [hn] at h
          have h1 : e1 = n.1 := by
            have := Option.some.inj h
            exact (congrArg Prod.fst this).symm
          rw [h1]
          exact ih _ n.1 n.2 hn (Or.inl hframe)
      · rw [if_neg hd] at h
        have h1 : e1 = (Engine.runFrame prog e tick).1 := by
          have := Option.some.inj h
          exact (congrArg Prod.fst this).symm
        rw [h1]
        exact hframe


/-! ## The order of the calls of a step -/

theorem frameOrder_congr {e e1 : Engine} (hl : e1.listeners = e.listeners)
    (hc : e1.contexts = e.contexts) {calls : List EngineCall}
    (h : Engine.FrameOrder e calls) : Engine.FrameOrder e1 calls := by
  obtain ⟨frame, ticks, deferred, hcalls⟩ := h
  refine ⟨frame, ticks, deferred, ?_⟩
  unfold Engine.handlersOf at *
  rw [hl, hc]
  exact hcalls

theorem runFrame_frameOrder (prog : Program) (e : Engine) (tick : Tick) :
    Engine.FrameOrder e (Engine.runFrame prog e tick).2 := by
  obtain ⟨ran, h, _, _⟩ := runFrame_spec prog e tick
  exact ⟨e.currentFrame + 1, _, ran, h⟩

theorem runFrame_listeners_contexts (prog : Program) (e : Engine) (tick : Tick) :
    (Engine.runFrame prog e tick).1.listeners = e.listeners ∧
    (Engine.runFrame prog e tick).1.contexts = e.contexts ∧
    (Engine.runFrame prog e tick).1.currentFrame = e.currentFrame + 1 := by
  obtain ⟨ran, _, _, hf⟩ := runFrame_spec prog e tick
  have h := queueFrame_fields hf
  exact ⟨h.2.2.2.2.2.2.2.1, h.2.1, h.2.2.1⟩

theorem step_frames (prog : Program) (ticks : List Tick) :
    ∀ (e e1 : Engine) (trace : List EngineCall),
      Engine.step prog ticks e = some (e1, trace) →
      ∃ frames : List (List EngineCall),
        trace = frames.flatten ∧ ∀ calls ∈ frames, Engine.FrameOrder e calls := by
  induction ticks with
  | nil => intro e e1 trace h; simp [Engine.step] at h
  | cons tick rest ih =>
    intro e e1 trace h
    rw [Engine.step] at h
    by_cases ht : Engine.throttles e tick = true
    · rw [if_pos ht] at h
      have h2 : trace = [] := (congrArg Prod.snd (Option.some.inj h)).symm
      exact ⟨[], by simp [h2], by intro c hc; cases hc⟩
    · rw [if_neg ht] at h
      simp only at h
      obtain ⟨hl, hc, _⟩ := runFrame_listeners_contexts prog e tick
      by_cases hd : (Engine.runFrame prog e tick).1._shouldTakeDoubleStep = true
      · rw [if_pos hd] at h
        cases hn : Engine.step prog rest
            { (Engine.runFrame prog e tick).1 with _shouldTakeDoubleStep := false } with
        | none => rw [hn] at h; cases h
        | some n =>
          rw [hn] at h
          have h2 : trace = (Engine.runFrame prog e tick).2 ++ n.2 :=
            (congrArg Prod.snd (Option.some.inj h)).symm
          obtain ⟨frames, hfl, hfo⟩ := ih _ n.1 n.2 hn
          refine ⟨(Engine.runFrame prog e tick).2 :: frames, ?_, ?_⟩
          · rw [h2, hfl]; simp
          · intro calls hcalls
            rcases List.mem_cons.1 hcalls with h3 | h3
            · rw [h3]; exact runFrame_frameOrder prog e tick
            · exact @frameOrder_congr
                { (Engine.runFrame prog e tick).1 with _shouldTakeDoubleStep := false } e
                hl.symm hc.symm calls (hfo calls h3)
      · rw [if_neg hd] at h
        have h2 : trace = (Engine.runFrame prog e tick).2 :=
          (congrArg Prod.snd (Option.some.inj h)).symm
        refine ⟨[(Engine.runFrame prog e tick).2], by simp [h2], ?_⟩
        intro calls hcalls
        rw [List.mem_singleton.1 hcalls]
        exact runFrame_frameOrder prog e tick

theorem step_executed_prefix (prog : Program) (tick : Tick) (ticks : List Tick)
    (e e1 : Engine) (trace : List EngineCall) (ht : Engine.throttles e tick = false)
    (h : Engine.step prog (tick :: ticks) e = some (e1, trace)) :
    ∃ frames : List (List EngineCall),
      trace = (Engine.runFrame prog e tick).2 ++ frames.flatten ∧
      ∀ calls ∈ frames, Engine.FrameOrder e calls := by
  rw [Engine.step, ht] at h
  simp only [Bool.false_eq_true, if_false] at h
  obtain ⟨hl, hc, _⟩ := runFrame_listeners_contexts prog e tick
  by_cases hd : (Engine.runFrame prog e tick).1._shouldTakeDoubleStep = true
  · rw [if_pos hd] at h
    cases hn : Engine.step prog ticks
        { (Engine.runFrame prog e tick).1 with _shouldTakeDoubleStep := false } with
    | none => rw [hn] at h; cases h
    | some n =>
      rw [hn] at h
      have h2 : trace = (Engine.runFrame prog e tick).2 ++ n.2 :=
        (congrArg Prod.snd (Option.some.inj h)).symm
      obtain ⟨frames, hfl, hfo⟩ := step_frames prog ticks _ n.1 n.2 hn
      refine ⟨frames, by rw [h2, hfl], ?_⟩
      intro calls hcalls
      exact @frameOrder_congr
        { (Engine.runFrame prog e tick).1 with _shouldTakeDoubleStep := false } e
        hl.symm hc.symm calls (hfo calls hcalls)
  · rw [if_neg hd] at h
    have h2 : trace = (Engine.runFrame prog e tick).2 :=
      (congrArg Prod.snd (Option.some.inj h)).symm
    exact ⟨[], by simp [h2], by intro c hc; cases hc⟩

/-- C17: the calls of an executed frame of `step` are, in this order, the
`prerender` handlers, the next-tick functions, the deferred functions,
`update()` of every registered context in registration order, one
`flushUpdates()` and the `postrender` handlers; the calls of a step that is not
skipped are those of its frame, followed by the frames of the double steps it
takes, each in the same order. -/
theorem executed_step_calls_in_order :
    (∀ (prog : Program) (e : Engine) (tick : Tick),
      Engine.FrameOrder e (Engine.runFrame prog e tick).2) ∧
    (∀ (prog : Program) (tick : Tick) (ticks : List Tick) (e e1 : Engine)
        (trace : List EngineCall),
      Engine.throttles e tick = false →
      Engine.step prog (tick :: ticks) e = some (e1, trace) →
      ∃ frames : List (List EngineCall),
        trace = (Engine.runFrame prog e tick).2 ++ frames.flatten ∧
        ∀ calls ∈ frames, Engine.FrameOrder e calls) ∧
    (Engine.step exampleProgram [exampleTick] exampleEngine).map Prod.snd
      = some [.handler "prerender" 1, .nextTick 5 1, .nextTick 2 1, .deferred 7,
          .update 10, .update 11, .flushUpdates, .handler "postrender" 3] :=
  ⟨runFrame_frameOrder, step_executed_prefix, by decide⟩

theorem executed_step_calls_in_order_witness :
    Engine.throttles exampleEngine exampleTick = false ∧
    ∃ frames : List (List EngineCall),
      (Engine.runFrame exampleProgram exampleEngine exampleTick).2
        = (Engine.runFrame exampleProgram exampleEngine exampleTick).2 ++ frames.flatten ∧
      ∀ calls ∈ frames, Engine.FrameOrder exampleEngine calls :=
  ⟨by decide,
   executed_step_calls_in_order.2.1 exampleProgram exampleTick [] exampleEngine
    (Engine.runFrame exampleProgram exampleEngine exampleTick).1
    (Engine.runFrame exampleProgram exampleEngine exampleTick).2 (by decide) (by decide)⟩


/-! ## Functions queued for the next tick -/

theorem mem_queuedBy (fn : Nat) (actions : List Action) :
    fn ∈ queuedBy actions ↔ Action.nextTick fn ∈ actions := by
  unfold queuedBy
  rw [List.mem_flatMap]
  constructor
  · rintro ⟨a, ha, hfn⟩
    cases a with
    | nextTick g =>
      have : fn = g := by simpa [Action.queued] using hfn
      rw [this]; exact ha
    | defer g => simp [Action.queued] at hfn
    | doubleStep => simp [Action.queued] at hfn
  · intro h
    exact ⟨Action.nextTick fn, h, by simp [Action.queued]⟩

theorem nextTick_mem_runFrame (prog : Program) (e : Engine) (tick : Tick) (fn k : Nat) :
    EngineCall.nextTick fn k ∈ (Engine.runFrame prog e tick).2 ↔
      k = e.currentFrame + 1 ∧
        (fn ∈ e.nextTickQueue ∨
          ∃ h ∈ e.handlersOf "prerender", Action.nextTick fn ∈ prog.fn h) := by
  obtain ⟨ran, h, _, _⟩ := runFrame_spec prog e tick
  rw [h]
  simp only [List.mem_append, List.mem_map, List.mem_flatMap, List.mem_singleton, mem_queuedBy,
    EngineCall.nextTick.injEq, reduceCtorEq, and_false, exists_false, false_or, or_false]
  constructor
  · rintro ⟨g, hg, hgf, hk⟩
    rw [← hgf]
    exact ⟨hk.symm, hg⟩
  · rintro ⟨hk, hg⟩
    exact ⟨fn, hg, rfl, hk.symm⟩

theorem tickedFn_runFrame (prog : Program) (e : Engine) (tick : Tick) :
    (Engine.runFrame prog e tick).2.filterMap EngineCall.tickedFn
      = e.nextTickQueue ++ (e.handlersOf "prerender").flatMap (fun h => queuedBy (prog.fn h)) := by
  obtain ⟨ran, h, _, _⟩ := runFrame_spec prog e tick
  rw [h]
  have h1 : ∀ (type : String) (l : List Nat),
      (l.map (EngineCall.handler type)).filterMap EngineCall.tickedFn = [] := by
    intro type l; induction l with
    | nil => rfl
    | cons a l ih => simp [EngineCall.tickedFn]
  have h2 : ∀ (frame : Nat) (l : List Nat),
      (l.map (fun fn => EngineCall.nextTick fn frame)).filterMap EngineCall.tickedFn = l := by
    intro frame l; induction l with
    | nil => rfl
    | cons a l ih => simpa [EngineCall.tickedFn] using ih
  have h3 : ∀ l : List Nat, (l.map EngineCall.deferred).filterMap EngineCall.tickedFn = [] := by
    intro l; induction l with
    | nil => rfl
    | cons a l ih => simp [EngineCall.tickedFn]
  have h4 : ∀ l : List Nat, (l.map EngineCall.update).filterMap EngineCall.tickedFn = [] := by
    intro l; induction l with
    | nil => rfl
    | cons a l ih => simp [EngineCall.tickedFn]
  have h5 : [EngineCall.flushUpdates].filterMap EngineCall.tickedFn = [] := rfl
  rw [List.filterMap_append, List.filterMap_append, List.filterMap_append, List.filterMap_append,
    List.filterMap_append, h1, h1, h2, h3, h4, h5]
  simp

theorem queued_after_runFrame (prog : Program) (e : Engine) (tick : Tick)
    (call : EngineCall) (hcall : call ∈ (Engine.runFrame prog e tick).2)
    (hpre : ∀ h, call ≠ EngineCall.handler "prerender" h) (fn : Nat)
    (hfn : Action.nextTick fn ∈ Engine.actionsOf prog call) :
    fn ∈ (Engine.runFrame prog e tick).1.nextTickQueue := by
  obtain ⟨ran, h, hq, _⟩ := runFrame_spec prog e tick
  rw [h] at hcall
  rw [hq]
  simp only [List.mem_append, List.mem_map, List.mem_flatMap, List.mem_singleton,
    mem_queuedBy] at hcall ⊢
  rcases hcall with ((((⟨g, _, hg⟩ | ⟨g, hg1, hg⟩) | ⟨g, hg1, hg⟩) | ⟨g, hg1, hg⟩) | hg) | ⟨g, hg1, hg⟩
  · exact absurd hg.symm (hpre g)
  · rw [← hg] at hfn
    exact Or.inl (Or.inl (Or.inl ⟨g, hg1, hfn⟩))
  · rw [← hg] at hfn
    exact Or.inl (Or.inl (Or.inr ⟨g, hg1, hfn⟩))
  · rw [← hg] at hfn
    exact Or.inl (Or.inr ⟨g, hg1, hfn⟩)
  · rw [hg] at hfn
    cases hfn
  · rw [← hg] at hfn
    exact Or.inr ⟨g, hg1, hfn⟩

/-- C18 (evaluation): function 5 is queued before the step and handler 1 of
`prerender` passes function 2 to `Engine.nextTick` during the step.  The length
of the queue is read at line 124, after `prerender` has been emitted at line
121, so the step calls function 2 as well, with the number of this frame, right
after function 5. -/
theorem nextTick_from_prerender_runs_in_same_step :
    exampleEngine.nextTickQueue = [5] ∧
    exampleEngine.handlersOf "prerender" = [1] ∧
    exampleProgram.fn 1 = [Action.nextTick 2] ∧
    (Engine.step exampleProgram [exampleTick] exampleEngine).map Prod.snd
      = some [.handler "prerender" 1, .nextTick 5 1, .nextTick 2 1, .deferred 7,
          .update 10, .update 11, .flushUpdates, .handler "postrender" 3] := by
  decide

/-- The next-tick functions an executed frame runs are the functions queued
before the frame followed by the functions its `prerender` handlers queue; a
function queued by a next-tick function, a deferred function, a context update
or a `postrender` handler of the frame is in the queue when the frame ends; and
every function in the queue then is run by the next executed frame. -/
theorem nextTick_runs_in_following_step (prog : Program) (e : Engine) (tick : Tick) :
    (Engine.runFrame prog e tick).2.filterMap EngineCall.tickedFn
      = e.nextTickQueue
        ++ (e.handlersOf "prerender").flatMap (fun h => queuedBy (prog.fn h)) ∧
    (∀ fn k, EngineCall.nextTick fn k ∈ (Engine.runFrame prog e tick).2 ↔
      k = e.currentFrame + 1 ∧
        (fn ∈ e.nextTickQueue ∨
          ∃ h ∈ e.handlersOf "prerender", Action.nextTick fn ∈ prog.fn h)) ∧
    (∀ call ∈ (Engine.runFrame prog e tick).2,
      (∀ h, call ≠ EngineCall.handler "prerender" h) →
      ∀ fn, Action.nextTick fn ∈ Engine.actionsOf prog call →
        fn ∈ (Engine.runFrame prog e tick).1.nextTickQueue) ∧
    (∀ fn ∈ (Engine.runFrame prog e tick).1.nextTickQueue, ∀ tick2 : Tick,
      EngineCall.nextTick fn (e.currentFrame + 2)
        ∈ (Engine.runFrame prog (Engine.runFrame prog e tick).1 tick2).2) := by
  refine ⟨tickedFn_runFrame prog e tick, nextTick_mem_runFrame prog e tick,
    queued_after_runFrame prog e tick, ?_⟩
  intro fn hfn tick2
  rw [nextTick_mem_runFrame, (runFrame_listeners_contexts prog e tick).2.2]
  exact ⟨rfl, Or.inl hfn⟩

theorem nextTick_runs_in_following_step_witness :
    6 ∈ (Engine.runFrame exampleProgram exampleEngine exampleTick).1.nextTickQueue ∧
    EngineCall.nextTick 6 2
      ∈ (Engine.runFrame exampleProgram
          (Engine.runFrame exampleProgram exampleEngine exampleTick).1 ⟨40, []⟩).2 :=
  ⟨(nextTick_runs_in_following_step exampleProgram exampleEngine exampleTick).2.2.1
      (.nextTick 5 1) (by decide) (fun _ h => EngineCall.noConfusion h) 6 (by decide),
   (nextTick_runs_in_following_step exampleProgram exampleEngine exampleTick).2.2.2
      6 (by decide) ⟨40, []⟩⟩


/-! ## A step below the frame time limit -/

/-- C19, as the claim states it: with a cap of 60 frames per second and the
last accepted step at time 20, a step at time 25 is skipped, and
`getFrameTimeDelta()` is 20 before it and 5 after it. -/
theorem throttled_step_changes_frame_time_delta :
    cappedEngine.frameTimeLimit = some (.num 16) ∧
    cappedEngine.lastTime = 20 ∧
    Engine.throttles cappedEngine ⟨25, []⟩ = true ∧
    cappedEngine.getFrameTimeDelta = some 20 ∧
    (Engine.step exampleProgram [⟨25, []⟩] cappedEngine).map
        (fun r => (r.1.getFrameTimeDelta, r.2)) = some (some 5, []) := by
  decide

/-- C19: when a frame time limit is set and the time since the last accepted
step is below it, `step` makes no call and changes nothing of the engine but
the frame counter, which advances by one, and the frame time delta, which
becomes the time since the last accepted step: the last timestamp, the
priority level, `getFPS()`, the queues, the contexts and the handlers are as
before. -/
theorem throttled_step_advances_frame_and_delta_only (prog : Program) (tick : Tick)
    (ticks : List Tick) (e : Engine) (limit : Level)
    (hcap : e.frameTimeLimit = some limit) (htruthy : limit.truthy = true)
    (hbelow : Level.above (tick.currentTime - e.lastTime) limit = true) :
    ∃ e1 : Engine,
      Engine.step prog (tick :: ticks) e = some (e1, []) ∧
      e1 = { e with
        currentFrame := e.currentFrame + 1
        nextTickFrame := e.currentFrame + 1
        _lastFrameTimeDelta := some (tick.currentTime - e.lastTime) } ∧
      e1.getCurrentFrameIndex = e.getCurrentFrameIndex + 1 ∧
      e1.getFrameTimeDelta = some (tick.currentTime - e.lastTime) ∧
      e1.lastTime = e.lastTime ∧
      e1.getPriorityLevel = e.getPriorityLevel ∧
      e1.getFPS = e.getFPS ∧
      e1.nextTickQueue = e.nextTickQueue ∧
      e1.deferQueue = e.deferQueue ∧
      e1.contexts = e.contexts ∧
      e1.listeners = e.listeners := by
  have ht : Engine.throttles e tick = true := by
    unfold Engine.throttles
    rw [hcap]
    simp only [htruthy, hbelow, Bool.and_self]
  refine ⟨Engine.beginStep e tick, ?_, rfl, rfl, rfl, rfl, rfl, rfl, rfl, rfl, rfl, rfl⟩
  rw [Engine.step, if_pos ht]

theorem throttled_step_advances_frame_and_delta_only_witness :
    ∃ e1 : Engine,
      Engine.step exampleProgram [⟨25, []⟩] cappedEngine = some (e1, []) ∧
      e1 = { cappedEngine with
        currentFrame := cappedEngine.currentFrame + 1
        nextTickFrame := cappedEngine.currentFrame + 1
        _lastFrameTimeDelta := some ((25 : Int) - cappedEngine.lastTime) } ∧
      e1.getCurrentFrameIndex = cappedEngine.getCurrentFrameIndex + 1 ∧
      e1.getFrameTimeDelta = some ((25 : Int) - cappedEngine.lastTime) ∧
      e1.lastTime = cappedEngine.lastTime ∧
      e1.getPriorityLevel = cappedEngine.getPriorityLevel ∧
      e1.getFPS = cappedEngine.getFPS ∧
      e1.nextTickQueue = cappedEngine.nextTickQueue ∧
      e1.deferQueue = cappedEngine.deferQueue ∧
      e1.contexts = cappedEngine.contexts ∧
      e1.listeners = cappedEngine.listeners :=
  throttled_step_advances_frame_and_delta_only exampleProgram ⟨25, []⟩ [] cappedEngine
    (.num 16) (by decide) (by decide) (by decide)

/-! ## The priority level after a step -/

/-- C20: after an executed frame with frame time delta `d`, `getPriorityLevel()`
is the smallest threshold of `Engine.PriorityLevels` that is strictly greater
than `d`, and `Infinity` when no threshold is greater; after a step that is
not skipped this holds for the delta of the last frame the step executed; with
the default thresholds a delta of 50 gives 130 and a delta of 200 gives
`Infinity`. -/
theorem priority_level_is_smallest_threshold_above_delta :
    (∀ (prog : Program) (e : Engine) (tick : Tick),
      ∃ r, (Engine.runFrame prog e tick).1.getPriorityLevel = some r ∧
        (Engine.runFrame prog e tick).1.getFrameTimeDelta
          = some (tick.currentTime - e.lastTime) ∧
        Engine.IsSmallestThresholdAbove (tick.currentTime - e.lastTime)
          (Engine.runFrame prog e tick).1.PriorityLevels r) ∧
    (∀ (prog : Program) (tick : Tick) (ticks : List Tick) (e e1 : Engine)
        (trace : List EngineCall),
      Engine.throttles e tick = false →
      Engine.step prog (tick :: ticks) e = some (e1, trace) →
      ∃ d r, e1.frameTime = some d ∧ e1.getPriorityLevel = some r ∧
        Engine.IsSmallestThresholdAbove d e1.PriorityLevels r) ∧
    (Engine.step exampleProgram [⟨50, []⟩] {}).map (fun r => r.1.getPriorityLevel)
      = some (some (.num 130)) ∧
    (Engine.step exampleProgram [⟨200, []⟩] {}).map (fun r => r.1.getPriorityLevel)
      = some (some .infinity) := by
  refine ⟨?_, ?_, by decide, by decide⟩
  · intro prog e tick
    obtain ⟨ran, _, _, hf⟩ := runFrame_spec prog e tick
    have h := queueFrame_fields hf
    refine ⟨Engine.priorityLevelFor (tick.currentTime - e.lastTime) e.PriorityLevels, ?_, ?_, ?_⟩
    · unfold Engine.getPriorityLevel
      rw [h.2.2.2.2.2.2.2.2.2]; rfl
    · unfold Engine.getFrameTimeDelta
      rw [h.2.2.2.2.2.2.2.2.1]; rfl
    · rw [h.1]
      exact priorityLevelFor_spec _ _
  · intro prog tick ticks e e1 trace ht h
    exact step_priority_invariant prog (tick :: ticks) e e1 trace h (Or.inr ⟨tick, ticks, rfl, ht⟩)

theorem priority_level_is_smallest_threshold_above_delta_witness :
    ∃ d r, (Engine.runFrame exampleProgram {} ⟨50, []⟩).1.frameTime = some d ∧
      (Engine.runFrame exampleProgram {} ⟨50, []⟩).1.getPriorityLevel = some r ∧
      Engine.IsSmallestThresholdAbove d
        (Engine.runFrame exampleProgram {} ⟨50, []⟩).1.PriorityLevels r :=
  priority_level_is_smallest_threshold_above_delta.2.1 exampleProgram ⟨50, []⟩ [] {}
    (Engine.runFrame exampleProgram {} ⟨50, []⟩).1
    (Engine.runFrame exampleProgram {} ⟨50, []⟩).2 (by decide) (by decide)


/-! ## Restricted animations -/

/-- C21, as the claim states it: with `size` restricted at critical and `opacity`
at normal, after a frame of delta 50 the current level is normal, which is not
more permissive than critical, yet `shouldPropertyAnimate('size')` is true;
after a frame of delta 200 the current level is critical, which is strictly
more permissive than normal, yet `shouldPropertyAnimate('opacity')` is
false. -/
theorem shouldPropertyAnimate_true_for_less_permissive_level :
    (Engine.runFrame exampleProgram restrictedEngine ⟨50, []⟩).1.getPriorityLevel
      = some (.num 130) ∧
    Level.morePermissive (.num 130) .infinity = false ∧
    (Engine.runFrame exampleProgram restrictedEngine ⟨50, []⟩).1.shouldPropertyAnimate "size"
      = true ∧
    (Engine.runFrame exampleProgram restrictedEngine ⟨200, []⟩).1.getPriorityLevel
      = some .infinity ∧
    Level.morePermissive .infinity (.num 130) = true ∧
    (Engine.runFrame exampleProgram restrictedEngine ⟨200, []⟩).1.shouldPropertyAnimate "opacity"
      = false := by
  decide

/-- C21: `shouldPropertyAnimate(name)` is true when no restriction is set or the
restriction has no entry for `name`; otherwise it is true exactly when the level
configured for `name` is strictly more permissive than the current priority
level, in the order critical > normal > generous, and false while no priority
level has been computed. -/
theorem shouldPropertyAnimate_iff_configured_more_permissive (e : Engine) (name : String) :
    (e._disableAnimationSpec = none → e.shouldPropertyAnimate name = true) ∧
    (∀ spec, e._disableAnimationSpec = some spec → get spec name = none →
      e.shouldPropertyAnimate name = true) ∧
    (∀ spec configured current, e._disableAnimationSpec = some spec →
      get spec name = some configured → e.getPriorityLevel = some current →
      e.shouldPropertyAnimate name = Level.morePermissive configured current) ∧
    (∀ spec configured, e._disableAnimationSpec = some spec →
      get spec name = some configured → e.getPriorityLevel = none →
      e.shouldPropertyAnimate name = false) ∧
    Level.morePermissive .infinity (.num 130) = true ∧
    Level.morePermissive (.num 130) (.num 0) = true ∧
    Level.morePermissive .infinity (.num 0) = true := by
  refine ⟨?_, ?_, ?_, ?_, by decide, by decide, by decide⟩
  · intro h
    unfold Engine.shouldPropertyAnimate
    rw [h]
  · intro spec h hg
    unfold Engine.shouldPropertyAnimate
    rw [h]
    simp only [hg]
  · intro spec configured current h hg hc
    unfold Engine.getPriorityLevel at hc
    unfold Engine.shouldPropertyAnimate
    rw [h]
    simp only [hg, hc]
    rfl
  · intro spec configured h hg hc
    unfold Engine.getPriorityLevel at hc
    unfold Engine.shouldPropertyAnimate
    rw [h]
    simp only [hg, hc]

theorem shouldPropertyAnimate_iff_configured_more_permissive_witness :
    (Engine.runFrame exampleProgram restrictedEngine ⟨50, []⟩).1.shouldPropertyAnimate "size"
      = Level.morePermissive .infinity (.num 130) :=
  (shouldPropertyAnimate_iff_configured_more_permissive
      (Engine.runFrame exampleProgram restrictedEngine ⟨50, []⟩).1 "size").2.2.1
    [("size", .infinity), ("opacity", .num 130)] .infinity (.num 130)
    (by decide) (by decide) (by decide)


/-! ## The registry of contexts -/

theorem updatedContext_runFrame (prog : Program) (e : Engine) (tick : Tick) :
    (Engine.runFrame prog e tick).2.filterMap EngineCall.updatedContext = e.contexts := by
  obtain ⟨ran, h, _, _⟩ := runFrame_spec prog e tick
  rw [h]
  have h1 : ∀ (type : String) (l : List Nat),
      (l.map (EngineCall.handler type)).filterMap EngineCall.updatedContext = [] := by
    intro type l; induction l with
    | nil => rfl
    | cons a l ih => simp [EngineCall.updatedContext]
  have h2 : ∀ (frame : Nat) (l : List Nat),
      (l.map (fun fn => EngineCall.nextTick fn frame)).filterMap EngineCall.updatedContext
        = [] := by
    intro frame l; induction l with
    | nil => rfl
    | cons a l ih => simp [EngineCall.updatedContext]
  have h3 : ∀ l : List Nat,
      (l.map EngineCall.deferred).filterMap EngineCall.updatedContext = [] := by
    intro l; induction l with
    | nil => rfl
    | cons a l ih => simp [EngineCall.updatedContext]
  have h4 : ∀ l : List Nat,
      (l.map EngineCall.update).filterMap EngineCall.updatedContext = l := by
    intro l; induction l with
    | nil => rfl
    | cons a l ih => simpa [EngineCall.updatedContext] using ih
  have h5 : [EngineCall.flushUpdates].filterMap EngineCall.updatedContext = [] := rfl
  rw [List.filterMap_append, List.filterMap_append, List.filterMap_append, List.filterMap_append,
    List.filterMap_append, h1, h1, h2, h3, h4, h5]
  simp

theorem count_update_runFrame (prog : Program) (e : Engine) (tick : Tick) (context : Nat) :
    (Engine.runFrame prog e tick).2.count (EngineCall.update context)
      = e.contexts.count context := by
  obtain ⟨ran, h, _, _⟩ := runFrame_spec prog e tick
  rw [h]
  have h1 : ∀ (type : String) (l : List Nat),
      (l.map (EngineCall.handler type)).count (EngineCall.update context) = 0 := by
    intro type l
    rw [List.count_eq_zero]
    intro hm
    obtain ⟨a, _, ha⟩ := List.mem_map.1 hm
    cases ha
  have h2 : ∀ (frame : Nat) (l : List Nat),
      (l.map (fun fn => EngineCall.nextTick fn frame)).count (EngineCall.update context)
        = 0 := by
    intro frame l
    rw [List.count_eq_zero]
    intro hm
    obtain ⟨a, _, ha⟩ := List.mem_map.1 hm
    cases ha
  have h3 : ∀ l : List Nat,
      (l.map EngineCall.deferred).count (EngineCall.update context) = 0 := by
    intro l
    rw [List.count_eq_zero]
    intro hm
    obtain ⟨a, _, ha⟩ := List.mem_map.1 hm
    cases ha
  have h4 : ∀ l : List Nat,
      (l.map EngineCall.update).count (EngineCall.update context) = l.count context := by
    intro l; induction l with
    | nil => rfl
    | cons a l ih =>
      rw [List.map_cons, List.count_cons, List.count_cons, ih]
      by_cases hac : a = context
      · simp [hac]
      · simp [hac]
  have h5 : [EngineCall.flushUpdates].count (EngineCall.update context) = 0 := by
    rw [List.count_eq_zero]
    intro hm
    cases List.mem_singleton.1 hm
  rw [List.count_append, List.count_append, List.count_append, List.count_append,
    List.count_append, h1, h1, h2, h3, h4, h5]
  simp

theorem callContext_nodup (e : Engine) (call : ContextCall) (h : e.contexts.Nodup)
    (hnew : Engine.registersOnlyNew e [call] = true) :
    (Engine.callContext e call).contexts.Nodup := by
  cases call with
  | registerContext context =>
    have hc : context ∉ e.contexts := by
      simpa [Engine.registersOnlyNew] using hnew
    show (e.contexts ++ [context]).Nodup
    rw [List.nodup_append]
    refine ⟨h, List.nodup_singleton _, ?_⟩
    intro a ha hb
    rw [List.mem_singleton.1 hb] at ha
    exact hc ha
  | deregisterContext context =>
    exact List.Nodup.erase context h

theorem runContextCalls_nodup (calls : List ContextCall) :
    ∀ e : Engine, e.contexts.Nodup → Engine.registersOnlyNew e calls = true →
      (Engine.runContextCalls e calls).contexts.Nodup := by
  induction calls with
  | nil => intro e h _; exact h
  | cons call rest ih =>
    intro e h hnew
    have e0 : Engine.runContextCalls e (call :: rest)
        = Engine.runContextCalls (Engine.callContext e call) rest := rfl
    rw [e0]
    cases call with
    | registerContext context =>
      have hn : decide (context ∉ e.contexts) = true ∧
          Engine.registersOnlyNew (e.registerContext context) rest = true := by
        simpa [Engine.registersOnlyNew] using hnew
      apply ih
      · exact callContext_nodup e (.registerContext context) h
          (by simpa [Engine.registersOnlyNew] using hn.1)
      · exact hn.2
    | deregisterContext context =>
      have hn : Engine.registersOnlyNew (e.deregisterContext context) rest = true := by
        simpa [Engine.registersOnlyNew] using hnew
      apply ih
      · exact List.Nodup.erase context h
      · exact hn

/-- C22, as the claim states it: `registerContext(10)` twice on a new engine.
The registry holds context 10 twice, an executed step calls its `update()`
twice, and after one `deregisterContext(10)` context 10 is still registered. -/
theorem registerContext_twice_holds_root_twice :
    (Engine.runContextCalls {} [.registerContext 10, .registerContext 10]).contexts
      = [10, 10] ∧
    (Engine.step exampleProgram [⟨20, []⟩]
        (Engine.runContextCalls {} [.registerContext 10, .registerContext 10])).map Prod.snd
      = some [.update 10, .update 10, .flushUpdates] ∧
    (Engine.runContextCalls {}
        [.registerContext 10, .registerContext 10, .deregisterContext 10]).contexts
      = [10] := by
  decide

/-- C22: when the registry holds no context twice and no call registers a
context that is registered at the time of the call, then after the sequence of
`registerContext` and `deregisterContext` calls the registry holds each context
at most once, the `update()` calls of an executed frame are those of the
registered contexts, once each, in registration order, and
`deregisterContext(context)` leaves the context unregistered and changes
nothing when the context is not registered. -/
theorem registry_holds_each_new_root_once (e0 : Engine) (calls : List ContextCall)
    (hnodup : e0.contexts.Nodup) (hnew : Engine.registersOnlyNew e0 calls = true) :
    (Engine.runContextCalls e0 calls).contexts.Nodup ∧
    (∀ (prog : Program) (tick : Tick),
      (Engine.runFrame prog (Engine.runContextCalls e0 calls) tick).2.filterMap
          EngineCall.updatedContext
        = (Engine.runContextCalls e0 calls).contexts) ∧
    (∀ (prog : Program) (tick : Tick) (context : Nat),
      (Engine.runFrame prog (Engine.runContextCalls e0 calls) tick).2.count
          (EngineCall.update context)
        = if context ∈ (Engine.runContextCalls e0 calls).contexts then 1 else 0) ∧
    (∀ context : Nat,
      context ∉ ((Engine.runContextCalls e0 calls).deregisterContext context).contexts) ∧
    (∀ context : Nat, context ∉ (Engine.runContextCalls e0 calls).contexts →
      ((Engine.runContextCalls e0 calls).deregisterContext context).contexts
        = (Engine.runContextCalls e0 calls).contexts) := by
  have hn := runContextCalls_nodup calls e0 hnodup hnew
  refine ⟨hn, ?_, ?_, ?_, ?_⟩
  · intro prog tick
    exact updatedContext_runFrame prog _ tick
  · intro prog tick context
    rw [count_update_runFrame]
    by_cases hc : context ∈ (Engine.runContextCalls e0 calls).contexts
    · rw [if_pos hc]
      exact List.count_eq_one_of_mem hn hc
    · rw [if_neg hc]
      exact List.count_eq_zero.2 hc
  · intro context hc
    have hc1 : context ∈ (Engine.runContextCalls e0 calls).contexts.erase context := hc
    rw [List.Nodup.mem_erase_iff hn] at hc1
    exact hc1.1 rfl
  · intro context hc
    exact List.erase_of_not_mem hc

theorem registry_holds_each_new_root_once_witness :
    (Engine.runContextCalls {}
      [.registerContext 10, .registerContext 11, .deregisterContext 10,
       .registerContext 10]).contexts.Nodup :=
  (registry_holds_each_new_root_once {}
    [.registerContext 10, .registerContext 11, .deregisterContext 10, .registerContext 10]
    (by decide) (by decide)).1


/-! ## Setup forces every dirty flag -/

theorem cleanup_elementType (s : Surface) (dom : Dom) :
    (Surface.cleanup s dom).1.elementType = s.elementType := by
  unfold Surface.cleanup
  cases s._currentTarget <;> rfl

/-- C23: for every Surface, `setup(allocator)` leaves the classes, styles,
attributes, size and content dirty flags (and the origin and transform flags)
true, sets the current target to the element `allocator.allocate` returns for
`elementType`, and sets the cached opacity to `null`; the allocation is the
first call it makes; the same holds for a Surface that has been cleaned up. -/
theorem setup_forces_every_dirty_flag :
    (∀ (s : Surface) (allocator : Allocator),
      (Surface.setup s allocator).1._classesDirty = true ∧
      (Surface.setup s allocator).1._stylesDirty = true ∧
      (Surface.setup s allocator).1._attributesDirty = true ∧
      (Surface.setup s allocator).1._sizeDirty = true ∧
      (Surface.setup s allocator).1._contentDirty = true ∧
      (Surface.setup s allocator).1._originDirty = true ∧
      (Surface.setup s allocator).1._transformDirty = true ∧
      (Surface.setup s allocator).1._currentTarget = some (allocator.allocate s.elementType) ∧
      (Surface.setup s allocator).1._opacity = none ∧
      (Surface.setup s allocator).2.head? = some (Effect.allocate s.elementType)) ∧
    (∀ (s : Surface) (dom : Dom) (allocator : Allocator),
      (Surface.setup (Surface.cleanup s dom).1 allocator).1._classesDirty = true ∧
      (Surface.setup (Surface.cleanup s dom).1 allocator).1._stylesDirty = true ∧
      (Surface.setup (Surface.cleanup s dom).1 allocator).1._attributesDirty = true ∧
      (Surface.setup (Surface.cleanup s dom).1 allocator).1._sizeDirty = true ∧
      (Surface.setup (Surface.cleanup s dom).1 allocator).1._contentDirty = true ∧
      (Surface.setup (Surface.cleanup s dom).1 allocator).1._currentTarget
        = some (allocator.allocate s.elementType) ∧
      (Surface.setup (Surface.cleanup s dom).1 allocator).1._opacity = none) ∧
    (Surface.setup committedSurface exampleAllocator).1
      = { committedSurface with
          _classesDirty := true
          _stylesDirty := true
          _attributesDirty := true
          _sizeDirty := true
          _contentDirty := true
          _originDirty := true
          _transformDirty := true } := by
  refine ⟨fun s allocator => ⟨rfl, rfl, rfl, rfl, rfl, rfl, rfl, rfl, rfl, rfl⟩, ?_, by decide⟩
  intro s dom allocator
  refine ⟨rfl, rfl, rfl, rfl, rfl, ?_, rfl⟩
  show some (allocator.allocate (Surface.cleanup s dom).1.elementType) = _
  rw [cleanup_elementType]

/-! ## Setting the same content again -/

/-- C24: `setContent(content)` with the current content returns the Surface
unchanged, so the content and every dirty flag are as before; with another
value it replaces the content, sets the content dirty flag and changes nothing
else. -/
theorem setContent_same_content_is_noop (s : Surface) (content : Content) :
    (content = s.content → Surface.setContent s content = s) ∧
    (content ≠ s.content →
      Surface.setContent s content = { s with content := content, _contentDirty := true } ∧
      (Surface.setContent s content).content = content ∧
      (Surface.setContent s content)._contentDirty = true ∧
      (Surface.setContent s content)._classesDirty = s._classesDirty ∧
      (Surface.setContent s content)._stylesDirty = s._stylesDirty ∧
      (Surface.setContent s content)._attributesDirty = s._attributesDirty ∧
      (Surface.setContent s content)._sizeDirty = s._sizeDirty ∧
      (Surface.setContent s content)._trueSizeCheck = s._trueSizeCheck ∧
      (Surface.setContent s content)._originDirty = s._originDirty ∧
      (Surface.setContent s content)._transformDirty = s._transformDirty) := by
  constructor
  · intro h
    unfold Surface.setContent
    rw [if_neg (fun hne => hne h.symm)]
  · intro h
    have e0 : Surface.setContent s content
        = { s with content := content, _contentDirty := true } := by
      unfold Surface.setContent
      rw [if_pos (fun heq => h heq.symm)]
    rw [e0]
    exact ⟨rfl, rfl, rfl, rfl, rfl, rfl, rfl, rfl, rfl, rfl⟩

theorem setContent_same_content_is_noop_witness :
    Surface.setContent committedSurface (.text "") = committedSurface ∧
    Surface.setContent committedSurface (.text "x")
      = { committedSurface with content := .text "x", _contentDirty := true } :=
  ⟨(setContent_same_content_is_noop committedSurface (.text "")).1 (by decide),
   ((setContent_same_content_is_noop committedSurface (.text "x")).2 (by decide)).1⟩


/-! ## A dispatch during which a callback unregisters itself -/

/-- C11 (evaluation): callbacks 41 and 42 are registered on `click` for all
others than `1` and than `2`, and callback 41 unregisters itself when called.  A
click on a target with routing id `8` calls callback 41 with the event; its
wrapper is spliced out of the array the loop of `emit` walks, the wrapper of
callback 42 moves to index 0 and the loop, now at index 1, ends: callback 42 is
not called although `8` differs from `2`.  With callbacks that leave the router
alone the same click calls both, and a click on a target with routing id `7`
calls the delegated callback registered for `7` once and no all-others callback
registered for `7`. -/
theorem allOthers_callback_skipped_after_unregistering :
    DOMEventHandler.handlersNow twoAllOthers "click" true "click"
      = some [Handler.wrapper 0 "1" 41, Handler.wrapper 1 "2" 42] ∧
    DOMEventHandler.dispatch unregisteringProgram desktop 10 twoAllOthers "click" (some "8") 0
      = some (.returned
          (DOMEventHandler.run desktop twoAllOthers
            [.removeEventListenerForAllOthers "1" "click" 41],
           [⟨41, .undefined, [.ref 0]⟩])) ∧
    DOMEventHandler.handlersNow
        (DOMEventHandler.run desktop twoAllOthers
          [.removeEventListenerForAllOthers "1" "click" 41])
        "click" true "click"
      = some [Handler.wrapper 1 "2" 42] ∧
    DOMEventHandler.dispatch inertProgram desktop 10 twoAllOthers "click" (some "8") 0
      = some (.returned
          (twoAllOthers, [⟨41, .undefined, [.ref 0]⟩, ⟨42, .undefined, [.ref 0]⟩])) ∧
    (DOMEventHandler.dispatch inertProgram desktop 10
        (DOMEventHandler.run desktop {}
          [.addEventListener "7" 1 "click" 40,
           .addEventListenerForAllOthers (Identifier.toJSString (.str "7")) "click" 41,
           .addEventListenerForAllOthers (Identifier.toJSString (.num 7)) "click" 42])
        "click" (some "7") 0).map (fun r => r.state.2)
      = some [⟨40, .owner .self, [.ref 0]⟩] := by
  decide


/-! ## The dirty flags after a commit that runs listeners -/

theorem resolveSizeContext_state (s : Surface) (cc : CommitContext) (dom : Dom) :
    (Surface.resolveSizeContext s cc dom).map Prod.fst
      = (Surface.resolveSize s ⟨cc.allocator, cc.size.toOption⟩ dom).map Prod.fst := by
  unfold Surface.resolveSizeContext Surface.resolveSize
  rcases hs : s.size with _ | ⟨a, b⟩
  · rfl
  · simp only
    cases ha : Surface.inheritAxis a (cc.size.toOption.map Prod.fst) with
    | none => rfl
    | some a1 =>
      cases hb : Surface.inheritAxis b (cc.size.toOption.map Prod.snd) with
      | none => rfl
      | some b1 =>
        simp only
        by_cases ht : a1 = .tru ∨ b1 = .tru
        · simp only [ht, if_true, Option.map_some']
        · simp only [ht, if_false, Option.map_some']

theorem resolveSizeContext_frame {s s1 : Surface} {cc : CommitContext} {dom : Dom}
    {size : ContextSize} (h : Surface.resolveSizeContext s cc dom = some (s1, size)) :
    Surface.SizeFrame s s1 := by
  have h1 := resolveSizeContext_state s cc dom
  rw [h] at h1
  cases hr : Surface.resolveSize s ⟨cc.allocator, cc.size.toOption⟩ dom with
  | none => rw [hr] at h1; cases h1
  | some r =>
    rw [hr] at h1
    obtain ⟨r1, r2⟩ := r
    have h2 : s1 = r1 := by simpa using h1
    rw [h2]
    exact resolveSize_frame hr

theorem storeSizeContext_frame {s s2 : Surface} {size : ContextSize}
    (h : Surface.storeSizeContext s size = .returned s2) : Surface.SizeFrame s s2 := by
  unfold Surface.storeSizeContext at h
  by_cases hx : Surface.xyNotEqualsContext s._size size = true
  · simp only [hx, if_true] at h
    cases size with
    | undefined => cases hs : s._size <;> rw [hs] at h <;> cases h
    | null => cases hs : s._size <;> rw [hs] at h <;> cases h
    | array sz =>
      simp only [Outcome.returned.injEq] at h
      rw [← h]
      exact sizeFrame_update s _ _ _
  · simp only [hx] at h
    simp only [Bool.false_eq_true, if_false, Outcome.returned.injEq] at h
    rw [← h]
    exact sizeFrame_refl s

theorem sizeFrame_flags {s s1 : Surface} (h : Surface.SizeFrame s s1) :
    s1._classesDirty = s._classesDirty ∧ s1._stylesDirty = s._stylesDirty ∧
    s1._attributesDirty = s._attributesDirty ∧ s1._contentDirty = s._contentDirty := by
  unfold Surface.SizeFrame at h
  rw [h]
  exact ⟨rfl, rfl, rfl, rfl⟩

theorem commitSizeDirtyWith_silent (l : Listeners) (hl : l.resize = []) (s : Surface)
    (t : Nat) :
    Surface.commitSizeDirtyWith l s t = .returned (Surface.commitSizeDirty s t) := by
  unfold Surface.commitSizeDirtyWith Surface.commitSizeDirty
  rw [hl]
  by_cases h : s._sizeDirty = true
  · simp only [h, if_true, Surface.runListeners]
  · simp only [h]
    rfl

theorem commitContentWith_silent (l : Listeners) (hl : l.deploy = []) (s : Surface)
    (t : Nat) (dom : Dom) :
    Surface.commitContentWith l s t dom = .returned (Surface.commitContent s t dom) := by
  unfold Surface.commitContentWith Surface.commitContent
  rw [hl]
  by_cases h : s._contentDirty = true
  · simp only [h, if_true, Surface.runListeners]
  · simp only [h]
    rfl

theorem commitContentWith_contentDirty {l : Listeners} {s : Surface} {t : Nat} {dom : Dom}
    {d : Surface × List Effect} (h : Surface.commitContentWith l s t dom = .returned d) :
    d.1._contentDirty = false := by
  unfold Surface.commitContentWith at h
  by_cases hc : s._contentDirty = true
  · simp only [hc, if_true] at h
    cases hr : Surface.runListeners s l.deploy with
    | returned s1 =>
      rw [hr] at h
      simp only [Outcome.returned.injEq] at h
      rw [← h]
    | threw s1 => rw [hr] at h; cases h
  · simp only [hc] at h
    simp only [Bool.false_eq_true, if_false, Outcome.returned.injEq] at h
    rw [← h]
    simpa using hc

theorem commitTargetWith_blocks {l : Listeners} {s s1 : Surface} {t : Nat}
    {cc : CommitContext} {dom : Dom} {log : List Effect}
    (h : Surface.commitTargetWith l s t cc dom = .returned (s1, log)) :
    ∃ sR size s2 z d,
      Surface.resolveSizeContext
        (Surface.commitAttributes (Surface.commitStyles (Surface.commitClasses s t).1 t).1 t).1
        cc dom = some (sR, size) ∧
      Surface.storeSizeContext sR size = .returned s2 ∧
      Surface.commitSizeDirtyWith l s2 t = .returned z ∧
      Surface.commitContentWith l z.1 t dom = .returned d ∧
      s1 = d.1 := by
  unfold Surface.commitTargetWith at h
  simp only at h
  split at h
  · cases h
  · rename_i sR size hR
    split at h
    · cases h
    · rename_i s2 hS
      split at h
      · cases h
      · rename_i z hZ
        split at h
        · cases h
        · rename_i d hD
          simp only [Outcome.returned.injEq, Prod.mk.injEq] at h
          exact ⟨sR, size, s2, z, d, hR, hS, hZ, hD, h.1.symm⟩

theorem commitTargetWith_contentDirty {l : Listeners} {s s1 : Surface} {t : Nat}
    {cc : CommitContext} {dom : Dom} {log : List Effect}
    (h : Surface.commitTargetWith l s t cc dom = .returned (s1, log)) :
    s1._contentDirty = false := by
  obtain ⟨sR, size, s2, z, d, -, -, -, hD, h1⟩ := commitTargetWith_blocks h
  rw [h1]
  exact commitContentWith_contentDirty hD

theorem commitTargetWith_silent_post {l : Listeners} {s s1 : Surface} {t : Nat}
    {cc : CommitContext} {dom : Dom} {log : List Effect}
    (hr : l.resize = []) (hd : l.deploy = [])
    (h : Surface.commitTargetWith l s t cc dom = .returned (s1, log)) :
    s1._classesDirty = false ∧ s1._stylesDirty = false ∧ s1._attributesDirty = false ∧
    s1._sizeDirty = false ∧ s1._contentDirty = false := by
  obtain ⟨sR, size, s2, z, d, hR, hS, hZ, hD, h1⟩ := commitTargetWith_blocks h
  rw [commitSizeDirtyWith_silent l hr] at hZ
  simp only [Outcome.returned.injEq] at hZ
  rw [← hZ, commitContentWith_silent l hd] at hD
  simp only [Outcome.returned.injEq] at hD
  have e1 : s1 = { s2 with _sizeDirty := false, _contentDirty := false
                           _trueSizeCheck := s2._contentDirty || s2._trueSizeCheck } := by
    rw [h1, ← hD, commitContent_fst, commitSizeDirty_fst]
  obtain ⟨f1, f2, f3, -⟩ := sizeFrame_flags (sizeFrame_trans (resolveSizeContext_frame hR)
    (storeSizeContext_frame hS))
  have a1 : (Surface.commitAttributes (Surface.commitStyles (Surface.commitClasses s t).1 t).1
      t).1._classesDirty = false := by
    rw [commitAttributes_fst, commitStyles_fst, commitClasses_fst]
  have a2 : (Surface.commitAttributes (Surface.commitStyles (Surface.commitClasses s t).1 t).1
      t).1._stylesDirty = false := by
    rw [commitAttributes_fst, commitStyles_fst]
  have a3 : (Surface.commitAttributes (Surface.commitStyles (Surface.commitClasses s t).1 t).1
      t).1._attributesDirty = false := by
    rw [commitAttributes_fst]
  rw [a1] at f1
  rw [a2] at f2
  rw [a3] at f3
  rw [e1]
  exact ⟨f1, f2, f3, rfl, rfl⟩


theorem commitWith_returned {l : Listeners} {s s1 : Surface} {cc : CommitContext} {dom : Dom}
    {log : List Effect} (h : Surface.commitWith l s cc dom = .returned (s1, log)) :
    ∃ s0 t log0, Surface.commitTargetWith l s0 t cc dom = .returned (s1, log0) := by
  unfold Surface.commitWith at h
  split at h
  · rename_i t ht
    exact ⟨s, t, log, h⟩
  · simp only at h
    split at h
    · rename_i s1a loga hc
      simp only [Outcome.returned.injEq, Prod.mk.injEq] at h
      rw [← h.1]
      exact ⟨_, _, loga, hc⟩
    · cases h

/-- Counterexample to C3 as stated: a Surface built with content `hello` and
class `a` and set up, whose listener of `deploy` calls
`setProperties({color: 'red'})`, committed in a context of size 100 by 50.  The
commit returns with the styles dirty flag true, the styles block having run
before the listener.  With a context that has no `size` key the commit of the
same Surface without listeners throws at line 418. -/
theorem commit_returns_with_styles_dirty :
    Surface.commitWith stylingListeners helloSurface
        ⟨exampleAllocator, .array (.num 100, .num 50)⟩ exampleDom
      = .returned
          (Surface.commitWith stylingListeners helloSurface
            ⟨exampleAllocator, .array (.num 100, .num 50)⟩ exampleDom).state ∧
    (Surface.commitWith stylingListeners helloSurface
      ⟨exampleAllocator, .array (.num 100, .num 50)⟩ exampleDom).state.1._stylesDirty = true ∧
    (Surface.commitWith stylingListeners helloSurface
      ⟨exampleAllocator, .array (.num 100, .num 50)⟩ exampleDom).state.1.properties
      = [("color", "red")] ∧
    (Surface.commitWith stylingListeners helloSurface
      ⟨exampleAllocator, .array (.num 100, .num 50)⟩ exampleDom).state.2
      = [Effect.addToObject 5 "a",
         Effect.assignStyle 5 "width" "100px",
         Effect.assignStyle 5 "height" "50px",
         Effect.emit "resize",
         Effect.assignProperty 5 "textContent" (.text "hello"), Effect.emit "deploy",
         Effect.elementOutputCommit] ∧
    Surface.commitWith {} helloSurface ⟨exampleAllocator, .undefined⟩ exampleDom
      = .threw
          (Surface.commitWith {} helloSurface ⟨exampleAllocator, .undefined⟩
            exampleDom).state := by
  decide

/-- C3: whenever `commit` returns and the listeners of `resize` and `deploy` have
called no mutator of the Surface, the classes, styles, attributes, size and
content dirty flags are all false; and for a Surface built with content `hello`
and classes `['a']`, without such listeners and with a context whose size is
`null` or an array, the commit after setup returns, has queued the class `a` and
the text content `hello` on the target and has left these flags cleared. -/
theorem commit_clears_flags_when_listeners_are_silent :
    (∀ (l : Listeners) (s s1 : Surface) (cc : CommitContext) (dom : Dom) (log : List Effect),
      l.resize = [] → l.deploy = [] →
      Surface.commitWith l s cc dom = .returned (s1, log) →
        s1._classesDirty = false ∧ s1._stylesDirty = false ∧ s1._attributesDirty = false ∧
        s1._sizeDirty = false ∧ s1._contentDirty = false) ∧
    (∀ (id : Nat) (allocator : Allocator) (cc : CommitContext) (dom : Dom),
      cc.size ≠ .undefined →
      ∃ s0 s1 log,
        Surface.new id (some { content := some (.text "hello"), classes := some ["a"] })
          = .returned s0 ∧
        Surface.commitWith {} (Surface.setup s0 allocator).1 cc dom = .returned (s1, log) ∧
        Effect.addToObject (allocator.allocate "div") "a" ∈ log ∧
        Effect.assignProperty (allocator.allocate "div") "textContent" (.text "hello") ∈ log ∧
        s1._classesDirty = false ∧ s1._stylesDirty = false ∧ s1._attributesDirty = false ∧
        s1._sizeDirty = false ∧ s1._contentDirty = false) := by
  constructor
  · intro l s s1 cc dom log hr hd h
    obtain ⟨s0, t, log0, h0⟩ := commitWith_returned h
    exact commitTargetWith_silent_post hr hd h0
  · intro id allocator cc dom hsize
    obtain ⟨al, size⟩ := cc
    cases size with
    | undefined => exact absurd rfl hsize
    | null =>
      refine ⟨_, _,
        [Effect.addToObject (allocator.allocate "div") "a", Effect.emit "resize",
         Effect.assignProperty (allocator.allocate "div") "textContent" (.text "hello"),
         Effect.emit "deploy", Effect.elementOutputCommit],
        rfl, rfl, ?_, ?_, rfl, rfl, rfl, rfl, rfl⟩ <;> simp
    | array sz =>
      obtain ⟨w, h⟩ := sz
      refine ⟨_, _,
        [Effect.addToObject (allocator.allocate "div") "a",
         Effect.assignStyle (allocator.allocate "div") "width" (Surface.resolvedLength none w),
         Effect.assignStyle (allocator.allocate "div") "height" (Surface.resolvedLength none h),
         Effect.emit "resize",
         Effect.assignProperty (allocator.allocate "div") "textContent" (.text "hello"),
         Effect.emit "deploy", Effect.elementOutputCommit],
        rfl, rfl, ?_, ?_, rfl, rfl, rfl, rfl, rfl⟩ <;> simp

/-- Witness of C3: the first commit of a set-up Surface that measures its
width, without listeners, and the commit of the Surface built with content
`hello` and class `a` in a context of size 100 by 50. -/
theorem commit_clears_flags_when_listeners_are_silent_witness :
    ((Surface.commitWith {} measuredSurface ⟨exampleAllocator, .null⟩
        measuredDom).state.1._classesDirty = false ∧
      (Surface.commitWith {} measuredSurface ⟨exampleAllocator, .null⟩
        measuredDom).state.1._stylesDirty = false ∧
      (Surface.commitWith {} measuredSurface ⟨exampleAllocator, .null⟩
        measuredDom).state.1._attributesDirty = false ∧
      (Surface.commitWith {} measuredSurface ⟨exampleAllocator, .null⟩
        measuredDom).state.1._sizeDirty = false ∧
      (Surface.commitWith {} measuredSurface ⟨exampleAllocator, .null⟩
        measuredDom).state.1._contentDirty = false) ∧
    ∃ s0 s1 log,
      Surface.new 1 (some { content := some (.text "hello"), classes := some ["a"] })
        = .returned s0 ∧
      Surface.commitWith {} (Surface.setup s0 exampleAllocator).1
        ⟨exampleAllocator, .array (.num 100, .num 50)⟩ exampleDom = .returned (s1, log) ∧
      Effect.addToObject (exampleAllocator.allocate "div") "a" ∈ log ∧
      Effect.assignProperty (exampleAllocator.allocate "div") "textContent" (.text "hello")
        ∈ log ∧
      s1._classesDirty = false ∧ s1._stylesDirty = false ∧ s1._attributesDirty = false ∧
      s1._sizeDirty = false ∧ s1._contentDirty = false :=
  ⟨commit_clears_flags_when_listeners_are_silent.1 {} measuredSurface _
      ⟨exampleAllocator, .null⟩ measuredDom
      (Surface.commitWith {} measuredSurface ⟨exampleAllocator, .null⟩ measuredDom).state.2
      rfl rfl (by decide),
   commit_clears_flags_when_listeners_are_silent.2 1 exampleAllocator
      ⟨exampleAllocator, .array (.num 100, .num 50)⟩ exampleDom (by decide)⟩


/-! ## Commit without listener calls, in a context with a size -/

theorem toOption_ofOption (o : Option Size) : (ContextSize.ofOption o).toOption = o := by
  cases o <;> rfl

theorem xyNotEqualsContext_ofOption (a o : Option Size) :
    Surface.xyNotEqualsContext a (ContextSize.ofOption o) = Surface.xyNotEquals a o := by
  cases a <;> cases o <;> rfl

theorem resolveSizeContext_ofOption (s : Surface) (allocator : Allocator) (o : Option Size)
    (dom : Dom) :
    Surface.resolveSizeContext s ⟨allocator, ContextSize.ofOption o⟩ dom
      = (Surface.resolveSize s ⟨allocator, o⟩ dom).map
          (fun r => (r.1, ContextSize.ofOption r.2)) := by
  unfold Surface.resolveSizeContext Surface.resolveSize
  simp only [toOption_ofOption]
  rcases hs : s.size with _ | ⟨a, b⟩
  · rfl
  · simp only
    cases ha : Surface.inheritAxis a (o.map Prod.fst) with
    | none => rfl
    | some a1 =>
      cases hb : Surface.inheritAxis b (o.map Prod.snd) with
      | none => rfl
      | some b1 =>
        simp only
        by_cases ht : a1 = .tru ∨ b1 = .tru
        · simp only [ht, if_true, Option.map_some']
          rfl
        · simp only [ht, if_false, Option.map_some']
          rfl

theorem storeSizeContext_ofOption (s : Surface) (o : Option Size) :
    Surface.storeSizeContext s (ContextSize.ofOption o)
      = match Surface.storeSize s o with
        | some s2 => .returned s2
        | none => .threw s := by
  unfold Surface.storeSizeContext Surface.storeSize
  rw [xyNotEqualsContext_ofOption]
  by_cases hx : Surface.xyNotEquals s._size o = true
  · simp only [hx, if_true]
    cases o with
    | some sz => rfl
    | none =>
      cases hs : s._size with
      | none => rw [hs] at hx; simp [Surface.xyNotEquals] at hx
      | some x => rfl
  · simp only [hx]
    rfl

/-- Without listener calls and in a context whose size is `null` or an array,
the commit of the code and `commitTarget` agree. -/
theorem commitTargetWith_silent_eq (l : Listeners) (hr : l.resize = []) (hd : l.deploy = [])
    (s : Surface) (t : Nat) (allocator : Allocator) (o : Option Size) (dom : Dom) :
    Surface.commitTargetWith l s t ⟨allocator, ContextSize.ofOption o⟩ dom
      = Surface.commitTarget s t ⟨allocator, o⟩ dom := by
  unfold Surface.commitTargetWith Surface.commitTarget
  simp only [resolveSizeContext_ofOption]
  cases hR : Surface.resolveSize
      (Surface.commitAttributes (Surface.commitStyles (Surface.commitClasses s t).1 t).1 t).1
      ⟨allocator, o⟩ dom with
  | none => rfl
  | some r =>
    obtain ⟨s1, size⟩ := r
    simp only [Option.map_some', storeSizeContext_ofOption]
    cases hS : Surface.storeSize s1 size with
    | none => rfl
    | some s2 =>
      simp only [commitSizeDirtyWith_silent l hr, commitContentWith_silent l hd]

/-- Without listener calls and in a context whose size is `null` or an array,
`commitWith` and `commit` agree. -/
theorem commitWith_silent_eq (l : Listeners) (hr : l.resize = []) (hd : l.deploy = [])
    (s : Surface) (allocator : Allocator) (o : Option Size) (dom : Dom) :
    Surface.commitWith l s ⟨allocator, ContextSize.ofOption o⟩ dom
      = Surface.commit s ⟨allocator, o⟩ dom := by
  unfold Surface.commitWith Surface.commit
  cases ht : s._currentTarget with
  | some t => exact commitTargetWith_silent_eq l hr hd s t allocator o dom
  | none =>
    simp only
    rw [commitTargetWith_silent_eq l hr hd]


/-! ## The two models of a dispatch on the states evaluated above -/

/-- With callbacks that make no call on the router, the dispatch through the
loop of `emit` calls the callbacks that `nativeListener` lists, on the state
left by `addEventListener` and `removeEventListener` for id `7` and on the
state left by two rounds of `addEventListenerForAllOthers` and
`removeEventListenerForAllOthers`. -/
theorem dispatch_calls_nativeListener_callbacks :
    (DOMEventHandler.dispatch inertProgram desktop 10
        (DOMEventHandler.removeEventListener desktop
          (DOMEventHandler.addEventListener desktop {} "7" 1 "click" 42) 1 "7" "click" 42)
        "click" (some "7") 0).map (fun r => r.state.2.map (fun call => call.fn))
      = some (DOMEventHandler.nativeListener
          (DOMEventHandler.removeEventListener desktop
            (DOMEventHandler.addEventListener desktop {} "7" 1 "click" 42) 1 "7" "click" 42)
          "click" (some "7")) ∧
    (DOMEventHandler.dispatch inertProgram desktop 10
        (DOMEventHandler.run desktop {}
          [.addEventListenerForAllOthers "7" "click" 42,
           .removeEventListenerForAllOthers "7" "click" 42,
           .addEventListenerForAllOthers "7" "click" 42,
           .removeEventListenerForAllOthers "7" "click" 42])
        "click" (some "8") 0).map (fun r => r.state.2.map (fun call => call.fn))
      = some (DOMEventHandler.nativeListener
          (DOMEventHandler.run desktop {}
            [.addEventListenerForAllOthers "7" "click" 42,
             .removeEventListenerForAllOthers "7" "click" 42,
             .addEventListenerForAllOthers "7" "click" 42,
             .removeEventListenerForAllOthers "7" "click" 42])
          "click" (some "8")) ∧
    DOMEventHandler.nativeListener
        (DOMEventHandler.run desktop {}
          [.addEventListenerForAllOthers "7" "click" 42,
           .removeEventListenerForAllOthers "7" "click" 42,
           .addEventListenerForAllOthers "7" "click" 42,
           .removeEventListenerForAllOthers "7" "click" 42])
        "click" (some "8") = [42] := by
  decide

end Famous
